import Mathlib

/-!
# Review eligibility and paper status workflow of nft-platform-sample

A shallow embedding of the service layer (`internal/service`), the repositories
(`internal/repository`), the review handler and the error reply of the base handler
(`internal/handlers`), the application errors (`internal/errors`), the validator
(`internal/validation`) and the query parameters (`internal/dto`).

Modelling conventions.

* The database behind gorm is a value `DB`: the rows of the tables `papers` and
  `reviews`, in insertion order, with the last value handed out by each primary
  key sequence. Every repository method is a function on `DB`; a service method
  takes the `DB` and returns its Go result together with the `DB` it leaves.
* A storage call fails in three ways only: `First` reports `gorm.ErrRecordNotFound`
  when no row matches; a review row whose score is outside 1..10 is refused by the
  column check declared on `Review.Score` (`check:score >= 1 AND score <= 10`); and
  the foreign key from `reviews.paper_id` to `papers.id`, which the migration derives
  from the association `Review.Paper`, refuses a review of a paper that is not stored
  and the deletion of a paper that a review refers to. A refused write changes
  nothing. Lost connections are outside the model, and so is table `users`: the ids
  of owners and reviewers are those of authenticated users.
* Go `uint` identifiers are `Nat`; Go `int` scores are `Int`, and the one place
  where scores are added (`CalculatePaperScore`) wraps at 64 bits. A `float64` is the
  rational it stands for, and a `float64` operation is the exact operation followed by
  rounding to the nearest value with 53 significant bits, ties to even.
* `datatypes.JSON` columns hold the value that was marshalled (a list of
  strings, a `ReviewMetadata`); timestamps and preloaded associations are left
  out of the rows.
* A Go `error` handed to the base handler is a `GoError`: `nil`, an `*AppError`,
  or another error known by its message. The time stamp of a reply is left out.
* Go strings are `String`; `len` of a string is its number of bytes in UTF-8. The
  functions of the Go standard library that the validator calls are the fields of a
  `StdLib` value.
-/

namespace NftPlatform

/-! ## Models -/

/-- Row of table `papers` (models/paper.go). -/
structure Paper where
  ID : Nat
  Title : String
  Abstract : String
  Authors : List String
  Keywords : List String
  Category : String
  IPFSHash : String
  NFTTokenID : Option Nat
  OwnerID : Nat
  Status : String
deriving DecidableEq, Repr

/-- Value of `models.ReviewMetadata`; the criteria map is kept as its list of entries. -/
structure ReviewMetadata where
  ReviewCriteria : List (String × Int)
  ReviewType : String
  Version : Int
deriving DecidableEq, Repr

/-- Row of table `reviews` (models/review.go). -/
structure Review where
  ID : Nat
  PaperID : Nat
  ReviewerID : Nat
  Score : Int
  Comment : String
  Recommendation : String
  Status : String
  Metadata : ReviewMetadata
  NFTTokenID : Option Nat
deriving DecidableEq, Repr

/-- Go `error` values returned by the repositories and services: the gorm sentinel, the
values built with `errors.New`, and the two errors of the database that refuse a write,
of which only the kind is kept. -/
inductive Err where
  | ErrRecordNotFound
  | New (text : String)
  | CheckViolation
  | ForeignKeyViolation
deriving DecidableEq, Repr

deriving instance DecidableEq for Except

/-- Method `Error()` of a Go error: its message. -/
def Err.Error : Err → String
  | .ErrRecordNotFound => "record not found"
  | .New text => text
  | .CheckViolation => "violates check constraint"
  | .ForeignKeyViolation => "violates foreign key constraint"

/-- The database: both tables and the last value of each primary key sequence. -/
structure DB where
  papers : List Paper
  reviews : List Review
  paperSeq : Nat
  reviewSeq : Nat
deriving DecidableEq, Repr

/-! ## Repositories -/

/-- `PaperRepository.Create`: insert the row under the next primary key (the services
always pass a zero `ID`) and hand the stored row back. -/
def PaperRepository.Create (db : DB) (paper : Paper) : Paper × DB :=
  let row : Paper := { paper with ID := db.paperSeq + 1 }
  (row, { db with papers := db.papers ++ [row], paperSeq := db.paperSeq + 1 })

/-- `PaperRepository.GetByID`: `First(&paper, id)`. -/
def PaperRepository.GetByID (db : DB) (id : Nat) : Except Err Paper :=
  match db.papers.find? (fun p => p.ID == id) with
  | some p => .ok p
  | none => .error .ErrRecordNotFound

/-- `PaperRepository.Update`: `Save(paper)`, an update of all columns of the rows whose
primary key is `paper.ID` (the services save only rows they have just read). -/
def PaperRepository.Update (db : DB) (paper : Paper) : DB :=
  { db with papers := db.papers.map (fun p => if p.ID == paper.ID then paper else p) }

/-- `PaperRepository.Delete`: `Delete(&models.Paper{}, id)`; the foreign key of table
`reviews` refuses the deletion of a paper that a review refers to. -/
def PaperRepository.Delete (db : DB) (id : Nat) : Except Err Unit × DB :=
  if db.reviews.any (fun r => r.PaperID == id) then
    (.error .ForeignKeyViolation, db)
  else
    (.ok (), { db with papers := db.papers.filter (fun p => p.ID != id) })

/-- The column check `score >= 1 AND score <= 10` of table `reviews`
(models/review.go). -/
def Review.scoreCheck (review : Review) : Bool :=
  decide (review.Score ≥ 1) && decide (review.Score ≤ 10)

/-- `ReviewRepository.Create`: insert under the next primary key; an empty `Status`
takes the column default `pending`. The insert is refused when the score fails the column
check, and when no paper has the id in `PaperID`. -/
def ReviewRepository.Create (db : DB) (review : Review) : Except Err Review × DB :=
  if !review.scoreCheck then
    (.error .CheckViolation, db)
  else if !db.papers.any (fun p => p.ID == review.PaperID) then
    (.error .ForeignKeyViolation, db)
  else
    let row : Review :=
      { review with
        ID := db.reviewSeq + 1
        Status := if review.Status == "" then "pending" else review.Status }
    (.ok row, { db with reviews := db.reviews ++ [row], reviewSeq := db.reviewSeq + 1 })

/-- `ReviewRepository.GetByID`: `First(&review, id)`. -/
def ReviewRepository.GetByID (db : DB) (id : Nat) : Except Err Review :=
  match db.reviews.find? (fun r => r.ID == id) with
  | some r => .ok r
  | none => .error .ErrRecordNotFound

/-- `ReviewRepository.Update`: `Save(review)`, refused when the score fails the column
check (the services never change `PaperID`, so the foreign key is not tested again). -/
def ReviewRepository.Update (db : DB) (review : Review) : Except Err Unit × DB :=
  if !review.scoreCheck then
    (.error .CheckViolation, db)
  else
    (.ok (),
      { db with
        reviews := db.reviews.map (fun r => if r.ID == review.ID then review else r) })

/-- `ReviewRepository.Delete`: `Delete(&models.Review{}, id)`. -/
def ReviewRepository.Delete (db : DB) (id : Nat) : DB :=
  { db with reviews := db.reviews.filter (fun r => r.ID != id) }

/-- `ReviewRepository.GetByPaperID`: `Where("paper_id = ?", paperID).Find(&reviews)`. -/
def ReviewRepository.GetByPaperID (db : DB) (paperID : Nat) : List Review :=
  db.reviews.filter (fun r => r.PaperID == paperID)

/-- `ReviewRepository.GetByPaperAndReviewer`: a matching row, or `nil` (here `none`)
when gorm reports that there is none. -/
def ReviewRepository.GetByPaperAndReviewer (db : DB) (paperID reviewerID : Nat) :
    Option Review :=
  db.reviews.find? (fun r => r.PaperID == paperID && r.ReviewerID == reviewerID)

/-! ## Paper service -/

/-- Request body of paper creation (`service.CreatePaperRequest`). -/
structure CreatePaperRequest where
  Title : String
  Abstract : String
  Authors : List String
  Keywords : List String
  Category : String
deriving DecidableEq, Repr

/-- Request body of a paper update (`service.UpdatePaperRequest`). -/
structure UpdatePaperRequest where
  Title : String
  Abstract : String
  Authors : List String
  Keywords : List String
  Category : String
deriving DecidableEq, Repr

/-- `PaperService.CreatePaper`. -/
def PaperService.CreatePaper (db : DB) (req : CreatePaperRequest) (ownerID : Nat) :
    Except Err Paper × DB :=
  let paper : Paper :=
    { ID := 0
      Title := req.Title
      Abstract := req.Abstract
      Authors := req.Authors
      Keywords := req.Keywords
      Category := req.Category
      IPFSHash := ""
      NFTTokenID := none
      OwnerID := ownerID
      Status := "draft" }
  let (paper, db) := PaperRepository.Create db paper
  (.ok paper, db)

/-- `PaperService.UpdatePaper`. -/
def PaperService.UpdatePaper (db : DB) (id : Nat) (req : UpdatePaperRequest) (userID : Nat) :
    Except Err Paper × DB :=
  match PaperRepository.GetByID db id with
  | .error err => (.error err, db)
  | .ok paper =>
    if paper.OwnerID != userID then
      (.error (.New "unauthorized to update this paper"), db)
    else
      let paper := if req.Title != "" then { paper with Title := req.Title } else paper
      let paper := if req.Abstract != "" then { paper with Abstract := req.Abstract } else paper
      let paper := if req.Authors.length > 0 then { paper with Authors := req.Authors } else paper
      let paper :=
        if req.Keywords.length > 0 then { paper with Keywords := req.Keywords } else paper
      let paper := if req.Category != "" then { paper with Category := req.Category } else paper
      (.ok paper, PaperRepository.Update db paper)

/-- `PaperService.DeletePaper`. -/
def PaperService.DeletePaper (db : DB) (id userID : Nat) : Except Err Unit × DB :=
  match PaperRepository.GetByID db id with
  | .error err => (.error err, db)
  | .ok paper =>
    if paper.OwnerID != userID then
      (.error (.New "unauthorized to delete this paper"), db)
    else
      PaperRepository.Delete db id

/-- `PaperService.SubmitForReview`. -/
def PaperService.SubmitForReview (db : DB) (id userID : Nat) : Except Err Paper × DB :=
  match PaperRepository.GetByID db id with
  | .error err => (.error err, db)
  | .ok paper =>
    if paper.OwnerID != userID then
      (.error (.New "unauthorized to submit this paper"), db)
    else if paper.Status != "draft" then
      (.error (.New "paper is not in draft status"), db)
    else
      let paper := { paper with Status := "submitted" }
      (.ok paper, PaperRepository.Update db paper)

/-! ## Review service -/

/-- Request body of review creation and update (`service.CreateReviewRequest`). -/
structure CreateReviewRequest where
  PaperID : Nat
  Comment : String
  Score : Int
  Recommendation : String
deriving DecidableEq, Repr

/-- `ReviewService.CreateReview`. -/
def ReviewService.CreateReview (db : DB) (req : CreateReviewRequest) (reviewerID : Nat) :
    Except Err Review × DB :=
  match PaperRepository.GetByID db req.PaperID with
  | .error err => (.error err, db)
  | .ok paper =>
    if paper.Status != "submitted" && paper.Status != "under_review" then
      (.error (.New "paper is not available for review"), db)
    else
      match ReviewRepository.GetByPaperAndReviewer db req.PaperID reviewerID with
      | some _ => (.error (.New "you have already reviewed this paper"), db)
      | none =>
        let metadata : ReviewMetadata :=
          { ReviewCriteria :=
              [("originality", 0), ("methodology", 0), ("clarity", 0), ("significance", 0)]
            ReviewType := "peer_review"
            Version := 1 }
        let review : Review :=
          { ID := 0
            PaperID := req.PaperID
            ReviewerID := reviewerID
            Score := req.Score
            Comment := req.Comment
            Recommendation := req.Recommendation
            Status := ""
            Metadata := metadata
            NFTTokenID := none }
        match ReviewRepository.Create db review with
        | (.error err, db) => (.error err, db)
        | (.ok review, db) =>
          if paper.Status == "submitted" then
            (.ok review, PaperRepository.Update db { paper with Status := "under_review" })
          else
            (.ok review, db)

/-- `ReviewService.UpdateReview`. -/
def ReviewService.UpdateReview (db : DB) (id : Nat) (req : CreateReviewRequest)
    (reviewerID : Nat) : Except Err Review × DB :=
  match ReviewRepository.GetByID db id with
  | .error err => (.error err, db)
  | .ok review =>
    if review.ReviewerID != reviewerID then
      (.error (.New "unauthorized to update this review"), db)
    else
      let review :=
        { review with
          Comment := req.Comment
          Score := req.Score
          Recommendation := req.Recommendation }
      match ReviewRepository.Update db review with
      | (.error err, db) => (.error err, db)
      | (.ok _, db) => (.ok review, db)

/-- `ReviewService.DeleteReview`. -/
def ReviewService.DeleteReview (db : DB) (id reviewerID : Nat) : Except Err Unit × DB :=
  match ReviewRepository.GetByID db id with
  | .error err => (.error err, db)
  | .ok review =>
    if review.ReviewerID != reviewerID then
      (.error (.New "unauthorized to delete this review"), db)
    else
      (.ok (), ReviewRepository.Delete db id)

/-- Go addition on `int` (64 bits): the sum reduced into `[-2^63, 2^63)`. -/
def wrapInt64 (x : Int) : Int :=
  (x + 9223372036854775808) % 18446744073709551616 - 9223372036854775808

/-- Rounding of a rational to the nearest integer, a tie going to the even one. -/
def roundHalfEven (q : ℚ) : Int :=
  if Int.fract q < 1 / 2 then ⌊q⌋
  else if 1 / 2 < Int.fract q then ⌊q⌋ + 1
  else if ⌊q⌋ % 2 = 0 then ⌊q⌋
  else ⌊q⌋ + 1

/-- The binary exponent of a rational other than 0: the `e` with `2^e ≤ |q| < 2^(e+1)`. -/
def binaryExponent (q : ℚ) : Int :=
  Int.log 2 |q|

/-- The `float64` nearest to a rational, a tie going to the even significand: the value
is rounded to 53 significant bits, that is to a multiple of `2^(e-52)` where `e` is its
binary exponent. The exponent is not bounded; the values rounded in
`CalculatePaperScore`, a 64-bit integer and the quotient of one by a positive one, have
exponents from -63 to 63, far inside the range of normal `float64` numbers. -/
def roundFloat64 (q : ℚ) : ℚ :=
  if q = 0 then 0
  else (roundHalfEven (q / 2 ^ (binaryExponent q - 52)) : ℚ) * 2 ^ (binaryExponent q - 52)

/-- `ReviewService.CalculatePaperScore`: the sum is a Go `int`, the two conversions
`float64(totalScore)` and `float64(len(reviews))` round to the nearest `float64`, and so
does the division. A `float64` result is given as the rational it stands for. -/
def ReviewService.CalculatePaperScore (db : DB) (paperID : Nat) : Except Err ℚ :=
  let reviews := ReviewRepository.GetByPaperID db paperID
  if reviews.length == 0 then
    .ok 0
  else
    let totalScore : Int :=
      reviews.foldl (fun total review => wrapInt64 (total + review.Score)) 0
    .ok (roundFloat64 (roundFloat64 (totalScore : ℚ) / roundFloat64 (reviews.length : ℚ)))

/-- `ReviewService.CheckReviewEligibility`. -/
def ReviewService.CheckReviewEligibility (db : DB) (paperID userID : Nat) : Except Err Unit :=
  match PaperRepository.GetByID db paperID with
  | .error err => .error err
  | .ok paper =>
    if paper.OwnerID == userID then
      .error (.New "authors cannot review their own papers")
    else if paper.Status != "submitted" && paper.Status != "under_review" then
      .error (.New "paper is not available for review")
    else
      match ReviewRepository.GetByPaperAndReviewer db paperID userID with
      | some _ => .error (.New "you have already reviewed this paper")
      | none => .ok ()

/-! ## Review handler -/

/-- What a handler reads from the HTTP request: the method, the user id the auth
middleware left in the context (`GetUserIDFromContext`), and the outcome of
`DecodeJSONRequest` on the body. -/
structure Request (α : Type) where
  Method : String
  UserID : Option Nat
  Body : Except String α

/-- Reply of a handler: the `Send...Response` helper it calls, with its arguments. -/
inductive Response (β : Type) where
  | MethodNotAllowed
  | Unauthorized
  | ValidationError (message : String)
  | Error (statusCode : Nat) (message : String)
  | InternalServerError (err : Err)
  | JSON (statusCode : Nat) (data : β)
deriving DecidableEq, Repr

/-- `ReviewHandler.CreateReview`. The helper `ValidateRequiredFields` is a parameter:
it receives the named fields and answers with an error message or nothing. -/
def ReviewHandler.CreateReview (ValidateRequiredFields : List (String × String) → Option String)
    (db : DB) (r : Request CreateReviewRequest) : Response Review × DB :=
  if r.Method != "POST" then
    (.MethodNotAllowed, db)
  else
    match r.UserID with
    | none => (.Unauthorized, db)
    | some userID =>
      match r.Body with
      | .error message => (.ValidationError message, db)
      | .ok req =>
        match ValidateRequiredFields
            [("comment", req.Comment), ("recommendation", req.Recommendation)] with
        | some message => (.ValidationError message, db)
        | none =>
          if req.Score < 1 || req.Score > 10 then
            (.ValidationError "Score must be between 1 and 10", db)
          else
            match ReviewService.CheckReviewEligibility db req.PaperID userID with
            | .error err => (.Error 403 err.Error, db)
            | .ok _ =>
              match ReviewService.CreateReview db req userID with
              | (.error err, db) => (.InternalServerError err, db)
              | (.ok review, db) => (.JSON 201 review, db)

/-! ## Reading papers -/

/-- `PaperService.GetPaper`. -/
def PaperService.GetPaper (db : DB) (id : Nat) : Except Err Paper :=
  PaperRepository.GetByID db id

/-- The chain `Limit(limit).Offset(offset)` of gorm applied to the rows a query selects:
`OFFSET` is written for a positive offset only and `LIMIT` for a limit that is not
negative. -/
def limitOffset {α : Type} (limit offset : Int) (rows : List α) : List α :=
  let rows := if offset > 0 then rows.drop offset.toNat else rows
  if limit ≥ 0 then rows.take limit.toNat else rows

/-- `PaperRepository.GetPendingReviews`: the papers whose status is `submitted` or
`under_review` and whose id is not among the `paper_id` of the reviews by the reviewer. -/
def PaperRepository.GetPendingReviews (db : DB) (reviewerID : Nat) (limit offset : Int) :
    List Paper :=
  let subQuery : List Nat :=
    (db.reviews.filter (fun r => r.ReviewerID == reviewerID)).map (fun r => r.PaperID)
  limitOffset limit offset
    (db.papers.filter (fun p =>
      (p.Status == "submitted" || p.Status == "under_review") && !subQuery.contains p.ID))

/-- `ReviewService.GetPendingReviews`; the offset is computed on 64-bit `int`. -/
def ReviewService.GetPendingReviews (db : DB) (reviewerID : Nat) (page limit : Int) :
    List Paper :=
  let offset := wrapInt64 (wrapInt64 (page - 1) * limit)
  PaperRepository.GetPendingReviews db reviewerID limit offset

/-! ## Application errors (`internal/errors`) -/

/-- `errors.ErrorCode` is a string type. -/
abbrev ErrorCode := String

/-- Code `ErrInternal`. -/
def errors.ErrInternal : ErrorCode := "INTERNAL_ERROR"

/-- Code `ErrBadRequest`. -/
def errors.ErrBadRequest : ErrorCode := "BAD_REQUEST"

/-- Code `ErrNotFound`. -/
def errors.ErrNotFound : ErrorCode := "NOT_FOUND"

/-- Code `ErrConflict`. -/
def errors.ErrConflict : ErrorCode := "CONFLICT"

/-- Code `ErrUnauthorized`. -/
def errors.ErrUnauthorized : ErrorCode := "UNAUTHORIZED"

/-- Code `ErrForbidden`. -/
def errors.ErrForbidden : ErrorCode := "FORBIDDEN"

/-- Code `ErrInvalidToken`. -/
def errors.ErrInvalidToken : ErrorCode := "INVALID_TOKEN"

/-- Code `ErrTokenExpired`. -/
def errors.ErrTokenExpired : ErrorCode := "TOKEN_EXPIRED"

/-- Code `ErrValidation`. -/
def errors.ErrValidation : ErrorCode := "VALIDATION_ERROR"

/-- Code `ErrMissingField`. -/
def errors.ErrMissingField : ErrorCode := "MISSING_FIELD"

/-- Code `ErrInvalidFormat`. -/
def errors.ErrInvalidFormat : ErrorCode := "INVALID_FORMAT"

/-- Code `ErrUserExists`. -/
def errors.ErrUserExists : ErrorCode := "USER_EXISTS"

/-- Code `ErrUserNotFound`. -/
def errors.ErrUserNotFound : ErrorCode := "USER_NOT_FOUND"

/-- Code `ErrPaperNotFound`. -/
def errors.ErrPaperNotFound : ErrorCode := "PAPER_NOT_FOUND"

/-- Code `ErrReviewNotFound`. -/
def errors.ErrReviewNotFound : ErrorCode := "REVIEW_NOT_FOUND"

/-- Code `ErrInvalidOwner`. -/
def errors.ErrInvalidOwner : ErrorCode := "INVALID_OWNER"

/-- Code `ErrAlreadyReviewed`. -/
def errors.ErrAlreadyReviewed : ErrorCode := "ALREADY_REVIEWED"

/-- A value of the Go interface `error`: `nil`, an `*AppError` (with its five fields), or
any other error, of which only the message is kept. The `Details` of an application
error, a value of any type, are kept as the text they are encoded to. -/
inductive GoError where
  | nil
  | other (text : String)
  | app (Code : ErrorCode) (Message : String) (Details : Option String) (Cause : GoError)
      (StatusCode : Nat)
deriving DecidableEq, Repr

/-- The struct `errors.AppError`. -/
structure AppError where
  Code : ErrorCode
  Message : String
  Details : Option String
  Cause : GoError
  StatusCode : Nat
deriving DecidableEq, Repr

/-- An `*AppError` used as an `error`. -/
def AppError.toError (e : AppError) : GoError :=
  .app e.Code e.Message e.Details e.Cause e.StatusCode

/-- `getStatusCode`: the HTTP status of a code. -/
def errors.getStatusCode (code : ErrorCode) : Nat :=
  if code = errors.ErrBadRequest ∨ code = errors.ErrValidation ∨
      code = errors.ErrMissingField ∨ code = errors.ErrInvalidFormat then 400
  else if code = errors.ErrUnauthorized ∨ code = errors.ErrInvalidToken ∨
      code = errors.ErrTokenExpired then 401
  else if code = errors.ErrForbidden ∨ code = errors.ErrInvalidOwner then 403
  else if code = errors.ErrNotFound ∨ code = errors.ErrUserNotFound ∨
      code = errors.ErrPaperNotFound ∨ code = errors.ErrReviewNotFound then 404
  else if code = errors.ErrConflict ∨ code = errors.ErrUserExists ∨
      code = errors.ErrAlreadyReviewed then 409
  else 500

/-- `errors.New`. -/
def errors.New (code : ErrorCode) (message : String) : AppError :=
  { Code := code
    Message := message
    Details := none
    Cause := .nil
    StatusCode := errors.getStatusCode code }

/-- `errors.Wrap`. -/
def errors.Wrap (err : GoError) (code : ErrorCode) (message : String) : AppError :=
  { Code := code
    Message := message
    Details := none
    Cause := err
    StatusCode := errors.getStatusCode code }

/-- `AppError.WithDetails`. -/
def AppError.WithDetails (e : AppError) (details : Option String) : AppError :=
  { e with Details := details }

/-- `AppError.WithStatusCode`. -/
def AppError.WithStatusCode (e : AppError) (code : Nat) : AppError :=
  { e with StatusCode := code }

/-- `errors.BadRequest`. -/
def errors.BadRequest (message : String) : AppError :=
  errors.New errors.ErrBadRequest message

/-- `errors.NotFound`. -/
def errors.NotFound (resource : String) : AppError :=
  errors.New errors.ErrNotFound (resource ++ " not found")

/-- `errors.Unauthorized`. -/
def errors.Unauthorized (message : String) : AppError :=
  let message := if message = "" then "Authentication required" else message
  errors.New errors.ErrUnauthorized message

/-- `errors.Forbidden`. -/
def errors.Forbidden (message : String) : AppError :=
  let message := if message = "" then "Access denied" else message
  errors.New errors.ErrForbidden message

/-- `errors.Internal`. -/
def errors.Internal (message : String) (cause : GoError) : AppError :=
  errors.Wrap cause errors.ErrInternal message

/-- `errors.Validation`. -/
def errors.Validation (message : String) (details : Option String) : AppError :=
  (errors.New errors.ErrValidation message).WithDetails details

/-- `errors.Conflict`. -/
def errors.Conflict (message : String) : AppError :=
  errors.New errors.ErrConflict message

/-- `errors.IsAppError`. -/
def errors.IsAppError : GoError → Bool
  | .app _ _ _ _ _ => true
  | _ => false

/-- `errors.AsAppError`. -/
def errors.AsAppError : GoError → AppError
  | .app code message details cause statusCode =>
    { Code := code, Message := message, Details := details, Cause := cause,
      StatusCode := statusCode }
  | err => errors.Internal "Internal server error" err

/-! ## Error envelope (`internal/dto`, `internal/handlers/base.go`) -/

/-- The struct `dto.ErrorInfo`. -/
structure ErrorInfo where
  Code : String
  Message : String
  Details : Option String
deriving DecidableEq, Repr

/-- The struct `dto.APIResponse` without `Meta`, which holds the time of the reply. -/
structure APIResponse where
  Success : Bool
  Data : Option String
  Error : Option ErrorInfo
deriving DecidableEq, Repr

/-- `BaseHandler.SendError`: the status written to the header and the envelope encoded
into the body. The test `IsAppError` and the type assertion that follows it are the first
case of the match. -/
def BaseHandler.SendError (err : GoError) : Nat × APIResponse :=
  let appErr : AppError :=
    match err with
    | .app code message details cause statusCode =>
      { Code := code, Message := message, Details := details, Cause := cause,
        StatusCode := statusCode }
    | err => errors.Internal "Internal server error" err
  let response : APIResponse :=
    { Success := false
      Data := none
      Error := some { Code := appErr.Code, Message := appErr.Message, Details := appErr.Details } }
  (appErr.StatusCode, response)

/-! ## Validation (`internal/validation`) -/

/-- The struct `validation.ValidationError`. -/
structure ValidationError where
  Field : String
  Message : String
deriving DecidableEq, Repr

/-- The struct `validation.Validator`: the errors recorded so far, oldest first. -/
structure Validator where
  errors : List ValidationError
deriving DecidableEq, Repr

/-- The functions of the Go standard library that the checks call: `strings.TrimSpace`,
`mail.ParseAddress` (whether it returns no error) and `regexp.MatchString` (the match, or
the error of a pattern that does not compile). -/
structure StdLib where
  TrimSpace : String → String
  ParseAddress : String → Bool
  MatchString : String → String → Except String Bool

/-- `validation.NewValidator`. -/
def NewValidator : Validator :=
  { errors := [] }

/-- `Validator.AddError`. -/
def Validator.AddError (v : Validator) (field message : String) : Validator :=
  { errors := v.errors ++ [{ Field := field, Message := message }] }

/-- `Validator.HasErrors`. -/
def Validator.HasErrors (v : Validator) : Bool :=
  v.errors.length > 0

/-- `Validator.Errors`. -/
def Validator.Errors (v : Validator) : List ValidationError :=
  v.errors

/-- `Validator.Required`. -/
def Validator.Required (lib : StdLib) (v : Validator) (field value : String) : Validator :=
  if lib.TrimSpace value == "" then v.AddError field "is required" else v

/-- `Validator.Email`. -/
def Validator.Email (lib : StdLib) (v : Validator) (field value : String) : Validator :=
  if value != "" then
    if !lib.ParseAddress value then v.AddError field "must be a valid email address" else v
  else v

/-- `Validator.MinLength`; `len(value)` of a Go string is its number of bytes. -/
def Validator.MinLength (v : Validator) (field value : String) (min : Int) : Validator :=
  if (value.utf8ByteSize : Int) < min then
    v.AddError field ("must be at least " ++ toString min ++ " characters long")
  else v

/-- `Validator.MaxLength`; `len(value)` of a Go string is its number of bytes. -/
def Validator.MaxLength (v : Validator) (field value : String) (max : Int) : Validator :=
  if (value.utf8ByteSize : Int) > max then
    v.AddError field ("must be no more than " ++ toString max ++ " characters long")
  else v

/-- `Validator.Range`. -/
def Validator.Range (v : Validator) (field : String) (value min max : Int) : Validator :=
  if value < min || value > max then
    v.AddError field ("must be between " ++ toString min ++ " and " ++ toString max)
  else v

/-- `Validator.OneOf`. -/
def Validator.OneOf (v : Validator) (field value : String) (allowed : List String) :
    Validator :=
  if allowed.any (fun a => value == a) then v
  else v.AddError field ("must be one of: " ++ ", ".intercalate allowed)

/-- `Validator.Pattern`. -/
def Validator.Pattern (lib : StdLib) (v : Validator) (field value pattern : String) :
    Validator :=
  if value != "" then
    match lib.MatchString pattern value with
    | .error _ => v.AddError field "invalid pattern validation"
    | .ok matched => if !matched then v.AddError field "format is invalid" else v
  else v

/-- `Validator.ArrayNotEmpty`. -/
def Validator.ArrayNotEmpty (v : Validator) (field : String) (value : List String) :
    Validator :=
  if value.length == 0 then v.AddError field "must contain at least one item" else v

/-- `Validator.Validate`: the recorded errors as an `error`, or `nil` (here `none`). -/
def Validator.Validate (v : Validator) : Option (List ValidationError) :=
  if v.HasErrors then some v.errors else none

/-! ## Query parameters (`internal/dto`, `internal/handlers/base.go`) -/

/-- The struct `dto.QueryParams`. -/
structure QueryParams where
  Page : Int
  PageSize : Int
  Search : String
  Category : String
  Status : String
  SortBy : String
  SortDir : String
deriving DecidableEq, Repr

/-- `QueryParams.SetDefaults`. -/
def QueryParams.SetDefaults (q : QueryParams) : QueryParams :=
  let q := if q.Page ≤ 0 then { q with Page := 1 } else q
  let q := if q.PageSize ≤ 0 || q.PageSize > 100 then { q with PageSize := 10 } else q
  let q := if q.SortDir == "" then { q with SortDir := "desc" } else q
  q

/-- The helper `parseInt` of `handlers/base.go`: both of its branches return the default
value. -/
def handlers.parseInt (s : String) (defaultVal : Int) : Int :=
  if s == "" then defaultVal else defaultVal

/-- `BaseHandler.ParseQueryParams`; the query of the request is the function `Get` that
gives the value of a key, empty when the key is missing. -/
def BaseHandler.ParseQueryParams (Get : String → String) : QueryParams :=
  let params : QueryParams :=
    { Page := 0
      PageSize := 0
      Search := Get "search"
      Category := Get "category"
      Status := Get "status"
      SortBy := Get "sort_by"
      SortDir := Get "sort_dir" }
  let pageStr := Get "page"
  let params :=
    if pageStr != "" then
      let page := handlers.parseInt pageStr 1
      if page > 0 then { params with Page := page } else params
    else params
  let pageSizeStr := Get "page_size"
  let params :=
    if pageSizeStr != "" then
      let pageSize := handlers.parseInt pageSizeStr 10
      if pageSize > 0 && pageSize <= 100 then { params with PageSize := pageSize } else params
    else params
  params.SetDefaults

/-! ## Properties of a database -/

/-- Primary keys: no two rows of a table share an `ID`, and every `ID` has been handed
out by the table's sequence. -/
def DB.PrimaryKeys (db : DB) : Prop :=
  (db.papers.map (fun p => p.ID)).Nodup ∧ (db.reviews.map (fun r => r.ID)).Nodup ∧
  (∀ p ∈ db.papers, p.ID ≤ db.paperSeq) ∧ (∀ r ∈ db.reviews, r.ID ≤ db.reviewSeq)

instance (db : DB) : Decidable db.PrimaryKeys := by
  unfold DB.PrimaryKeys; infer_instance

/-- A paper row with the given key, owner and status. -/
def samplePaper (id ownerID : Nat) (status : String) : Paper :=
  { ID := id
    Title := "On sample data"
    Abstract := "A row used in examples"
    Authors := ["A. Author"]
    Keywords := ["example"]
    Category := "cs"
    IPFSHash := ""
    NFTTokenID := none
    OwnerID := ownerID
    Status := status }

/-- A review row with the given key, paper, reviewer and score. -/
def sampleReview (id paperID reviewerID : Nat) (score : Int) : Review :=
  { ID := id
    PaperID := paperID
    ReviewerID := reviewerID
    Score := score
    Comment := "a careful reading"
    Recommendation := "accept"
    Status := "pending"
    Metadata := { ReviewCriteria := [], ReviewType := "peer_review", Version := 1 }
    NFTTokenID := none }

/-- Papers 1 (draft), 2 (submitted), 3 (under review, reviewed by user 20) and
4 (published, reviewed by user 20), all owned by user 10. -/
def sampleDB : DB :=
  { papers :=
      [samplePaper 1 10 "draft", samplePaper 2 10 "submitted",
       samplePaper 3 10 "under_review", samplePaper 4 10 "published"]
    reviews := [sampleReview 1 3 20 7, sampleReview 2 4 20 9]
    paperSeq := 4
    reviewSeq := 2 }

/-- One call of a service operation that may write to the database. -/
inductive Op where
  | CreatePaper (req : CreatePaperRequest) (ownerID : Nat)
  | UpdatePaper (id : Nat) (req : UpdatePaperRequest) (userID : Nat)
  | DeletePaper (id userID : Nat)
  | SubmitForReview (id userID : Nat)
  | CreateReview (req : CreateReviewRequest) (reviewerID : Nat)
  | UpdateReview (id : Nat) (req : CreateReviewRequest) (reviewerID : Nat)
  | DeleteReview (id reviewerID : Nat)
deriving DecidableEq, Repr

/-- The database a call leaves behind, whether it returned an error or not. -/
def Op.run (db : DB) : Op → DB
  | .CreatePaper req ownerID => (PaperService.CreatePaper db req ownerID).2
  | .UpdatePaper id req userID => (PaperService.UpdatePaper db id req userID).2
  | .DeletePaper id userID => (PaperService.DeletePaper db id userID).2
  | .SubmitForReview id userID => (PaperService.SubmitForReview db id userID).2
  | .CreateReview req reviewerID => (ReviewService.CreateReview db req reviewerID).2
  | .UpdateReview id req reviewerID => (ReviewService.UpdateReview db id req reviewerID).2
  | .DeleteReview id reviewerID => (ReviewService.DeleteReview db id reviewerID).2

/-- The calls that write to table `reviews`. -/
def Op.isReviewOp : Op → Bool
  | .CreateReview _ _ => true
  | .UpdateReview _ _ _ => true
  | .DeleteReview _ _ => true
  | _ => false

/-- No two stored reviews share the pair (`PaperID`, `ReviewerID`). -/
def DB.UniqueReviews (db : DB) : Prop :=
  (db.reviews.map (fun r => (r.PaperID, r.ReviewerID))).Nodup

instance (db : DB) : Decidable db.UniqueReviews := by
  unfold DB.UniqueReviews; infer_instance

/-- The four statuses of a paper. -/
def ValidStatus (status : String) : Prop :=
  status = "draft" ∨ status = "submitted" ∨ status = "under_review" ∨ status = "published"

instance (status : String) : Decidable (ValidStatus status) := by
  unfold ValidStatus; infer_instance

/-- Position of a status in the order draft, submitted, under_review, published. -/
def statusRank (status : String) : Nat :=
  if status = "draft" then 0
  else if status = "submitted" then 1
  else if status = "under_review" then 2
  else 3

/-- How a stored paper row `p` may reappear as `q` after a service call: under the same
key, with its status kept, or submitted from draft, or put under review from submitted. -/
def Paper.Advances (p q : Paper) : Prop :=
  q.ID = p.ID ∧
    (q.Status = p.Status ∨ (p.Status = "draft" ∧ q.Status = "submitted") ∨
      (p.Status = "submitted" ∧ q.Status = "under_review"))

/-- Calls of `CreateReview` made one after another, each (request, reviewer) on the
database left by the one before; the run stops at the first call that returns an error. -/
def createReviews (db : DB) : List (CreateReviewRequest × Nat) → Except Err DB
  | [] => .ok db
  | call :: rest =>
    match ReviewService.CreateReview db call.1 call.2 with
    | (.ok _, db) => createReviews db rest
    | (.error err, _) => .error err

/-- The scores of the stored reviews of a paper. -/
def scoresOf (db : DB) (paperID : Nat) : List Int :=
  (db.reviews.filter (fun r => r.PaperID == paperID)).map (fun r => r.Score)

/-- Paper 1 under review with three reviews, scored 4, 6 and 10, and the submitted
paper 2 without reviews. -/
def scoreDB : DB :=
  { papers := [samplePaper 1 10 "under_review", samplePaper 2 10 "submitted"]
    reviews := [sampleReview 1 1 20 4, sampleReview 2 1 21 6, sampleReview 3 1 22 10]
    paperSeq := 2
    reviewSeq := 3 }

/-- A well-formed review request on the given paper. -/
def sampleRequest (paperID : Nat) : CreateReviewRequest :=
  { PaperID := paperID
    Comment := "sound method, clear text"
    Score := 8
    Recommendation := "accept" }

/-- A review request on the given paper with the given score. -/
def scoredRequest (paperID : Nat) (score : Int) : CreateReviewRequest :=
  { PaperID := paperID
    Comment := "sound method, clear text"
    Score := score
    Recommendation := "accept" }

/-- A review request on paper 2 whose recommendation is none of accept, reject and
revision. -/
def maybeRequest : CreateReviewRequest :=
  { PaperID := 2
    Comment := "sound method, clear text"
    Score := 8
    Recommendation := "maybe" }

/-- A presence check in the role of the handlers' helper `ValidateRequiredFields`: it
names the first empty field. -/
def requiredFieldsPresent (fields : List (String × String)) : Option String :=
  match fields.find? (fun f => f.2 == "") with
  | some f => some (f.1 ++ " is required")
  | none => none

/-- An authenticated `POST` carrying the given decoded body. -/
def samplePost (userID : Nat) (req : CreateReviewRequest) : Request CreateReviewRequest :=
  { Method := "POST", UserID := some userID, Body := .ok req }

/-- A review update that empties the comment and the recommendation and sets the score
to zero. -/
def emptyRequest : CreateReviewRequest :=
  { PaperID := 0
    Comment := ""
    Score := 0
    Recommendation := "" }

/-- An update of a paper that supplies a title and keywords and leaves the abstract, the
authors and the category empty. -/
def titleUpdate : UpdatePaperRequest :=
  { Title := "A better title"
    Abstract := ""
    Authors := []
    Keywords := ["method", "proof"]
    Category := "" }

/-- A request to create a paper. -/
def newPaperRequest : CreatePaperRequest :=
  { Title := "Proofs about a review workflow"
    Abstract := "We check the workflow of a review platform."
    Authors := ["B. Writer", "C. Reader"]
    Keywords := ["workflow"]
    Category := "cs" }

/-- One call in a chain of checks on a validator. -/
inductive Check where
  | Required (field value : String)
  | Email (field value : String)
  | MinLength (field value : String) (min : Int)
  | MaxLength (field value : String) (max : Int)
  | Range (field : String) (value min max : Int)
  | OneOf (field value : String) (allowed : List String)
  | Pattern (field value pattern : String)
  | ArrayNotEmpty (field : String) (value : List String)
deriving DecidableEq, Repr

/-- The validator after the call. -/
def Check.apply (lib : StdLib) (v : Validator) : Check → Validator
  | .Required field value => v.Required lib field value
  | .Email field value => v.Email lib field value
  | .MinLength field value min => v.MinLength field value min
  | .MaxLength field value max => v.MaxLength field value max
  | .Range field value min max => v.Range field value min max
  | .OneOf field value allowed => v.OneOf field value allowed
  | .Pattern field value pattern => v.Pattern lib field value pattern
  | .ArrayNotEmpty field value => v.ArrayNotEmpty field value

/-- What the call records on a fresh validator: nothing when the check passes. -/
def Check.failure (lib : StdLib) (c : Check) : List ValidationError :=
  (c.apply lib NewValidator).errors

/-- Stand-ins for the library functions, used in examples: a trimming that empties a
string of blanks and leaves any other string alone, an address test that asks for an `@`,
and a pattern matcher that accepts everything. -/
def sampleLib : StdLib :=
  { TrimSpace := fun s => if s.data.all (fun c => c == ' ') then "" else s
    ParseAddress := fun s => s.data.contains (Char.ofNat 64)
    MatchString := fun _ _ => .ok true }

/-- A chain of four checks on a registration: the name is blank, the address has no `@`,
the password is long enough, the role is unknown. -/
def sampleChain : List Check :=
  [.Required "name" "  ", .Email "email" "nobody", .MinLength "password" "longenough" 8,
   .OneOf "role" "visitor" ["researcher", "reviewer", "admin"]]

/-- A title of three characters, each of three bytes. -/
def shortTitle : String := "日本語"

/-- A title of two hundred characters, each of two bytes. -/
def longTitle : String := String.mk (List.replicate 200 (Char.ofNat 233))

/-- The query `page=3&page_size=50`. -/
def sampleQuery (key : String) : String :=
  if key = "page" then "3" else if key = "page_size" then "50" else ""

/-- Query parameters with a page, a page size and a sort direction that need defaults. -/
def rawParams : QueryParams :=
  { Page := 0
    PageSize := 500
    Search := "lean"
    Category := "cs"
    Status := "submitted"
    SortBy := "title"
    SortDir := "" }

/-- A review that recommends rejection, with the lowest score. -/
def rejectRequest (paperID : Nat) : CreateReviewRequest :=
  { PaperID := paperID
    Comment := "sound method, clear text"
    Score := 1
    Recommendation := "reject" }

/-- A review update that empties the comment and the recommendation and sets the score
to 5. -/
def blankRequest : CreateReviewRequest :=
  { PaperID := 0
    Comment := ""
    Score := 5
    Recommendation := "" }

/-- The row that `CreateReview` hands to the repository, as stored: the fields of the
request, the fixed metadata, the next key and the default status. -/
def createdReview (db : DB) (req : CreateReviewRequest) (reviewerID : Nat) : Review :=
  { ID := db.reviewSeq + 1
    PaperID := req.PaperID
    ReviewerID := reviewerID
    Score := req.Score
    Comment := req.Comment
    Recommendation := req.Recommendation
    Status := "pending"
    Metadata :=
      { ReviewCriteria :=
          [("originality", 0), ("methodology", 0), ("clarity", 0), ("significance", 0)]
        ReviewType := "peer_review"
        Version := 1 }
    NFTTokenID := none }

/-- The database with one more review row, under the next key. -/
def DB.withReview (db : DB) (row : Review) : DB :=
  { db with reviews := db.reviews ++ [row], reviewSeq := db.reviewSeq + 1 }

/-! ## Lookup lemmas -/

theorem find?_key_of_mem {α : Type} (key : α → Nat) :
    ∀ (l : List α) (x : α), (l.map key).Nodup → x ∈ l →
      l.find? (fun y => key y == key x) = some x
  | [], _, _, hx => by cases hx
  | y :: l, x, hnd, hx => by
    rw [List.map_cons, List.nodup_cons] at hnd
    rcases List.mem_cons.1 hx with rfl | hx
    · simp
    · have hne : key y ≠ key x := by
        intro h
        exact hnd.1 (h ▸ List.mem_map_of_mem key hx)
      rw [List.find?_cons_of_neg _ (by simpa using hne)]
      exact find?_key_of_mem key l x hnd.2 hx

theorem paper_getByID_of_mem (db : DB) (hpk : db.PrimaryKeys) (p : Paper) (hp : p ∈ db.papers) :
    PaperRepository.GetByID db p.ID = .ok p := by
  unfold PaperRepository.GetByID
  rw [find?_key_of_mem (fun q : Paper => q.ID) db.papers p hpk.1 hp]

theorem paper_getByID_absent (db : DB) (id : Nat) (h : ∀ p ∈ db.papers, p.ID ≠ id) :
    PaperRepository.GetByID db id = .error .ErrRecordNotFound := by
  unfold PaperRepository.GetByID
  have : db.papers.find? (fun p => p.ID == id) = none := by
    rw [List.find?_eq_none]
    intro p hp
    simpa using h p hp
  rw [this]

theorem paper_getByID_ok (db : DB) (id : Nat) (p : Paper)
    (h : PaperRepository.GetByID db id = .ok p) : p ∈ db.papers ∧ p.ID = id := by
  unfold PaperRepository.GetByID at h
  cases hf : db.papers.find? (fun p => p.ID == id) with
  | none => rw [hf] at h; cases h
  | some q =>
    rw [hf] at h
    injection h with h
    subst h
    exact ⟨List.mem_of_find?_eq_some hf, by simpa using List.find?_some hf⟩

theorem review_probe_some (db : DB) (paperID reviewerID : Nat)
    (h : ∃ r ∈ db.reviews, r.PaperID = paperID ∧ r.ReviewerID = reviewerID) :
    ∃ r, ReviewRepository.GetByPaperAndReviewer db paperID reviewerID = some r := by
  unfold ReviewRepository.GetByPaperAndReviewer
  cases hf : db.reviews.find? (fun r => r.PaperID == paperID && r.ReviewerID == reviewerID) with
  | some r => exact ⟨r, rfl⟩
  | none =>
    rw [List.find?_eq_none] at hf
    obtain ⟨r, hr, h1, h2⟩ := h
    exact absurd (by simp [h1, h2]) (hf r hr)

theorem review_probe_none (db : DB) (paperID reviewerID : Nat)
    (h : ∀ r ∈ db.reviews, ¬ (r.PaperID = paperID ∧ r.ReviewerID = reviewerID)) :
    ReviewRepository.GetByPaperAndReviewer db paperID reviewerID = none := by
  unfold ReviewRepository.GetByPaperAndReviewer
  rw [List.find?_eq_none]
  intro r hr
  simpa using h r hr

/-! ## Primary keys are kept by every write -/

theorem map_key_replace {α : Type} (key : α → Nat) (x : α) (l : List α) :
    (l.map (fun y => if key y == key x then x else y)).map key = l.map key := by
  rw [List.map_map]
  apply List.map_congr_left
  intro y _
  by_cases h : key y = key x <;> simp [h]

theorem mem_replace_key {α : Type} (key : α → Nat) (x z : α) (l : List α)
    (hz : z ∈ l.map (fun y => if key y == key x then x else y)) : key z ∈ l.map key := by
  rw [← map_key_replace key x l]
  exact List.mem_map_of_mem key hz

theorem key_le_of_mem_map {α : Type} (key : α → Nat) (l : List α) (n : Nat)
    (h : ∀ y ∈ l, key y ≤ n) (k : Nat) (hk : k ∈ l.map key) : k ≤ n := by
  obtain ⟨y, hy, rfl⟩ := List.mem_map.1 hk
  exact h y hy

theorem nodup_key_append {α : Type} (key : α → Nat) (l : List α) (x : α) (n : Nat)
    (hnd : (l.map key).Nodup) (hle : ∀ y ∈ l, key y ≤ n) (hx : key x = n + 1) :
    ((l ++ [x]).map key).Nodup := by
  rw [List.map_append, List.nodup_append]
  refine ⟨hnd, by simp, ?_⟩
  intro k hk hk2
  have h1 := key_le_of_mem_map key l n hle k hk
  simp at hk2
  omega

theorem pk_paper_create (db : DB) (paper : Paper) (h : db.PrimaryKeys) :
    (PaperRepository.Create db paper).2.PrimaryKeys := by
  obtain ⟨h1, h2, h3, h4⟩ := h
  refine ⟨nodup_key_append (fun p : Paper => p.ID) db.papers _ db.paperSeq h1 h3 rfl, h2, ?_, h4⟩
  intro p hp
  simp only [PaperRepository.Create, List.mem_append, List.mem_singleton] at hp
  rcases hp with hp | rfl
  · exact Nat.le_succ_of_le (h3 p hp)
  · exact Nat.le_refl _

theorem pk_paper_update (db : DB) (paper : Paper) (h : db.PrimaryKeys) :
    (PaperRepository.Update db paper).PrimaryKeys := by
  obtain ⟨h1, h2, h3, h4⟩ := h
  refine ⟨?_, h2, ?_, h4⟩
  · show ((db.papers.map (fun p => if p.ID == paper.ID then paper else p)).map
      (fun p => p.ID)).Nodup
    rw [map_key_replace (fun p : Paper => p.ID) paper db.papers]
    exact h1
  · intro p hp
    exact key_le_of_mem_map (fun p : Paper => p.ID) db.papers db.paperSeq h3 p.ID
      (mem_replace_key (fun p : Paper => p.ID) paper p db.papers hp)

theorem paper_delete_cases (db : DB) (id : Nat) :
    ((∃ r ∈ db.reviews, r.PaperID = id) ∧
      PaperRepository.Delete db id = (.error .ForeignKeyViolation, db)) ∨
    ((∀ r ∈ db.reviews, r.PaperID ≠ id) ∧
      PaperRepository.Delete db id =
        (.ok (), { db with papers := db.papers.filter (fun p => p.ID != id) })) := by
  unfold PaperRepository.Delete
  by_cases h : db.reviews.any (fun r => r.PaperID == id) = true
  · left
    rw [if_pos h]
    refine ⟨?_, rfl⟩
    obtain ⟨r, hr, hid⟩ := List.any_eq_true.1 h
    exact ⟨r, hr, by simpa using hid⟩
  · right
    rw [if_neg h]
    refine ⟨fun r hr hid => h (List.any_eq_true.2 ⟨r, hr, by simpa using hid⟩), rfl⟩

theorem pk_paper_delete (db : DB) (id : Nat) (h : db.PrimaryKeys) :
    (PaperRepository.Delete db id).2.PrimaryKeys := by
  rcases paper_delete_cases db id with ⟨_, hd⟩ | ⟨_, hd⟩
  · rw [hd]
    exact h
  · rw [hd]
    obtain ⟨h1, h2, h3, h4⟩ := h
    refine ⟨?_, h2, ?_, h4⟩
    · exact List.Nodup.sublist (List.Sublist.map _ (List.filter_sublist _)) h1
    · intro p hp
      exact h3 p (List.mem_of_mem_filter hp)

theorem review_check_iff (review : Review) :
    review.scoreCheck = true ↔ 1 ≤ review.Score ∧ review.Score ≤ 10 := by
  simp [Review.scoreCheck]

theorem review_create_cases (db : DB) (review : Review) :
    (∃ err, ReviewRepository.Create db review = (.error err, db) ∧
      ((err = .CheckViolation ∧ ¬ (1 ≤ review.Score ∧ review.Score ≤ 10)) ∨
        (err = .ForeignKeyViolation ∧ ∀ p ∈ db.papers, p.ID ≠ review.PaperID))) ∨
    ((1 ≤ review.Score ∧ review.Score ≤ 10) ∧ (∃ p ∈ db.papers, p.ID = review.PaperID) ∧
      ReviewRepository.Create db review =
        (.ok { review with
            ID := db.reviewSeq + 1
            Status := if review.Status == "" then "pending" else review.Status },
          { db with
            reviews := db.reviews ++
              [{ review with
                  ID := db.reviewSeq + 1
                  Status := if review.Status == "" then "pending" else review.Status }]
            reviewSeq := db.reviewSeq + 1 })) := by
  unfold ReviewRepository.Create
  by_cases hc : review.scoreCheck = true
  · by_cases hf : db.papers.any (fun p => p.ID == review.PaperID) = true
    · right
      obtain ⟨p, hp, hid⟩ := List.any_eq_true.1 hf
      refine ⟨(review_check_iff review).1 hc, ⟨p, hp, by simpa using hid⟩, ?_⟩
      simp [hc, hf]
    · left
      refine ⟨.ForeignKeyViolation, ?_, Or.inr ⟨rfl, fun p hp hid => ?_⟩⟩
      · simp only [hc, hf, Bool.not_true, Bool.false_eq_true, if_false, Bool.not_eq_true']
        simp [hf]
      · exact hf (List.any_eq_true.2 ⟨p, hp, by simpa using hid⟩)
  · left
    refine ⟨.CheckViolation, ?_, Or.inl ⟨rfl, fun h => hc ((review_check_iff review).2 h)⟩⟩
    simp [hc]

theorem pk_review_create (db : DB) (review : Review) (h : db.PrimaryKeys) :
    (ReviewRepository.Create db review).2.PrimaryKeys := by
  rcases review_create_cases db review with ⟨err, hc, _⟩ | ⟨_, _, hc⟩
  · rw [hc]
    exact h
  · rw [hc]
    obtain ⟨h1, h2, h3, h4⟩ := h
    refine ⟨h1, nodup_key_append (fun r : Review => r.ID) db.reviews _ db.reviewSeq h2 h4 rfl,
      h3, ?_⟩
    intro r hr
    simp only [List.mem_append, List.mem_singleton] at hr
    rcases hr with hr | rfl
    · exact Nat.le_succ_of_le (h4 r hr)
    · exact Nat.le_refl _

theorem review_update_cases (db : DB) (review : Review) :
    (¬ (1 ≤ review.Score ∧ review.Score ≤ 10) ∧
      ReviewRepository.Update db review = (.error .CheckViolation, db)) ∨
    ((1 ≤ review.Score ∧ review.Score ≤ 10) ∧
      ReviewRepository.Update db review =
        (.ok (),
          { db with
            reviews :=
              db.reviews.map (fun r => if r.ID == review.ID then review else r) })) := by
  unfold ReviewRepository.Update
  by_cases hc : review.scoreCheck = true
  · right
    exact ⟨(review_check_iff review).1 hc, by simp [hc]⟩
  · left
    exact ⟨fun h => hc ((review_check_iff review).2 h), by simp [hc]⟩

theorem pk_review_update (db : DB) (review : Review) (h : db.PrimaryKeys) :
    (ReviewRepository.Update db review).2.PrimaryKeys := by
  rcases review_update_cases db review with ⟨_, hc⟩ | ⟨_, hc⟩
  · rw [hc]
    exact h
  · rw [hc]
    obtain ⟨h1, h2, h3, h4⟩ := h
    refine ⟨h1, ?_, h3, ?_⟩
    · show ((db.reviews.map (fun r => if r.ID == review.ID then review else r)).map
        (fun r => r.ID)).Nodup
      rw [map_key_replace (fun r : Review => r.ID) review db.reviews]
      exact h2
    · intro r hr
      exact key_le_of_mem_map (fun r : Review => r.ID) db.reviews db.reviewSeq h4 r.ID
        (mem_replace_key (fun r : Review => r.ID) review r db.reviews hr)

theorem pk_review_delete (db : DB) (id : Nat) (h : db.PrimaryKeys) :
    (ReviewRepository.Delete db id).PrimaryKeys := by
  obtain ⟨h1, h2, h3, h4⟩ := h
  refine ⟨h1, ?_, h3, ?_⟩
  · exact List.Nodup.sublist (List.Sublist.map _ (List.filter_sublist _)) h2
  · intro r hr
    exact h4 r (List.mem_of_mem_filter hr)

theorem pk_withReview (db : DB) (row : Review) (hid : row.ID = db.reviewSeq + 1)
    (h : db.PrimaryKeys) : (db.withReview row).PrimaryKeys := by
  obtain ⟨h1, h2, h3, h4⟩ := h
  refine ⟨h1, nodup_key_append (fun r : Review => r.ID) db.reviews _ db.reviewSeq h2 h4 hid,
    h3, ?_⟩
  intro r hr
  simp only [DB.withReview, List.mem_append, List.mem_singleton] at hr
  rcases hr with hr | rfl
  · exact Nat.le_succ_of_le (h4 r hr)
  · exact Nat.le_of_eq hid

/-- `CreateReview` either returns an error and the database as it was (the paper is not
found, is not open to review, is already reviewed by the reviewer, or the score fails the
column check), or it finds a reviewable paper without a review by the reviewer and a score
from 1 to 10, returns the new row and leaves the database with that row appended and the
paper under review. -/
theorem createReview_eq (db : DB) (req : CreateReviewRequest) (reviewerID : Nat) :
    (∃ err, ReviewService.CreateReview db req reviewerID = (.error err, db) ∧
      (PaperRepository.GetByID db req.PaperID = .error err ∨
        (∃ p, PaperRepository.GetByID db req.PaperID = .ok p ∧
          ¬ (p.Status = "submitted" ∨ p.Status = "under_review") ∧
          err = .New "paper is not available for review") ∨
        (∃ p r, PaperRepository.GetByID db req.PaperID = .ok p ∧
          (p.Status = "submitted" ∨ p.Status = "under_review") ∧
          ReviewRepository.GetByPaperAndReviewer db req.PaperID reviewerID = some r ∧
          err = .New "you have already reviewed this paper") ∨
        (∃ p, PaperRepository.GetByID db req.PaperID = .ok p ∧
          (p.Status = "submitted" ∨ p.Status = "under_review") ∧
          ReviewRepository.GetByPaperAndReviewer db req.PaperID reviewerID = none ∧
          ¬ (1 ≤ req.Score ∧ req.Score ≤ 10) ∧ err = .CheckViolation))) ∨
    (∃ p, PaperRepository.GetByID db req.PaperID = .ok p ∧
      (p.Status = "submitted" ∨ p.Status = "under_review") ∧
      ReviewRepository.GetByPaperAndReviewer db req.PaperID reviewerID = none ∧
      (1 ≤ req.Score ∧ req.Score ≤ 10) ∧
      ReviewService.CreateReview db req reviewerID =
        (.ok (createdReview db req reviewerID),
          if p.Status = "submitted" then
            PaperRepository.Update (db.withReview (createdReview db req reviewerID))
              { p with Status := "under_review" }
          else db.withReview (createdReview db req reviewerID))) := by
  rcases (show (∃ err, PaperRepository.GetByID db req.PaperID = .error err) ∨
      (∃ p, PaperRepository.GetByID db req.PaperID = .ok p) by
    cases PaperRepository.GetByID db req.PaperID with
    | error err => exact Or.inl ⟨err, rfl⟩
    | ok p => exact Or.inr ⟨p, rfl⟩) with ⟨err, hget⟩ | ⟨p, hget⟩
  · refine Or.inl ⟨err, ?_, Or.inl hget⟩
    unfold ReviewService.CreateReview
    rw [hget]
  · by_cases hrev : (p.Status != "submitted" && p.Status != "under_review") = true
    · left
      refine ⟨_, ?_, Or.inr (Or.inl ⟨p, hget, ?_, rfl⟩)⟩
      · unfold ReviewService.CreateReview
        rw [hget]
        simp only [if_pos hrev]
      · simp only [bne_iff_ne, ne_eq, Bool.and_eq_true] at hrev
        intro h
        rcases h with h | h
        · exact hrev.1 h
        · exact hrev.2 h
    · have hstat : p.Status = "submitted" ∨ p.Status = "under_review" := by
        simp only [bne_iff_ne, ne_eq, Bool.and_eq_true, not_and, not_not] at hrev
        by_cases h : p.Status = "submitted"
        · exact Or.inl h
        · exact Or.inr (hrev h)
      cases hprobe : ReviewRepository.GetByPaperAndReviewer db req.PaperID reviewerID with
      | some r =>
        left
        refine ⟨_, ?_, Or.inr (Or.inr (Or.inl ⟨p, r, hget, hstat, rfl, rfl⟩))⟩
        unfold ReviewService.CreateReview
        rw [hget]
        simp only [if_neg hrev, hprobe]
      | none =>
        obtain ⟨hpm, hpid⟩ := paper_getByID_ok db req.PaperID p hget
        rcases review_create_cases db
          { ID := 0
            PaperID := req.PaperID
            ReviewerID := reviewerID
            Score := req.Score
            Comment := req.Comment
            Recommendation := req.Recommendation
            Status := ""
            Metadata :=
              { ReviewCriteria :=
                  [("originality", 0), ("methodology", 0), ("clarity", 0),
                   ("significance", 0)]
                ReviewType := "peer_review"
                Version := 1 }
            NFTTokenID := none } with ⟨err, hc, hwhy⟩ | ⟨hscore, _, hc⟩
        · left
          refine ⟨err, ?_, Or.inr (Or.inr (Or.inr ?_))⟩
          · unfold ReviewService.CreateReview
            rw [hget]
            simp only [if_neg hrev, hprobe, hc]
          · rcases hwhy with ⟨he, hs⟩ | ⟨_, hfk⟩
            · exact ⟨p, hget, hstat, rfl, hs, he⟩
            · exact absurd hpid (hfk p hpm)
        · right
          refine ⟨p, hget, hstat, rfl, hscore, ?_⟩
          unfold ReviewService.CreateReview
          rw [hget]
          simp only [if_neg hrev, hprobe, hc]
          by_cases hsub : p.Status = "submitted"
          · have hb : (p.Status == "submitted") = true := by simp [hsub]
            simp only [hb, if_true, if_pos hsub]
            rfl
          · have hb : (p.Status == "submitted") = false := by simp [hsub]
            simp only [hb, Bool.false_eq_true, if_false, if_neg hsub]
            rfl

/-- The shape of `createReview_eq` with the three components of the database spelled
out. -/
theorem createReview_cases (db : DB) (req : CreateReviewRequest) (reviewerID : Nat) :
    (∃ err, ReviewService.CreateReview db req reviewerID = (.error err, db) ∧
      (PaperRepository.GetByID db req.PaperID = .error err ∨
        (∃ p, PaperRepository.GetByID db req.PaperID = .ok p ∧
          ¬ (p.Status = "submitted" ∨ p.Status = "under_review") ∧
          err = .New "paper is not available for review") ∨
        (∃ p r, PaperRepository.GetByID db req.PaperID = .ok p ∧
          (p.Status = "submitted" ∨ p.Status = "under_review") ∧
          ReviewRepository.GetByPaperAndReviewer db req.PaperID reviewerID = some r ∧
          err = .New "you have already reviewed this paper") ∨
        (∃ p, PaperRepository.GetByID db req.PaperID = .ok p ∧
          (p.Status = "submitted" ∨ p.Status = "under_review") ∧
          ReviewRepository.GetByPaperAndReviewer db req.PaperID reviewerID = none ∧
          ¬ (1 ≤ req.Score ∧ req.Score ≤ 10) ∧ err = .CheckViolation))) ∨
    (∃ p, PaperRepository.GetByID db req.PaperID = .ok p ∧
      (p.Status = "submitted" ∨ p.Status = "under_review") ∧
      ReviewRepository.GetByPaperAndReviewer db req.PaperID reviewerID = none ∧
      (ReviewService.CreateReview db req reviewerID).1 =
        .ok (createdReview db req reviewerID) ∧
      (ReviewService.CreateReview db req reviewerID).2.reviews =
        db.reviews ++ [createdReview db req reviewerID] ∧
      (ReviewService.CreateReview db req reviewerID).2.papers =
        (if p.Status = "submitted" then
          db.papers.map (fun q => if q.ID == p.ID then { p with Status := "under_review" } else q)
        else db.papers) ∧
      (1 ≤ req.Score ∧ req.Score ≤ 10)) := by
  rcases createReview_eq db req reviewerID with h | ⟨p, hg, hs, hp, hscore, hrun⟩
  · exact Or.inl h
  · right
    refine ⟨p, hg, hs, hp, ?_, ?_, ?_, hscore⟩
    · rw [hrun]
    · rw [hrun]
      by_cases hsub : p.Status = "submitted"
      · rw [if_pos hsub]; rfl
      · rw [if_neg hsub]; rfl
    · rw [hrun]
      by_cases hsub : p.Status = "submitted"
      · rw [if_pos hsub, if_pos hsub]; rfl
      · rw [if_neg hsub, if_neg hsub]; rfl

/-- `UpdateReview` returns an error and the database as it was, or the rewritten review
and the database in which it replaces the row read. -/
theorem updateReview_eq (db : DB) (id : Nat) (req : CreateReviewRequest) (reviewerID : Nat) :
    (∃ err, ReviewService.UpdateReview db id req reviewerID = (.error err, db) ∧
      (ReviewRepository.GetByID db id = .error err ∨
        (∃ r, ReviewRepository.GetByID db id = .ok r ∧ r.ReviewerID ≠ reviewerID ∧
          err = .New "unauthorized to update this review") ∨
        (∃ r, ReviewRepository.GetByID db id = .ok r ∧ r.ReviewerID = reviewerID ∧
          ¬ (1 ≤ req.Score ∧ req.Score ≤ 10) ∧ err = .CheckViolation))) ∨
    (∃ r, ReviewRepository.GetByID db id = .ok r ∧ r.ReviewerID = reviewerID ∧
      (1 ≤ req.Score ∧ req.Score ≤ 10) ∧
      ReviewService.UpdateReview db id req reviewerID =
        (.ok { r with
            Comment := req.Comment, Score := req.Score, Recommendation := req.Recommendation },
          { db with
            reviews := db.reviews.map (fun x =>
              if x.ID == r.ID then
                { r with
                  Comment := req.Comment, Score := req.Score,
                  Recommendation := req.Recommendation }
              else x) })) := by
  unfold ReviewService.UpdateReview
  cases hget : ReviewRepository.GetByID db id with
  | error err => exact Or.inl ⟨err, rfl, Or.inl rfl⟩
  | ok r =>
    by_cases ho : r.ReviewerID = reviewerID
    · have hb : (r.ReviewerID != reviewerID) = false := by simp [ho]
      simp only [hb, Bool.false_eq_true, if_false]
      rcases review_update_cases db
        { r with
          Comment := req.Comment, Score := req.Score, Recommendation := req.Recommendation }
        with ⟨hs, hc⟩ | ⟨hs, hc⟩
      · left
        rw [hc]
        exact ⟨_, rfl, Or.inr (Or.inr ⟨r, rfl, ho, hs, rfl⟩)⟩
      · right
        rw [hc]
        exact ⟨r, rfl, ho, hs, rfl⟩
    · left
      have hb : (r.ReviewerID != reviewerID) = true := by simp [ho]
      simp only [hb, if_true]
      exact ⟨_, rfl, Or.inr (Or.inl ⟨r, rfl, ho, rfl⟩)⟩

theorem pk_run (db : DB) (op : Op) (h : db.PrimaryKeys) : (op.run db).PrimaryKeys := by
  cases op with
  | CreatePaper req ownerID => exact pk_paper_create db _ h
  | UpdatePaper id req userID =>
    simp only [Op.run, PaperService.UpdatePaper]
    split
    · exact h
    · split
      · exact h
      · exact pk_paper_update db _ h
  | DeletePaper id userID =>
    simp only [Op.run, PaperService.DeletePaper]
    split
    · exact h
    · split
      · exact h
      · exact pk_paper_delete db _ h
  | SubmitForReview id userID =>
    simp only [Op.run, PaperService.SubmitForReview]
    split
    · exact h
    · split
      · exact h
      · split
        · exact h
        · exact pk_paper_update db _ h
  | CreateReview req reviewerID =>
    simp only [Op.run]
    rcases createReview_eq db req reviewerID with ⟨err, hrun, _⟩ | ⟨p, _, _, _, _, hrun⟩
    · rw [hrun]
      exact h
    · rw [hrun]
      have hw := pk_withReview db (createdReview db req reviewerID) rfl h
      show DB.PrimaryKeys (if _ then _ else _)
      split
      · exact pk_paper_update _ _ hw
      · exact hw
  | UpdateReview id req reviewerID =>
    simp only [Op.run]
    rcases updateReview_eq db id req reviewerID with ⟨err, hrun, _⟩ | ⟨r, _, _, hs, hrun⟩
    · rw [hrun]
      exact h
    · rw [hrun]
      have hu := pk_review_update db
        { r with
          Comment := req.Comment, Score := req.Score, Recommendation := req.Recommendation } h
      rcases review_update_cases db
        { r with
          Comment := req.Comment, Score := req.Score, Recommendation := req.Recommendation }
        with ⟨hn, _⟩ | ⟨_, hc⟩
      · exact absurd hs hn
      · rw [hc] at hu
        exact hu
  | DeleteReview id reviewerID =>
    simp only [Op.run, ReviewService.DeleteReview]
    split
    · exact h
    · split
      · exact h
      · exact pk_review_delete db _ h

theorem review_getByID_ok (db : DB) (id : Nat) (r : Review)
    (h : ReviewRepository.GetByID db id = .ok r) : r ∈ db.reviews ∧ r.ID = id := by
  unfold ReviewRepository.GetByID at h
  cases hf : db.reviews.find? (fun r => r.ID == id) with
  | none => rw [hf] at h; cases h
  | some q =>
    rw [hf] at h
    injection h with h
    subst h
    exact ⟨List.mem_of_find?_eq_some hf, by simpa using List.find?_some hf⟩

/-! ## One review per paper and reviewer -/

theorem unique_withReview (db : DB) (row : Review) (hu : db.UniqueReviews)
    (hnone : ReviewRepository.GetByPaperAndReviewer db row.PaperID row.ReviewerID = none) :
    (db.withReview row).UniqueReviews := by
  unfold ReviewRepository.GetByPaperAndReviewer at hnone
  rw [List.find?_eq_none] at hnone
  show ((db.reviews ++ [row]).map (fun r : Review => (r.PaperID, r.ReviewerID))).Nodup
  rw [List.map_append, List.nodup_append]
  refine ⟨hu, by simp, ?_⟩
  intro k hk hk2
  obtain ⟨r, hr, rfl⟩ := List.mem_map.1 hk
  simp only [List.map_cons, List.map_nil, List.mem_singleton, Prod.mk.injEq] at hk2
  exact hnone r hr (by simp [hk2.1, hk2.2])

theorem unique_review_update (db : DB) (stored review : Review) (hpk : db.PrimaryKeys)
    (hu : db.UniqueReviews) (hs : stored ∈ db.reviews) (hid : review.ID = stored.ID)
    (hpaper : review.PaperID = stored.PaperID) (hrev : review.ReviewerID = stored.ReviewerID) :
    (ReviewRepository.Update db review).2.UniqueReviews := by
  have hmap : (db.reviews.map (fun r => if r.ID == review.ID then review else r)).map
      (fun r => (r.PaperID, r.ReviewerID)) = db.reviews.map (fun r => (r.PaperID, r.ReviewerID)) := by
    rw [List.map_map]
    apply List.map_congr_left
    intro r hr
    by_cases h : r.ID = review.ID
    · have hrs : r = stored :=
        List.inj_on_of_nodup_map hpk.2.1 hr hs (h.trans hid)
      subst hrs
      simp [h, hpaper, hrev]
    · simp [h]
  rcases review_update_cases db review with ⟨_, hc⟩ | ⟨_, hc⟩
  · rw [hc]
    exact hu
  · rw [hc]
    show ((db.reviews.map (fun r => if r.ID == review.ID then review else r)).map
      (fun r => (r.PaperID, r.ReviewerID))).Nodup
    rw [hmap]
    exact hu

theorem unique_review_delete (db : DB) (id : Nat) (hu : db.UniqueReviews) :
    (ReviewRepository.Delete db id).UniqueReviews :=
  List.Nodup.sublist (List.Sublist.map _ (List.filter_sublist _)) hu

theorem unique_paper_delete (db : DB) (id : Nat) (hu : db.UniqueReviews) :
    (PaperRepository.Delete db id).2.UniqueReviews := by
  rcases paper_delete_cases db id with ⟨_, hd⟩ | ⟨_, hd⟩ <;> rw [hd] <;> exact hu

theorem unique_run (db : DB) (op : Op) (hpk : db.PrimaryKeys) (hu : db.UniqueReviews) :
    (op.run db).UniqueReviews := by
  cases op with
  | CreatePaper req ownerID => exact hu
  | UpdatePaper id req userID =>
    simp only [Op.run, PaperService.UpdatePaper]
    split
    · exact hu
    · split <;> exact hu
  | DeletePaper id userID =>
    simp only [Op.run, PaperService.DeletePaper]
    split
    · exact hu
    · split
      · exact hu
      · exact unique_paper_delete db _ hu
  | SubmitForReview id userID =>
    simp only [Op.run, PaperService.SubmitForReview]
    split
    · exact hu
    · split
      · exact hu
      · split <;> exact hu
  | CreateReview req reviewerID =>
    simp only [Op.run]
    rcases createReview_eq db req reviewerID with ⟨err, hrun, _⟩ | ⟨p, _, _, hnone, _, hrun⟩
    · rw [hrun]
      exact hu
    · rw [hrun]
      have hw := unique_withReview db (createdReview db req reviewerID) hu hnone
      show DB.UniqueReviews (if _ then _ else _)
      split
      · exact hw
      · exact hw
  | UpdateReview id req reviewerID =>
    simp only [Op.run, ReviewService.UpdateReview]
    split
    · exact hu
    · next review hget =>
      split
      · exact hu
      · have hw := unique_review_update db review
          { review with
            Comment := req.Comment, Score := req.Score, Recommendation := req.Recommendation }
          hpk hu (review_getByID_ok db id review hget).1 rfl rfl rfl
        split
        · next heq =>
          rw [heq] at hw
          exact hw
        · next heq =>
          rw [heq] at hw
          exact hw
  | DeleteReview id reviewerID =>
    simp only [Op.run, ReviewService.DeleteReview]
    split
    · exact hu
    · split
      · exact hu
      · exact unique_review_delete db _ hu

theorem unique_run_list (ops : List Op) :
    ∀ db : DB, db.PrimaryKeys → db.UniqueReviews →
      (ops.foldl Op.run db).PrimaryKeys ∧ (ops.foldl Op.run db).UniqueReviews := by
  induction ops with
  | nil => exact fun db hpk hu => ⟨hpk, hu⟩
  | cons op ops ih =>
    intro db hpk hu
    exact ih (op.run db) (pk_run db op hpk) (unique_run db op hpk hu)

/-! ## Paper rows after a call -/

theorem papers_after_update (db : DB) (stored paper : Paper) (hs : stored ∈ db.papers)
    (hadv : stored.Advances paper) :
    ∀ q ∈ (PaperRepository.Update db paper).papers, ∃ p ∈ db.papers, p.Advances q := by
  intro q hq
  simp only [PaperRepository.Update, List.mem_map] at hq
  obtain ⟨p, hp, rfl⟩ := hq
  by_cases h : p.ID = paper.ID
  · simp only [h, beq_self_eq_true, if_true]
    exact ⟨stored, hs, hadv⟩
  · have hb : (p.ID == paper.ID) = false := by simpa using h
    simp only [hb]
    exact ⟨p, hp, rfl, Or.inl rfl⟩

theorem papers_after_keep (db : DB) :
    ∀ q ∈ db.papers, ∃ p ∈ db.papers, p.Advances q :=
  fun q hq => ⟨q, hq, rfl, Or.inl rfl⟩

theorem papers_after_run (db : DB) (op : Op) :
    ∀ q ∈ (op.run db).papers,
      (q.ID = db.paperSeq + 1 ∧ q.Status = "draft") ∨ ∃ p ∈ db.papers, p.Advances q := by
  cases op with
  | CreatePaper req ownerID =>
    intro q hq
    simp only [Op.run, PaperService.CreatePaper, PaperRepository.Create, List.mem_append,
      List.mem_singleton] at hq
    rcases hq with hq | rfl
    · exact Or.inr (papers_after_keep db q hq)
    · exact Or.inl ⟨rfl, rfl⟩
  | UpdatePaper id req userID =>
    intro q hq
    right
    revert q
    simp only [Op.run, PaperService.UpdatePaper]
    split
    · exact papers_after_keep db
    · next paper hget =>
      split
      · exact papers_after_keep db
      · refine papers_after_update db paper _ (paper_getByID_ok db id paper hget).1 ⟨?_, Or.inl ?_⟩
        · split_ifs <;> rfl
        · split_ifs <;> rfl
  | DeletePaper id userID =>
    intro q hq
    right
    revert q
    simp only [Op.run, PaperService.DeletePaper]
    split
    · exact papers_after_keep db
    · split
      · exact papers_after_keep db
      · rcases paper_delete_cases db id with ⟨_, hd⟩ | ⟨_, hd⟩
        · rw [hd]
          exact papers_after_keep db
        · rw [hd]
          intro q hq
          exact papers_after_keep db q (List.mem_of_mem_filter hq)
  | SubmitForReview id userID =>
    intro q hq
    right
    revert q
    simp only [Op.run, PaperService.SubmitForReview]
    split
    · exact papers_after_keep db
    · next paper hget =>
      split
      · exact papers_after_keep db
      · split
        · exact papers_after_keep db
        · next hdraft =>
          exact papers_after_update db paper _ (paper_getByID_ok db id paper hget).1
            ⟨rfl, Or.inr (Or.inl ⟨by simpa using hdraft, rfl⟩)⟩
  | CreateReview req reviewerID =>
    intro q hq
    right
    revert q
    simp only [Op.run]
    rcases createReview_eq db req reviewerID with ⟨err, hrun, _⟩ | ⟨p, hget, _, _, _, hrun⟩
    · rw [hrun]
      exact papers_after_keep db
    · rw [hrun]
      by_cases hsub : p.Status = "submitted"
      · rw [if_pos hsub]
        exact papers_after_update (db.withReview (createdReview db req reviewerID)) p _
          (paper_getByID_ok db req.PaperID p hget).1 ⟨rfl, Or.inr (Or.inr ⟨hsub, rfl⟩)⟩
      · rw [if_neg hsub]
        exact papers_after_keep db
  | UpdateReview id req reviewerID =>
    intro q hq
    right
    revert q
    simp only [Op.run]
    rcases updateReview_eq db id req reviewerID with ⟨err, hrun, _⟩ | ⟨r, _, _, _, hrun⟩
    · rw [hrun]
      exact papers_after_keep db
    · rw [hrun]
      exact papers_after_keep db
  | DeleteReview id reviewerID =>
    intro q hq
    right
    revert q
    simp only [Op.run, ReviewService.DeleteReview]
    split
    · exact papers_after_keep db
    · split <;> exact papers_after_keep db

theorem mem_papers_update (db : DB) (p paper : Paper) (hp : p ∈ db.papers)
    (hid : paper.ID = p.ID) : paper ∈ (PaperRepository.Update db paper).papers :=
  List.mem_map.2 ⟨p, hp, by simp [hid]⟩

theorem paper_getByID_update (db : DB) (hpk : db.PrimaryKeys) (p paper : Paper)
    (hp : p ∈ db.papers) (hid : paper.ID = p.ID) :
    PaperRepository.GetByID (PaperRepository.Update db paper) p.ID = .ok paper := by
  rw [← hid]
  exact paper_getByID_of_mem _ (pk_paper_update db paper hpk) paper
    (mem_papers_update db p paper hp hid)

/-- A `CreateReview` that returns a review found the paper submitted and left it under
review, or found it under review and left its row alone. -/
theorem createReview_ok_paper (db : DB) (hpk : db.PrimaryKeys) (p : Paper) (hp : p ∈ db.papers)
    (req : CreateReviewRequest) (reviewerID : Nat) (review : Review) (hid : req.PaperID = p.ID)
    (hok : (ReviewService.CreateReview db req reviewerID).1 = .ok review) :
    (p.Status = "submitted" ∧
      { p with Status := "under_review" } ∈ (ReviewService.CreateReview db req reviewerID).2.papers) ∨
    (p.Status = "under_review" ∧ p ∈ (ReviewService.CreateReview db req reviewerID).2.papers) := by
  have hget := paper_getByID_of_mem db hpk p hp
  rw [← hid] at hget
  rcases createReview_eq db req reviewerID with ⟨err, hrun, _⟩ | ⟨q, hgq, hstat, _, _, hrun⟩
  · rw [hrun] at hok
    cases hok
  · rw [hget] at hgq
    injection hgq with hgq
    subst hgq
    rw [hrun]
    by_cases hsub : p.Status = "submitted"
    · left
      refine ⟨hsub, ?_⟩
      rw [if_pos hsub]
      exact mem_papers_update (db.withReview (createdReview db req reviewerID)) p _ hp rfl
    · right
      have hur : p.Status = "under_review" := hstat.resolve_left hsub
      refine ⟨hur, ?_⟩
      rw [if_neg hsub]
      exact hp

theorem createReviews_keeps_under_review (calls : List (CreateReviewRequest × Nat)) :
    ∀ (db db' : DB) (q : Paper), db.PrimaryKeys → q ∈ db.papers → q.Status = "under_review" →
      (∀ call ∈ calls, call.1.PaperID = q.ID) → createReviews db calls = .ok db' →
      db'.PrimaryKeys ∧ q ∈ db'.papers := by
  induction calls with
  | nil =>
    intro db db' q hpk hq _ _ hrun
    simp only [createReviews] at hrun
    injection hrun with hrun
    subst hrun
    exact ⟨hpk, hq⟩
  | cons call rest ih =>
    intro db db' q hpk hq hur hall hrun
    simp only [createReviews] at hrun
    have hpk1 : (ReviewService.CreateReview db call.1 call.2).2.PrimaryKeys :=
      pk_run db (.CreateReview call.1 call.2) hpk
    cases hres : ReviewService.CreateReview db call.1 call.2 with
    | mk res db1 =>
      rw [hres] at hrun hpk1
      cases res with
      | error err => cases hrun
      | ok review =>
        have hstep := createReview_ok_paper db hpk q hq call.1 call.2 review
          (hall call (List.mem_cons_self _ _)) (by rw [hres])
        rw [hres] at hstep
        rcases hstep with ⟨hsub, _⟩ | ⟨_, hmem⟩
        · rw [hur] at hsub
          exact absurd hsub (by decide)
        · exact ih db1 db' q hpk1 hmem hur
            (fun c hc => hall c (List.mem_cons_of_mem _ hc)) hrun

/-! ## Sums of scores -/

theorem wrapInt64_add (x y : Int) : wrapInt64 (wrapInt64 x + y) = wrapInt64 (x + y) := by
  unfold wrapInt64
  omega

theorem wrapInt64_of_fits (x : Int) (h1 : -9223372036854775808 ≤ x)
    (h2 : x < 9223372036854775808) : wrapInt64 x = x := by
  unfold wrapInt64
  omega

theorem totalScore_eq (l : List Review) :
    ∀ a : Int, l ≠ [] →
      l.foldl (fun total review => wrapInt64 (total + review.Score)) a =
        wrapInt64 (a + (l.map (fun r => r.Score)).sum) := by
  induction l with
  | nil => exact fun a h => absurd rfl h
  | cons r rest ih =>
    intro a _
    rw [List.foldl_cons]
    cases rest with
    | nil => simp
    | cons r2 rest2 =>
      rw [ih (wrapInt64 (a + r.Score)) (List.cons_ne_nil _ _), wrapInt64_add]
      congr 1
      simp only [List.map_cons, List.sum_cons]
      omega

theorem sum_scores_bounds (lo hi : Int) (l : List Int) (h : ∀ x ∈ l, lo ≤ x ∧ x ≤ hi) :
    (l.length : Int) * lo ≤ l.sum ∧ l.sum ≤ (l.length : Int) * hi := by
  induction l with
  | nil => simp
  | cons x rest ih =>
    have h1 := h x (List.mem_cons_self _ _)
    have h2 := ih (fun y hy => h y (List.mem_cons_of_mem _ hy))
    simp only [List.sum_cons, List.length_cons, Nat.cast_add, Nat.cast_one]
    constructor
    · nlinarith [h1.1, h2.1]
    · nlinarith [h1.2, h2.2]

/-! ## Review eligibility -/

theorem eligibility_owner (db : DB) (paperID userID : Nat) (p : Paper)
    (hget : PaperRepository.GetByID db paperID = .ok p) (howner : p.OwnerID = userID) :
    ReviewService.CheckReviewEligibility db paperID userID =
      .error (.New "authors cannot review their own papers") := by
  unfold ReviewService.CheckReviewEligibility
  rw [hget]
  simp [howner]

/-- C1: `CheckReviewEligibility` reports, in this order: record not found when no paper
has the id; the self-review error when the user owns the paper (whatever its status and
reviews); the not-available error when the status is neither `submitted` nor
`under_review` (whatever its reviews); the already-reviewed error when a review of the
paper by the user is stored; and no error otherwise. -/
theorem checkReviewEligibility_order (db : DB) (hpk : db.PrimaryKeys) (paperID userID : Nat) :
    ((∀ p ∈ db.papers, p.ID ≠ paperID) →
      ReviewService.CheckReviewEligibility db paperID userID = .error .ErrRecordNotFound) ∧
    (∀ p ∈ db.papers, p.ID = paperID →
      (p.OwnerID = userID →
        ReviewService.CheckReviewEligibility db paperID userID =
          .error (.New "authors cannot review their own papers")) ∧
      (p.OwnerID ≠ userID → p.Status ≠ "submitted" ∧ p.Status ≠ "under_review" →
        ReviewService.CheckReviewEligibility db paperID userID =
          .error (.New "paper is not available for review")) ∧
      (p.OwnerID ≠ userID → p.Status = "submitted" ∨ p.Status = "under_review" →
        (∃ r ∈ db.reviews, r.PaperID = paperID ∧ r.ReviewerID = userID) →
        ReviewService.CheckReviewEligibility db paperID userID =
          .error (.New "you have already reviewed this paper")) ∧
      (p.OwnerID ≠ userID → p.Status = "submitted" ∨ p.Status = "under_review" →
        (∀ r ∈ db.reviews, ¬ (r.PaperID = paperID ∧ r.ReviewerID = userID)) →
        ReviewService.CheckReviewEligibility db paperID userID = .ok ())) := by
  refine ⟨fun h => ?_, fun p hp hid => ?_⟩
  · unfold ReviewService.CheckReviewEligibility
    rw [paper_getByID_absent db paperID h]
  · subst hid
    have hget := paper_getByID_of_mem db hpk p hp
    refine ⟨fun ho => ?_, fun ho hs => ?_, fun ho hs hr => ?_, fun ho hs hr => ?_⟩
    · exact eligibility_owner db p.ID userID p hget ho
    · unfold ReviewService.CheckReviewEligibility
      rw [hget]
      simp [ho, hs.1, hs.2]
    · obtain ⟨r, hprobe⟩ := review_probe_some db p.ID userID hr
      unfold ReviewService.CheckReviewEligibility
      rw [hget]
      rcases hs with hs | hs <;> simp [ho, hs, hprobe]
    · have hprobe := review_probe_none db p.ID userID hr
      unfold ReviewService.CheckReviewEligibility
      rw [hget]
      rcases hs with hs | hs <;> simp [ho, hs, hprobe]

/-- Paper 4 of `sampleDB` is published and already reviewed by user 20, and its owner,
user 10, is still told that authors cannot review their own papers. -/
theorem checkReviewEligibility_order_witness :
    sampleDB.PrimaryKeys ∧ samplePaper 4 10 "published" ∈ sampleDB.papers ∧
      ReviewService.CheckReviewEligibility sampleDB 4 10 =
        .error (.New "authors cannot review their own papers") :=
  ⟨by decide, by decide,
    ((checkReviewEligibility_order sampleDB (by decide) 4 10).2
      (samplePaper 4 10 "published") (by decide) rfl).1 rfl⟩

/-! ## Self-review -/

/-- C2, as stated, fails for the service method: paper 2 of `sampleDB` is owned by user 10
and `ReviewService.CreateReview` called with reviewer 10 returns a review and stores it. -/
theorem createReview_by_owner_persists :
    samplePaper 2 10 "submitted" ∈ sampleDB.papers ∧
    ∃ review, (ReviewService.CreateReview sampleDB (sampleRequest 2) 10).1 = .ok review ∧
      review.PaperID = 2 ∧ review.ReviewerID = 10 ∧
      review ∈ (ReviewService.CreateReview sampleDB (sampleRequest 2) 10).2.reviews := by
  refine ⟨by decide, _, rfl, rfl, rfl, by decide⟩

/-- C2, amended: a review creation that reaches the eligibility gate of the handler (an
authenticated `POST` whose body decodes and passes the required-field and score checks)
and whose user owns the stored paper is answered with status 403 and the self-review
message, whatever the status of the paper, and the database is left as it was. -/
theorem handler_createReview_owner_forbidden
    (ValidateRequiredFields : List (String × String) → Option String) (db : DB)
    (hpk : db.PrimaryKeys) (r : Request CreateReviewRequest) (req : CreateReviewRequest)
    (userID : Nat) (p : Paper)
    (hmethod : r.Method = "POST") (huser : r.UserID = some userID) (hbody : r.Body = .ok req)
    (hfields : ValidateRequiredFields
      [("comment", req.Comment), ("recommendation", req.Recommendation)] = none)
    (hscore : 1 ≤ req.Score ∧ req.Score ≤ 10)
    (hp : p ∈ db.papers) (hid : p.ID = req.PaperID) (howner : p.OwnerID = userID) :
    ReviewHandler.CreateReview ValidateRequiredFields db r =
      (.Error 403 "authors cannot review their own papers", db) := by
  have helig := eligibility_owner db req.PaperID userID p
    (hid ▸ paper_getByID_of_mem db hpk p hp) howner
  have h1 : ¬ req.Score < 1 := by omega
  have h2 : ¬ req.Score > 10 := by omega
  unfold ReviewHandler.CreateReview
  simp [hmethod, huser, hbody, hfields, h1, h2, helig, Err.Error]

/-- The owner of the published paper 4 of `sampleDB` posts a valid review of it. -/
theorem handler_createReview_owner_forbidden_witness :
    ReviewHandler.CreateReview requiredFieldsPresent sampleDB (samplePost 10 (sampleRequest 4)) =
      (.Error 403 "authors cannot review their own papers", sampleDB) :=
  handler_createReview_owner_forbidden requiredFieldsPresent sampleDB (by decide)
    (samplePost 10 (sampleRequest 4)) (sampleRequest 4) 10 (samplePaper 4 10 "published")
    rfl rfl rfl (by decide) (by decide) (by decide) rfl rfl

/-! ## At most one review per pair -/

/-- C3, as stated, fails in its last part: user 20 has reviewed the published paper 4 of
`sampleDB`, and a further `CreateReview` for that pair is refused with the not-available
error, not with the already-reviewed one. -/
theorem createReview_duplicate_on_published :
    (∃ r ∈ sampleDB.reviews, r.PaperID = 4 ∧ r.ReviewerID = 20) ∧
    ReviewService.CreateReview sampleDB (sampleRequest 4) 20 =
      (.error (.New "paper is not available for review"), sampleDB) ∧
    (ReviewService.CreateReview sampleDB (sampleRequest 4) 20).1 ≠
      .error (.New "you have already reviewed this paper") := by
  refine ⟨by decide, by decide, by decide⟩

/-- C3, amended: from a database with no two reviews of the same paper by the same
reviewer, every sequence of `CreateReview`, `UpdateReview` and `DeleteReview` calls leads
to such a database again; and a `CreateReview` for a pair that already has a review
returns an error and leaves the database as it was, the error being the already-reviewed
one whenever the paper is stored with status `submitted` or `under_review`. -/
theorem at_most_one_review_per_pair (db : DB) (hpk : db.PrimaryKeys) (hu : db.UniqueReviews) :
    (∀ ops : List Op, (∀ op ∈ ops, op.isReviewOp = true) →
      (ops.foldl Op.run db).UniqueReviews) ∧
    (∀ (req : CreateReviewRequest) (reviewerID : Nat),
      (∃ r ∈ db.reviews, r.PaperID = req.PaperID ∧ r.ReviewerID = reviewerID) →
      (∃ err, ReviewService.CreateReview db req reviewerID = (.error err, db)) ∧
      (∀ p ∈ db.papers, p.ID = req.PaperID →
        p.Status = "submitted" ∨ p.Status = "under_review" →
        ReviewService.CreateReview db req reviewerID =
          (.error (.New "you have already reviewed this paper"), db))) := by
  refine ⟨fun ops _ => (unique_run_list ops db hpk hu).2, fun req reviewerID hex => ?_⟩
  obtain ⟨r, hprobe⟩ := review_probe_some db req.PaperID reviewerID hex
  constructor
  · unfold ReviewService.CreateReview
    split
    · exact ⟨_, rfl⟩
    · split
      · exact ⟨_, rfl⟩
      · rw [hprobe]
        exact ⟨_, rfl⟩
  · intro p hp hid hs
    have hget := paper_getByID_of_mem db hpk p hp
    rw [hid] at hget
    unfold ReviewService.CreateReview
    rw [hget]
    rcases hs with hs | hs <;> simp [hs, hprobe]

/-- In `sampleDB`: user 20 tries to review paper 3 again, user 21 reviews paper 2, review 1
is rewritten by its author and review 2 is deleted; and the second review of paper 3 by
user 20 is refused as already made. -/
theorem at_most_one_review_per_pair_witness :
    sampleDB.PrimaryKeys ∧ sampleDB.UniqueReviews ∧
    (([Op.CreateReview (sampleRequest 3) 20, Op.CreateReview (sampleRequest 2) 21,
        Op.UpdateReview 1 (sampleRequest 3) 20, Op.DeleteReview 2 20].foldl
      Op.run sampleDB).UniqueReviews) ∧
    ReviewService.CreateReview sampleDB (sampleRequest 3) 20 =
      (.error (.New "you have already reviewed this paper"), sampleDB) :=
  ⟨by decide, by decide,
    (at_most_one_review_per_pair sampleDB (by decide) (by decide)).1 _ (by decide),
    ((at_most_one_review_per_pair sampleDB (by decide) (by decide)).2 (sampleRequest 3) 20
      (by decide)).2 (samplePaper 3 10 "under_review") (by decide) rfl (Or.inr rfl)⟩

/-! ## Paper status -/

/-- C4: in a database whose papers all carry one of the four statuses, every service
operation leaves only papers with one of the four statuses, and a paper stored before and
after the call has not moved back in the order draft, submitted, under_review, published;
in particular a paper that is a draft afterwards was a draft before. -/
theorem status_never_regresses (db : DB) (op : Op) (hpk : db.PrimaryKeys)
    (hvalid : ∀ p ∈ db.papers, ValidStatus p.Status) :
    (∀ q ∈ (op.run db).papers, ValidStatus q.Status) ∧
    (∀ p ∈ db.papers, ∀ q ∈ (op.run db).papers, q.ID = p.ID →
      statusRank p.Status ≤ statusRank q.Status ∧ (q.Status = "draft" → p.Status = "draft")) := by
  have hstep : ∀ p q : Paper, p.Advances q →
      (ValidStatus p.Status → ValidStatus q.Status) ∧
      statusRank p.Status ≤ statusRank q.Status ∧ (q.Status = "draft" → p.Status = "draft") := by
    intro p q hadv
    rcases hadv.2 with h | ⟨h1, h2⟩ | ⟨h1, h2⟩
    · rw [h]
      exact ⟨id, Nat.le_refl _, id⟩
    · rw [h1, h2]
      exact ⟨fun _ => by decide, by decide, by decide⟩
    · rw [h1, h2]
      exact ⟨fun _ => by decide, by decide, by decide⟩
  constructor
  · intro q hq
    rcases papers_after_run db op q hq with ⟨_, hd⟩ | ⟨p, hp, hadv⟩
    · exact Or.inl hd
    · exact (hstep p q hadv).1 (hvalid p hp)
  · intro p hp q hq hid
    rcases papers_after_run db op q hq with ⟨hnew, _⟩ | ⟨p0, hp0, hadv⟩
    · have := hpk.2.2.1 p hp
      omega
    · have hpp : p0 = p :=
        List.inj_on_of_nodup_map hpk.1 hp0 hp (hadv.1.symm.trans hid)
      subst hpp
      exact (hstep p0 q hadv).2

/-- Reviewing the submitted paper 2 of `sampleDB` moves it from rank 1 to rank 2. -/
theorem status_never_regresses_witness :
    sampleDB.PrimaryKeys ∧ (∀ p ∈ sampleDB.papers, ValidStatus p.Status) ∧
    (∀ q ∈ ((Op.CreateReview (sampleRequest 2) 21).run sampleDB).papers,
      ValidStatus q.Status) ∧
    statusRank (samplePaper 2 10 "submitted").Status ≤
      statusRank (samplePaper 2 10 "under_review").Status :=
  ⟨by decide, by decide,
    (status_never_regresses sampleDB (Op.CreateReview (sampleRequest 2) 21) (by decide)
      (by decide)).1,
    ((status_never_regresses sampleDB (Op.CreateReview (sampleRequest 2) 21) (by decide)
      (by decide)).2 (samplePaper 2 10 "submitted") (by decide)
      (samplePaper 2 10 "under_review") (by decide) rfl).1⟩

/-! ## Submission -/

/-- C5: when the owner submits a stored draft, `SubmitForReview` returns the paper with
status `submitted` and every other field as stored, and that row is what the database
then holds under the paper's key. -/
theorem submitForReview_own_draft (db : DB) (hpk : db.PrimaryKeys) (p : Paper)
    (hp : p ∈ db.papers) (hdraft : p.Status = "draft") :
    (PaperService.SubmitForReview db p.ID p.OwnerID).1 = .ok { p with Status := "submitted" } ∧
    PaperRepository.GetByID (PaperService.SubmitForReview db p.ID p.OwnerID).2 p.ID =
      .ok { p with Status := "submitted" } ∧
    { p with Status := "submitted" } ∈ (PaperService.SubmitForReview db p.ID p.OwnerID).2.papers := by
  have hget := paper_getByID_of_mem db hpk p hp
  have hrun : PaperService.SubmitForReview db p.ID p.OwnerID =
      (.ok { p with Status := "submitted" },
        PaperRepository.Update db { p with Status := "submitted" }) := by
    unfold PaperService.SubmitForReview
    rw [hget]
    simp [hdraft]
  rw [hrun]
  exact ⟨rfl, paper_getByID_update db hpk p _ hp rfl, mem_papers_update db p _ hp rfl⟩

/-- The owner, user 10, submits the draft paper 1 of `sampleDB`. -/
theorem submitForReview_own_draft_witness :
    sampleDB.PrimaryKeys ∧ samplePaper 1 10 "draft" ∈ sampleDB.papers ∧
    (PaperService.SubmitForReview sampleDB 1 10).1 = .ok (samplePaper 1 10 "submitted") ∧
    PaperRepository.GetByID (PaperService.SubmitForReview sampleDB 1 10).2 1 =
      .ok (samplePaper 1 10 "submitted") :=
  ⟨by decide, by decide,
    (submitForReview_own_draft sampleDB (by decide) (samplePaper 1 10 "draft") (by decide)
      rfl).1,
    (submitForReview_own_draft sampleDB (by decide) (samplePaper 1 10 "draft") (by decide)
      rfl).2.1⟩

/-- C6: for a stored paper, `SubmitForReview` by anyone but the owner returns the
unauthorized error whatever the status, and by the owner on a paper that is no draft the
not-in-draft error; the two errors differ, and in both cases the database is left as it
was. -/
theorem submitForReview_rejections (db : DB) (hpk : db.PrimaryKeys) (p : Paper)
    (hp : p ∈ db.papers) :
    (∀ userID, userID ≠ p.OwnerID →
      PaperService.SubmitForReview db p.ID userID =
        (.error (.New "unauthorized to submit this paper"), db)) ∧
    (p.Status ≠ "draft" →
      PaperService.SubmitForReview db p.ID p.OwnerID =
        (.error (.New "paper is not in draft status"), db)) ∧
    Err.New "unauthorized to submit this paper" ≠ Err.New "paper is not in draft status" := by
  have hget := paper_getByID_of_mem db hpk p hp
  refine ⟨fun userID hne => ?_, fun hnd => ?_, by decide⟩
  · unfold PaperService.SubmitForReview
    rw [hget]
    simp [Ne.symm hne]
  · unfold PaperService.SubmitForReview
    rw [hget]
    simp [hnd]

/-- In `sampleDB`, user 11 may not submit the draft paper 1, and the owner may not submit
paper 2 again. -/
theorem submitForReview_rejections_witness :
    PaperService.SubmitForReview sampleDB 1 11 =
      (.error (.New "unauthorized to submit this paper"), sampleDB) ∧
    PaperService.SubmitForReview sampleDB 2 10 =
      (.error (.New "paper is not in draft status"), sampleDB) :=
  ⟨(submitForReview_rejections sampleDB (by decide) (samplePaper 1 10 "draft")
      (by decide)).1 11 (by decide),
    (submitForReview_rejections sampleDB (by decide) (samplePaper 2 10 "submitted")
      (by decide)).2.1 (by decide)⟩

/-! ## First review -/

/-- C7: a `CreateReview` that returns a review of a stored paper leaves the paper under
review if it was submitted, and leaves its row as it was if it was already under review;
so after one or more successful reviews of a submitted paper, made one after another, the
paper is stored with status `under_review`. -/
theorem createReview_puts_under_review (db : DB) (hpk : db.PrimaryKeys) (p : Paper)
    (hp : p ∈ db.papers) :
    (∀ (req : CreateReviewRequest) (reviewerID : Nat) (review : Review), req.PaperID = p.ID →
      (ReviewService.CreateReview db req reviewerID).1 = .ok review →
      (p.Status = "submitted" →
        PaperRepository.GetByID (ReviewService.CreateReview db req reviewerID).2 p.ID =
          .ok { p with Status := "under_review" }) ∧
      (p.Status = "under_review" →
        PaperRepository.GetByID (ReviewService.CreateReview db req reviewerID).2 p.ID = .ok p)) ∧
    (∀ (calls : List (CreateReviewRequest × Nat)) (db' : DB), calls ≠ [] →
      (∀ call ∈ calls, call.1.PaperID = p.ID) → p.Status = "submitted" →
      createReviews db calls = .ok db' →
      PaperRepository.GetByID db' p.ID = .ok { p with Status := "under_review" }) := by
  constructor
  · intro req reviewerID review hid hok
    have hpk1 : (ReviewService.CreateReview db req reviewerID).2.PrimaryKeys :=
      pk_run db (.CreateReview req reviewerID) hpk
    rcases createReview_ok_paper db hpk p hp req reviewerID review hid hok with
      ⟨hsub, hmem⟩ | ⟨hur, hmem⟩
    · refine ⟨fun _ => paper_getByID_of_mem _ hpk1 _ hmem, fun h => ?_⟩
      rw [hsub] at h
      exact absurd h (by decide)
    · refine ⟨fun h => ?_, fun _ => paper_getByID_of_mem _ hpk1 _ hmem⟩
      rw [hur] at h
      exact absurd h (by decide)
  · intro calls db' hne hall hsub hrun
    cases calls with
    | nil => exact absurd rfl hne
    | cons call rest =>
      simp only [createReviews] at hrun
      have hpk1 : (ReviewService.CreateReview db call.1 call.2).2.PrimaryKeys :=
        pk_run db (.CreateReview call.1 call.2) hpk
      cases hres : ReviewService.CreateReview db call.1 call.2 with
      | mk res db1 =>
        rw [hres] at hrun hpk1
        cases res with
        | error err => cases hrun
        | ok review =>
          have hstep := createReview_ok_paper db hpk p hp call.1 call.2 review
            (hall call (List.mem_cons_self _ _)) (by rw [hres])
          rw [hres] at hstep
          rcases hstep with ⟨_, hmem⟩ | ⟨hur, _⟩
          · have hfin := createReviews_keeps_under_review rest db1 db'
              { p with Status := "under_review" } hpk1 hmem rfl
              (fun c hc => hall c (List.mem_cons_of_mem _ hc)) hrun
            exact paper_getByID_of_mem db' hfin.1 _ hfin.2
          · rw [hsub] at hur
            exact absurd hur (by decide)

/-- Users 21, 22 and 23 review the submitted paper 2 of `sampleDB` in turn. -/
theorem createReview_puts_under_review_witness :
    sampleDB.PrimaryKeys ∧ samplePaper 2 10 "submitted" ∈ sampleDB.papers ∧
    ∃ db', createReviews sampleDB
        [(sampleRequest 2, 21), (sampleRequest 2, 22), (sampleRequest 2, 23)] = .ok db' ∧
      PaperRepository.GetByID db' 2 = .ok (samplePaper 2 10 "under_review") :=
  ⟨by decide, by decide, _, rfl,
    (createReview_puts_under_review sampleDB (by decide) (samplePaper 2 10 "submitted")
      (by decide)).2 [(sampleRequest 2, 21), (sampleRequest 2, 22), (sampleRequest 2, 23)] _
      (by decide) (by decide) rfl rfl⟩

/-! ## Aggregate score -/

theorem floor_le_roundHalfEven (q : ℚ) : ⌊q⌋ ≤ roundHalfEven q := by
  unfold roundHalfEven
  split_ifs <;> omega

theorem roundHalfEven_le_ceil (q : ℚ) : roundHalfEven q ≤ ⌈q⌉ := by
  unfold roundHalfEven
  have h1 : ⌊q⌋ ≤ ⌈q⌉ := Int.floor_le_ceil q
  by_cases hf : Int.fract q = 0
  · have : Int.fract q < 1 / 2 := by rw [hf]; norm_num
    rw [if_pos this]
    exact h1
  · have hpos : 0 < Int.fract q := lt_of_le_of_ne (Int.fract_nonneg q) (Ne.symm hf)
    have h3 : (⌊q⌋ : ℚ) < q := by
      have := Int.self_sub_floor q
      linarith
    have hlt : ⌊q⌋ < ⌈q⌉ := Int.cast_lt.1 (lt_of_lt_of_le h3 (Int.le_ceil q))
    split_ifs <;> omega

theorem abs_roundHalfEven_sub (q : ℚ) : |(roundHalfEven q : ℚ) - q| ≤ 1 / 2 := by
  unfold roundHalfEven
  have h0 := Int.fract_nonneg q
  have h1 := Int.fract_lt_one q
  have h2 : q = ⌊q⌋ + Int.fract q := (Int.floor_add_fract q).symm
  rw [abs_le]
  split_ifs <;> push_cast <;> constructor <;> linarith

theorem roundHalfEven_eq (q : ℚ) (m : Int) (h1 : (m : ℚ) - 1 / 2 < q)
    (h2 : q < (m : ℚ) + 1 / 2) : roundHalfEven q = m := by
  have a := abs_roundHalfEven_sub q
  rw [abs_le] at a
  have b : ((roundHalfEven q - m : Int) : ℚ) < 1 := by push_cast; linarith
  have c : (-1 : ℚ) < ((roundHalfEven q - m : Int) : ℚ) := by push_cast; linarith
  have b2 : roundHalfEven q - m < 1 := by exact_mod_cast b
  have c2 : -1 < roundHalfEven q - m := by exact_mod_cast c
  omega

theorem binaryExponent_le (q : ℚ) (h : q ≠ 0) : (2 : ℚ) ^ binaryExponent q ≤ |q| := by
  have := Int.zpow_log_le_self (b := 2) (r := |q|) (by norm_num) (abs_pos.2 h)
  simpa [binaryExponent] using this

theorem lt_binaryExponent (q : ℚ) : |q| < (2 : ℚ) ^ (binaryExponent q + 1) := by
  have := Int.lt_zpow_succ_log_self (b := 2) (by norm_num) |q|
  simpa [binaryExponent] using this

theorem binaryExponent_eq (q : ℚ) (e : Int) (h1 : (2 : ℚ) ^ e ≤ |q|)
    (h2 : |q| < (2 : ℚ) ^ (e + 1)) : binaryExponent q = e := by
  have hq : q ≠ 0 := by
    intro h
    rw [h, abs_zero] at h1
    exact absurd h1 (not_le.2 (zpow_pos (by norm_num) e))
  have a := binaryExponent_le q hq
  have b := lt_binaryExponent q
  have c : (2 : ℚ) ^ e < 2 ^ (binaryExponent q + 1) := lt_of_le_of_lt h1 b
  have d : (2 : ℚ) ^ binaryExponent q < 2 ^ (e + 1) := lt_of_le_of_lt a h2
  rw [zpow_lt_zpow_iff_right₀ (by norm_num)] at c d
  omega

/-- Below `2^53` in magnitude the spacing of `float64` values is at most 1, so rounding
does not cross an integer. -/
theorem roundFloat64_int_le (q : ℚ) (m : Int) (hq : |q| < 2 ^ 53) (h : (m : ℚ) ≤ q) :
    (m : ℚ) ≤ roundFloat64 q := by
  unfold roundFloat64
  by_cases h0 : q = 0
  · rw [if_pos h0]
    rw [h0] at h
    exact h
  · rw [if_neg h0]
    have he : binaryExponent q ≤ 52 := by
      have a := lt_of_le_of_lt (binaryExponent_le q h0) hq
      have : (2 : ℚ) ^ binaryExponent q < 2 ^ (53 : Int) := by exact_mod_cast a
      rw [zpow_lt_zpow_iff_right₀ (by norm_num)] at this
      omega
    obtain ⟨s, hs⟩ : ∃ s : Nat, binaryExponent q - 52 = -(s : Int) :=
      ⟨(52 - binaryExponent q).toNat, by omega⟩
    rw [hs, zpow_neg, zpow_natCast]
    have hpos : (0 : ℚ) < 2 ^ s := pow_pos (by norm_num) s
    rw [div_inv_eq_mul]
    have h1 : ((m * 2 ^ s : Int) : ℚ) ≤ q * 2 ^ s := by
      push_cast
      exact mul_le_mul_of_nonneg_right h hpos.le
    have h2 : m * 2 ^ s ≤ roundHalfEven (q * 2 ^ s) :=
      le_trans (Int.le_floor.2 h1) (floor_le_roundHalfEven _)
    have h3 : ((m * 2 ^ s : Int) : ℚ) ≤ (roundHalfEven (q * 2 ^ s) : ℚ) := by exact_mod_cast h2
    push_cast at h3
    rw [← div_eq_mul_inv, le_div_iff₀ hpos]
    exact h3

theorem roundFloat64_le_int (q : ℚ) (m : Int) (hq : |q| < 2 ^ 53) (h : q ≤ (m : ℚ)) :
    roundFloat64 q ≤ (m : ℚ) := by
  unfold roundFloat64
  by_cases h0 : q = 0
  · rw [if_pos h0]
    rw [h0] at h
    exact h
  · rw [if_neg h0]
    have he : binaryExponent q ≤ 52 := by
      have a := lt_of_le_of_lt (binaryExponent_le q h0) hq
      have : (2 : ℚ) ^ binaryExponent q < 2 ^ (53 : Int) := by exact_mod_cast a
      rw [zpow_lt_zpow_iff_right₀ (by norm_num)] at this
      omega
    obtain ⟨s, hs⟩ : ∃ s : Nat, binaryExponent q - 52 = -(s : Int) :=
      ⟨(52 - binaryExponent q).toNat, by omega⟩
    rw [hs, zpow_neg, zpow_natCast]
    have hpos : (0 : ℚ) < 2 ^ s := pow_pos (by norm_num) s
    rw [div_inv_eq_mul]
    have h1 : q * 2 ^ s ≤ ((m * 2 ^ s : Int) : ℚ) := by
      push_cast
      exact mul_le_mul_of_nonneg_right h hpos.le
    have h2 : roundHalfEven (q * 2 ^ s) ≤ m * 2 ^ s :=
      le_trans (roundHalfEven_le_ceil _) (Int.ceil_le.2 h1)
    have h3 : (roundHalfEven (q * 2 ^ s) : ℚ) ≤ ((m * 2 ^ s : Int) : ℚ) := by exact_mod_cast h2
    push_cast at h3
    rw [← div_eq_mul_inv, div_le_iff₀ hpos]
    exact h3

/-- An integer below `2^53` in magnitude is a `float64`. -/
theorem roundFloat64_int (m : Int) (h1 : -9007199254740992 < m) (h2 : m < 9007199254740992) :
    roundFloat64 (m : ℚ) = m := by
  have hq : |(m : ℚ)| < 2 ^ 53 := by
    rw [abs_lt]
    constructor
    · have : ((-9007199254740992 : Int) : ℚ) < (m : ℚ) := by exact_mod_cast h1
      norm_num at this ⊢
      exact this
    · have : (m : ℚ) < ((9007199254740992 : Int) : ℚ) := by exact_mod_cast h2
      norm_num at this ⊢
      exact this
  exact le_antisymm (roundFloat64_le_int _ m hq le_rfl) (roundFloat64_int_le _ m hq le_rfl)

/-- Rounding to `float64` moves a value by at most `2^-53` of its magnitude. -/
theorem roundFloat64_error (q : ℚ) : |roundFloat64 q - q| ≤ |q| / 2 ^ 53 := by
  unfold roundFloat64
  by_cases h0 : q = 0
  · rw [if_pos h0, h0]
    simp
  · rw [if_neg h0]
    have hu : (0 : ℚ) < 2 ^ (binaryExponent q - 52) := zpow_pos (by norm_num) _
    have h1 := abs_roundHalfEven_sub (q / 2 ^ (binaryExponent q - 52))
    have h2 :
        (roundHalfEven (q / 2 ^ (binaryExponent q - 52)) : ℚ) * 2 ^ (binaryExponent q - 52) - q =
          ((roundHalfEven (q / 2 ^ (binaryExponent q - 52)) : ℚ) -
            q / 2 ^ (binaryExponent q - 52)) * 2 ^ (binaryExponent q - 52) := by
      field_simp
    rw [h2, abs_mul, abs_of_pos hu]
    have h3 : (2 : ℚ) ^ (binaryExponent q - 52) = 2 ^ binaryExponent q / 2 ^ 52 := by
      rw [zpow_sub₀ (by norm_num)]
      norm_num
    have h4 := binaryExponent_le q h0
    calc |(roundHalfEven (q / 2 ^ (binaryExponent q - 52)) : ℚ) -
            q / 2 ^ (binaryExponent q - 52)| * 2 ^ (binaryExponent q - 52)
        ≤ 1 / 2 * 2 ^ (binaryExponent q - 52) := mul_le_mul_of_nonneg_right h1 hu.le
      _ = 2 ^ binaryExponent q / 2 ^ 53 := by rw [h3]; ring
      _ ≤ |q| / 2 ^ 53 := by
        apply div_le_div_of_nonneg_right h4
        positivity

/-- The `float64` nearest to 20/3. -/
theorem roundFloat64_twenty_thirds :
    roundFloat64 (20 / 3) = 7505999378950827 / 1125899906842624 := by
  unfold roundFloat64
  rw [binaryExponent_eq (20 / 3) 2 (by rw [abs_of_pos] <;> norm_num)
    (by rw [abs_of_pos] <;> norm_num)]
  rw [if_neg (by norm_num)]
  rw [roundHalfEven_eq _ 7505999378950827 (by norm_num) (by norm_num)]
  norm_num

/-- With a sum of scores and a number of reviews below `2^53` in magnitude, the sum does
not wrap, the two conversions are exact, and `CalculatePaperScore` is the exact mean
rounded once. -/
theorem calculatePaperScore_of_fits (db : DB) (paperID : Nat)
    (hne : scoresOf db paperID ≠ [])
    (h1 : -9007199254740992 < (scoresOf db paperID).sum)
    (h2 : (scoresOf db paperID).sum < 9007199254740992)
    (h3 : (scoresOf db paperID).length < 9007199254740992) :
    ReviewService.CalculatePaperScore db paperID =
      .ok (roundFloat64
        ((((scoresOf db paperID).sum : Int) : ℚ) / ((scoresOf db paperID).length : ℚ))) := by
  have hlength : (scoresOf db paperID).length =
      (db.reviews.filter (fun r => r.PaperID == paperID)).length := by
    simp [scoresOf]
  have hne2 : db.reviews.filter (fun r => r.PaperID == paperID) ≠ [] := by
    simpa [scoresOf] using hne
  have hlen : ((db.reviews.filter (fun r => r.PaperID == paperID)).length == 0) = false := by
    simpa using hne2
  have hcount : roundFloat64 ((scoresOf db paperID).length : ℚ) =
      ((scoresOf db paperID).length : ℚ) := by
    have := roundFloat64_int ((scoresOf db paperID).length : Int) (by omega) (by omega)
    simpa using this
  unfold ReviewService.CalculatePaperScore ReviewRepository.GetByPaperID
  simp only [hlen, Bool.false_eq_true, if_false]
  rw [totalScore_eq _ 0 hne2, zero_add, ← hlength]
  show Except.ok (roundFloat64 (roundFloat64 (wrapInt64 (scoresOf db paperID).sum : ℚ) / _)) = _
  rw [wrapInt64_of_fits _ (by omega) (by omega), roundFloat64_int _ h1 h2, hcount]

/-- C8, as stated, fails in its exact quotient: the three reviews of paper 1 of `scoreDB`
score 4, 6 and 10, and `CalculatePaperScore` returns the `float64` nearest to their mean,
7505999378950827 / 2^50 (printed 6.666666666666667), which is not the rational 20/3. -/
theorem calculatePaperScore_not_exact :
    scoresOf scoreDB 1 = [4, 6, 10] ∧
    ReviewService.CalculatePaperScore scoreDB 1 =
      .ok (7505999378950827 / 1125899906842624) ∧
    ReviewService.CalculatePaperScore scoreDB 1 ≠ .ok (20 / 3) := by
  have hs : scoresOf scoreDB 1 = [4, 6, 10] := by decide
  have hrun : ReviewService.CalculatePaperScore scoreDB 1 =
      .ok (7505999378950827 / 1125899906842624) := by
    rw [calculatePaperScore_of_fits scoreDB 1 (by decide) (by decide) (by decide) (by decide), hs]
    have h : (((([4, 6, 10] : List Int).sum : Int) : ℚ) / (([4, 6, 10] : List Int).length : ℚ)) =
        20 / 3 := by norm_num
    rw [h, roundFloat64_twenty_thirds]
  refine ⟨hs, hrun, ?_⟩
  rw [hrun]
  intro h
  injection h with h
  norm_num at h

/-- C8, amended: for a paper without reviews `CalculatePaperScore` returns 0 and no error;
for a paper with reviews whose scores add up to less than `2^53` in magnitude, and with
fewer than `2^53` reviews, it returns the `float64` nearest to the sum of their scores
divided by their number, a value within `2^-53` of that mean in relative terms, and one
that lies between any lower and upper integer bound of the scores, so between the smallest
and the largest of them. -/
theorem calculatePaperScore_rounded_mean (db : DB) (paperID : Nat) :
    (scoresOf db paperID = [] → ReviewService.CalculatePaperScore db paperID = .ok 0) ∧
    (scoresOf db paperID ≠ [] →
      -9007199254740992 < (scoresOf db paperID).sum →
      (scoresOf db paperID).sum < 9007199254740992 →
      (scoresOf db paperID).length < 9007199254740992 →
      ReviewService.CalculatePaperScore db paperID =
        .ok (roundFloat64
          ((((scoresOf db paperID).sum : Int) : ℚ) / ((scoresOf db paperID).length : ℚ))) ∧
      |roundFloat64
          ((((scoresOf db paperID).sum : Int) : ℚ) / ((scoresOf db paperID).length : ℚ)) -
        (((scoresOf db paperID).sum : Int) : ℚ) / ((scoresOf db paperID).length : ℚ)| ≤
        |(((scoresOf db paperID).sum : Int) : ℚ) / ((scoresOf db paperID).length : ℚ)| /
          2 ^ 53 ∧
      ∀ lo hi : Int, (∀ x ∈ scoresOf db paperID, lo ≤ x ∧ x ≤ hi) →
        (lo : ℚ) ≤
          roundFloat64
            ((((scoresOf db paperID).sum : Int) : ℚ) / ((scoresOf db paperID).length : ℚ)) ∧
        roundFloat64
            ((((scoresOf db paperID).sum : Int) : ℚ) / ((scoresOf db paperID).length : ℚ)) ≤
          (hi : ℚ)) := by
  constructor
  · intro hnil
    have hnil2 : db.reviews.filter (fun r => r.PaperID == paperID) = [] := by
      simpa [scoresOf] using hnil
    unfold ReviewService.CalculatePaperScore ReviewRepository.GetByPaperID
    simp [hnil2]
  · intro hne h1 h2 h3
    refine ⟨calculatePaperScore_of_fits db paperID hne h1 h2 h3, roundFloat64_error _, ?_⟩
    intro lo hi hb
    have hs := sum_scores_bounds lo hi (scoresOf db paperID) hb
    have hpos : (0 : ℚ) < ((scoresOf db paperID).length : ℚ) :=
      Nat.cast_pos.2 (List.length_pos.2 hne)
    have hone : (1 : ℚ) ≤ ((scoresOf db paperID).length : ℚ) := by
      exact_mod_cast List.length_pos.2 hne
    have hsum : |(((scoresOf db paperID).sum : Int) : ℚ)| < 2 ^ 53 := by
      rw [abs_lt]
      constructor
      · have : ((-9007199254740992 : Int) : ℚ) < (((scoresOf db paperID).sum : Int) : ℚ) := by
          exact_mod_cast h1
        norm_num at this ⊢
        exact this
      · have : (((scoresOf db paperID).sum : Int) : ℚ) < ((9007199254740992 : Int) : ℚ) := by
          exact_mod_cast h2
        norm_num at this ⊢
        exact this
    have hq : |(((scoresOf db paperID).sum : Int) : ℚ) / ((scoresOf db paperID).length : ℚ)| <
        2 ^ 53 := by
      rw [abs_div, abs_of_pos hpos]
      exact lt_of_le_of_lt (div_le_self (abs_nonneg _) hone) hsum
    constructor
    · apply roundFloat64_int_le _ lo hq
      rw [le_div_iff₀ hpos]
      have := hs.1
      rw [mul_comm] at this
      exact_mod_cast this
    · apply roundFloat64_le_int _ hi hq
      rw [div_le_iff₀ hpos]
      have := hs.2
      rw [mul_comm] at this
      exact_mod_cast this

/-- The three reviews of paper 1 of `scoreDB` score 4, 6 and 10: the result is the
`float64` nearest to 20/3, which lies between 4 and 10; paper 2 has no review and
scores 0. -/
theorem calculatePaperScore_rounded_mean_witness :
    scoresOf scoreDB 1 = [4, 6, 10] ∧
    ReviewService.CalculatePaperScore scoreDB 1 =
      .ok (roundFloat64
        ((((scoresOf scoreDB 1).sum : Int) : ℚ) / ((scoresOf scoreDB 1).length : ℚ))) ∧
    ((4 : ℚ) ≤
        roundFloat64
          ((((scoresOf scoreDB 1).sum : Int) : ℚ) / ((scoresOf scoreDB 1).length : ℚ)) ∧
      roundFloat64
          ((((scoresOf scoreDB 1).sum : Int) : ℚ) / ((scoresOf scoreDB 1).length : ℚ)) ≤
        (10 : ℚ)) ∧
    ReviewService.CalculatePaperScore scoreDB 2 = .ok 0 := by
  have h := (calculatePaperScore_rounded_mean scoreDB 1).2 (by decide) (by decide) (by decide)
    (by decide)
  have hb := h.2.2 4 10 (by decide)
  exact ⟨by decide, h.1, ⟨by exact_mod_cast hb.1, by exact_mod_cast hb.2⟩,
    (calculatePaperScore_rounded_mean scoreDB 2).1 (by decide)⟩

/-! ## Validation of a review request -/

/-- C9: for a review creation that reaches the score check of the handler (an
authenticated `POST` whose body decodes and passes the required-field check), a score
below 1 or above 10 is answered with the validation error on the score, the database left
as it was; a score from 1 to 10 passes, whatever follows is no validation error. -/
theorem handler_createReview_score_check
    (ValidateRequiredFields : List (String × String) → Option String) (db : DB)
    (r : Request CreateReviewRequest) (req : CreateReviewRequest) (userID : Nat)
    (hmethod : r.Method = "POST") (huser : r.UserID = some userID) (hbody : r.Body = .ok req)
    (hfields : ValidateRequiredFields
      [("comment", req.Comment), ("recommendation", req.Recommendation)] = none) :
    (req.Score < 1 ∨ req.Score > 10 →
      ReviewHandler.CreateReview ValidateRequiredFields db r =
        (.ValidationError "Score must be between 1 and 10", db)) ∧
    (1 ≤ req.Score ∧ req.Score ≤ 10 →
      ∀ message : String,
        (ReviewHandler.CreateReview ValidateRequiredFields db r).1 ≠
          .ValidationError message) := by
  constructor
  · intro hs
    unfold ReviewHandler.CreateReview
    simp [hmethod, huser, hbody, hfields, hs]
  · intro hs message
    have h1 : ¬ req.Score < 1 := by omega
    have h2 : ¬ req.Score > 10 := by omega
    unfold ReviewHandler.CreateReview
    simp only [hmethod, huser, hbody, hfields, h1, h2, bne_self_eq_false, Bool.false_eq_true,
      if_false, decide_False, Bool.or_self]
    split
    · simp
    · split <;> simp

/-- In `sampleDB`, user 21 posts reviews of paper 2 with scores 0, 11, 1 and 10. -/
theorem handler_createReview_score_check_witness :
    ReviewHandler.CreateReview requiredFieldsPresent sampleDB (samplePost 21 (scoredRequest 2 0)) =
      (.ValidationError "Score must be between 1 and 10", sampleDB) ∧
    ReviewHandler.CreateReview requiredFieldsPresent sampleDB
        (samplePost 21 (scoredRequest 2 11)) =
      (.ValidationError "Score must be between 1 and 10", sampleDB) ∧
    (∀ message : String,
      (ReviewHandler.CreateReview requiredFieldsPresent sampleDB
        (samplePost 21 (scoredRequest 2 1))).1 ≠ .ValidationError message) ∧
    (∀ message : String,
      (ReviewHandler.CreateReview requiredFieldsPresent sampleDB
        (samplePost 21 (scoredRequest 2 10))).1 ≠ .ValidationError message) :=
  ⟨(handler_createReview_score_check requiredFieldsPresent sampleDB _ (scoredRequest 2 0) 21
      rfl rfl rfl (by decide)).1 (by decide),
    (handler_createReview_score_check requiredFieldsPresent sampleDB _ (scoredRequest 2 11) 21
      rfl rfl rfl (by decide)).1 (by decide),
    (handler_createReview_score_check requiredFieldsPresent sampleDB _ (scoredRequest 2 1) 21
      rfl rfl rfl (by decide)).2 (by decide),
    (handler_createReview_score_check requiredFieldsPresent sampleDB _ (scoredRequest 2 10) 21
      rfl rfl rfl (by decide)).2 (by decide)⟩

/-- C10 fails on the code: user 21 posts a review of the submitted paper 2 of `sampleDB`
with recommendation `maybe`; the service stores it, and the handler, which checks only
that the recommendation is present, answers 201 with the stored review. -/
theorem createReview_stores_unknown_recommendation :
    (∃ review, (ReviewService.CreateReview sampleDB maybeRequest 21).1 = .ok review ∧
      review.Recommendation = "maybe" ∧
      review ∈ (ReviewService.CreateReview sampleDB maybeRequest 21).2.reviews) ∧
    (∃ review,
      (ReviewHandler.CreateReview requiredFieldsPresent sampleDB (samplePost 21 maybeRequest)).1 =
        .JSON 201 review ∧
      review.Recommendation = "maybe" ∧
      review ∈ (ReviewHandler.CreateReview requiredFieldsPresent sampleDB
        (samplePost 21 maybeRequest)).2.reviews) := by
  refine ⟨⟨_, rfl, rfl, by decide⟩, ⟨_, rfl, rfl, by decide⟩⟩

/-! ## Ownership of a review -/

theorem review_getByID_of_mem (db : DB) (hpk : db.PrimaryKeys) (r : Review)
    (hr : r ∈ db.reviews) : ReviewRepository.GetByID db r.ID = .ok r := by
  unfold ReviewRepository.GetByID
  rw [find?_key_of_mem (fun q : Review => q.ID) db.reviews r hpk.2.1 hr]

theorem review_getByID_update (db : DB) (hpk : db.PrimaryKeys) (r review : Review)
    (hr : r ∈ db.reviews) (hid : review.ID = r.ID)
    (hscore : 1 ≤ review.Score ∧ review.Score ≤ 10) :
    ReviewRepository.GetByID (ReviewRepository.Update db review).2 r.ID = .ok review := by
  have hpk2 := pk_review_update db review hpk
  rcases review_update_cases db review with ⟨hn, _⟩ | ⟨_, hc⟩
  · exact absurd hscore hn
  · rw [hc] at hpk2 ⊢
    rw [← hid]
    exact review_getByID_of_mem _ hpk2 review (List.mem_map.2 ⟨r, hr, by simp [hid]⟩)

/-- C11: for a stored review and a requester who is not its reviewer, `UpdateReview` and
`DeleteReview` return their unauthorized errors and leave the database as it was, so the
review is still stored with its comment, score and recommendation. -/
theorem review_write_by_other_refused (db : DB) (hpk : db.PrimaryKeys) (r : Review)
    (hr : r ∈ db.reviews) (requester : Nat) (hne : requester ≠ r.ReviewerID)
    (req : CreateReviewRequest) :
    ReviewService.UpdateReview db r.ID req requester =
      (.error (.New "unauthorized to update this review"), db) ∧
    ReviewService.DeleteReview db r.ID requester =
      (.error (.New "unauthorized to delete this review"), db) ∧
    ReviewRepository.GetByID (ReviewService.UpdateReview db r.ID req requester).2 r.ID = .ok r ∧
    ReviewRepository.GetByID (ReviewService.DeleteReview db r.ID requester).2 r.ID = .ok r := by
  have hget := review_getByID_of_mem db hpk r hr
  have hupd : ReviewService.UpdateReview db r.ID req requester =
      (.error (.New "unauthorized to update this review"), db) := by
    unfold ReviewService.UpdateReview
    rw [hget]
    simp [Ne.symm hne]
  have hdel : ReviewService.DeleteReview db r.ID requester =
      (.error (.New "unauthorized to delete this review"), db) := by
    unfold ReviewService.DeleteReview
    rw [hget]
    simp [Ne.symm hne]
  refine ⟨hupd, hdel, ?_, ?_⟩
  · rw [hupd]; exact hget
  · rw [hdel]; exact hget

/-- In `sampleDB`, user 21 tries to rewrite and to delete review 1, written by user 20. -/
theorem review_write_by_other_refused_witness :
    sampleDB.PrimaryKeys ∧ sampleReview 1 3 20 7 ∈ sampleDB.reviews ∧
    ReviewService.UpdateReview sampleDB 1 (sampleRequest 3) 21 =
      (.error (.New "unauthorized to update this review"), sampleDB) ∧
    ReviewService.DeleteReview sampleDB 1 21 =
      (.error (.New "unauthorized to delete this review"), sampleDB) :=
  ⟨by decide, by decide,
    (review_write_by_other_refused sampleDB (by decide) (sampleReview 1 3 20 7) (by decide) 21
      (by decide) (sampleRequest 3)).1,
    (review_write_by_other_refused sampleDB (by decide) (sampleReview 1 3 20 7) (by decide) 21
      (by decide) (sampleRequest 3)).2.1⟩

/-- C12, as stated, fails for a zero score: user 20 rewrites review 1 of `sampleDB`, their
own, with an empty comment, a zero score and an empty recommendation. The column check of
the score refuses the row, `UpdateReview` returns the error of the database, and review 1
is stored as before, with score 7. -/
theorem updateReview_zero_score_refused :
    sampleDB.PrimaryKeys ∧ sampleReview 1 3 20 7 ∈ sampleDB.reviews ∧
    ReviewService.UpdateReview sampleDB 1 emptyRequest 20 =
      (.error .CheckViolation, sampleDB) ∧
    ReviewRepository.GetByID (ReviewService.UpdateReview sampleDB 1 emptyRequest 20).2 1 =
      .ok (sampleReview 1 3 20 7) ∧
    (ReviewService.UpdateReview sampleDB 1 emptyRequest 20).1 ≠
      .ok { sampleReview 1 3 20 7 with Comment := "", Score := 0, Recommendation := "" } := by
  refine ⟨by decide, by decide, by decide, by decide, by decide⟩

/-- C12, amended: for a stored review and its reviewer as requester, `UpdateReview` with a
score from 1 to 10 returns and stores the review with comment, score and recommendation
replaced by those of the request (an empty comment and an empty recommendation included),
and with its id, paper, reviewer, metadata and remaining fields as before; with a score
outside 1..10 the write is refused by the column check, `UpdateReview` returns that error
and the review is stored as it was. -/
theorem updateReview_replaces_checked (db : DB) (hpk : db.PrimaryKeys) (r : Review)
    (hr : r ∈ db.reviews) (req : CreateReviewRequest) :
    (1 ≤ req.Score ∧ req.Score ≤ 10 →
      (ReviewService.UpdateReview db r.ID req r.ReviewerID).1 =
        .ok { r with
          Comment := req.Comment, Score := req.Score, Recommendation := req.Recommendation } ∧
      ReviewRepository.GetByID (ReviewService.UpdateReview db r.ID req r.ReviewerID).2 r.ID =
        .ok { r with
          Comment := req.Comment, Score := req.Score, Recommendation := req.Recommendation }) ∧
    (¬ (1 ≤ req.Score ∧ req.Score ≤ 10) →
      ReviewService.UpdateReview db r.ID req r.ReviewerID = (.error .CheckViolation, db) ∧
      ReviewRepository.GetByID (ReviewService.UpdateReview db r.ID req r.ReviewerID).2 r.ID =
        .ok r) := by
  have hget := review_getByID_of_mem db hpk r hr
  rcases updateReview_eq db r.ID req r.ReviewerID with
    ⟨err, hrun, hwhy⟩ | ⟨x, hgx, _, hscore, hrun⟩
  · have herr : err = .CheckViolation ∧ ¬ (1 ≤ req.Score ∧ req.Score ≤ 10) := by
      rcases hwhy with h | ⟨x, hgx, hne, _⟩ | ⟨x, _, _, hs, he⟩
      · rw [hget] at h
        cases h
      · rw [hget] at hgx
        injection hgx with hgx
        subst hgx
        exact absurd rfl hne
      · exact ⟨he, hs⟩
    rw [herr.1] at hrun
    refine ⟨fun hs => absurd hs herr.2, fun _ => ⟨hrun, ?_⟩⟩
    rw [hrun]
    exact hget
  · rw [hget] at hgx
    injection hgx with hgx
    subst hgx
    refine ⟨fun _ => ?_, fun hn => absurd hscore hn⟩
    rw [hrun]
    refine ⟨rfl, ?_⟩
    have h := review_getByID_update db hpk r
      { r with
        Comment := req.Comment, Score := req.Score, Recommendation := req.Recommendation }
      hr rfl hscore
    rcases review_update_cases db
      { r with
        Comment := req.Comment, Score := req.Score, Recommendation := req.Recommendation }
      with ⟨hn, _⟩ | ⟨_, hc⟩
    · exact absurd hscore hn
    · rw [hc] at h
      exact h

/-- User 20 rewrites review 1 of `sampleDB` with an empty comment, score 5 and an empty
recommendation: the stored row takes the three values and keeps the rest. With a zero
score instead the update is refused and the row stays. -/
theorem updateReview_replaces_checked_witness :
    sampleDB.PrimaryKeys ∧ sampleReview 1 3 20 7 ∈ sampleDB.reviews ∧
    ReviewRepository.GetByID (ReviewService.UpdateReview sampleDB 1 blankRequest 20).2 1 =
      .ok { sampleReview 1 3 20 7 with Comment := "", Score := 5, Recommendation := "" } ∧
    ReviewService.UpdateReview sampleDB 1 emptyRequest 20 =
      (.error .CheckViolation, sampleDB) :=
  ⟨by decide, by decide,
    ((updateReview_replaces_checked sampleDB (by decide) (sampleReview 1 3 20 7) (by decide)
      blankRequest).1 (by decide)).2,
    ((updateReview_replaces_checked sampleDB (by decide) (sampleReview 1 3 20 7) (by decide)
      emptyRequest).2 (by decide)).1⟩

/-! ## Updating a paper -/

theorem updatePaper_run (db : DB) (p : Paper) (req : UpdatePaperRequest) (id : Nat)
    (hget : PaperRepository.GetByID db id = .ok p) :
    PaperService.UpdatePaper db id req p.OwnerID =
      (.ok { p with
          Title := if req.Title = "" then p.Title else req.Title
          Abstract := if req.Abstract = "" then p.Abstract else req.Abstract
          Authors := if req.Authors = [] then p.Authors else req.Authors
          Keywords := if req.Keywords = [] then p.Keywords else req.Keywords
          Category := if req.Category = "" then p.Category else req.Category },
        PaperRepository.Update db { p with
          Title := if req.Title = "" then p.Title else req.Title
          Abstract := if req.Abstract = "" then p.Abstract else req.Abstract
          Authors := if req.Authors = [] then p.Authors else req.Authors
          Keywords := if req.Keywords = [] then p.Keywords else req.Keywords
          Category := if req.Category = "" then p.Category else req.Category }) := by
  unfold PaperService.UpdatePaper
  rw [hget]
  have ha : ∀ l : List String, (l.length > 0) ↔ l ≠ [] := fun l => List.length_pos
  by_cases h1 : req.Title = "" <;> by_cases h2 : req.Abstract = "" <;>
    by_cases h3 : req.Authors = [] <;> by_cases h4 : req.Keywords = [] <;>
    by_cases h5 : req.Category = "" <;> simp [h1, h2, h3, h4, h5, ha]

theorem updatePaper_refused (db : DB) (p : Paper) (req : UpdatePaperRequest) (id userID : Nat)
    (hget : PaperRepository.GetByID db id = .ok p) (hne : userID ≠ p.OwnerID) :
    PaperService.UpdatePaper db id req userID =
      (.error (.New "unauthorized to update this paper"), db) := by
  unfold PaperService.UpdatePaper
  rw [hget]
  simp [Ne.symm hne]

/-- C13: for a stored paper, `UpdatePaper` by the owner returns and stores the paper in
which title, abstract and category are those of the request where the request has a
non-empty string and the stored ones otherwise, and authors and keywords are those of the
request where the request list is non-empty and the stored ones otherwise; by anyone else
it returns the unauthorized error and leaves the database as it was. -/
theorem updatePaper_overwrites_supplied (db : DB) (hpk : db.PrimaryKeys) (p : Paper) (hp : p ∈ db.papers)
    (req : UpdatePaperRequest) :
    (PaperService.UpdatePaper db p.ID req p.OwnerID).1 =
      .ok { p with
        Title := if req.Title = "" then p.Title else req.Title
        Abstract := if req.Abstract = "" then p.Abstract else req.Abstract
        Authors := if req.Authors = [] then p.Authors else req.Authors
        Keywords := if req.Keywords = [] then p.Keywords else req.Keywords
        Category := if req.Category = "" then p.Category else req.Category } ∧
    PaperRepository.GetByID (PaperService.UpdatePaper db p.ID req p.OwnerID).2 p.ID =
      .ok { p with
        Title := if req.Title = "" then p.Title else req.Title
        Abstract := if req.Abstract = "" then p.Abstract else req.Abstract
        Authors := if req.Authors = [] then p.Authors else req.Authors
        Keywords := if req.Keywords = [] then p.Keywords else req.Keywords
        Category := if req.Category = "" then p.Category else req.Category } ∧
    (∀ userID, userID ≠ p.OwnerID →
      PaperService.UpdatePaper db p.ID req userID =
        (.error (.New "unauthorized to update this paper"), db)) := by
  have hget := paper_getByID_of_mem db hpk p hp
  refine ⟨?_, ?_, fun userID hne => updatePaper_refused db p req p.ID userID hget hne⟩
  · rw [updatePaper_run db p req p.ID hget]
  · rw [updatePaper_run db p req p.ID hget]
    exact paper_getByID_update db hpk p _ hp rfl

/-- The owner of paper 1 of `sampleDB` sends a title and keywords only: these two fields
are replaced, abstract, authors and category stay; user 11 is refused. -/
theorem updatePaper_overwrites_supplied_witness :
    sampleDB.PrimaryKeys ∧ samplePaper 1 10 "draft" ∈ sampleDB.papers ∧
    PaperRepository.GetByID (PaperService.UpdatePaper sampleDB 1 titleUpdate 10).2 1 =
      .ok { samplePaper 1 10 "draft" with
        Title := "A better title", Keywords := ["method", "proof"] } ∧
    PaperService.UpdatePaper sampleDB 1 titleUpdate 11 =
      (.error (.New "unauthorized to update this paper"), sampleDB) :=
  ⟨by decide, by decide,
    (updatePaper_overwrites_supplied sampleDB (by decide) (samplePaper 1 10 "draft") (by decide)
      titleUpdate).2.1,
    (updatePaper_overwrites_supplied sampleDB (by decide) (samplePaper 1 10 "draft") (by decide)
      titleUpdate).2.2 11 (by decide)⟩

/-- C14: whatever paper `UpdatePaper` is called on, by whomever and with whatever
request, and whether it returns an error or not, every stored paper is stored afterwards
under its key with the status and the owner it had. -/
theorem updatePaper_keeps_status_owner (db : DB) (hpk : db.PrimaryKeys) (p : Paper)
    (hp : p ∈ db.papers) (id : Nat) (req : UpdatePaperRequest) (userID : Nat) :
    ∃ q, PaperRepository.GetByID (PaperService.UpdatePaper db id req userID).2 p.ID = .ok q ∧
      q.Status = p.Status ∧ q.OwnerID = p.OwnerID := by
  have hkeep : ∃ q, PaperRepository.GetByID db p.ID = .ok q ∧
      q.Status = p.Status ∧ q.OwnerID = p.OwnerID :=
    ⟨p, paper_getByID_of_mem db hpk p hp, rfl, rfl⟩
  cases hget : PaperRepository.GetByID db id with
  | error err =>
    have hrun : PaperService.UpdatePaper db id req userID = (.error err, db) := by
      unfold PaperService.UpdatePaper
      rw [hget]
    rw [hrun]
    exact hkeep
  | ok target =>
    by_cases howner : userID = target.OwnerID
    · subst howner
      rw [updatePaper_run db target req id hget]
      obtain ⟨htm, htid⟩ := paper_getByID_ok db id target hget
      by_cases hsame : p.ID = target.ID
      · have hpt : p = target := List.inj_on_of_nodup_map hpk.1 hp htm hsame
        subst hpt
        exact ⟨_, paper_getByID_update db hpk p _ hp rfl, rfl, rfl⟩
      · refine ⟨p, ?_, rfl, rfl⟩
        apply paper_getByID_of_mem _ (pk_paper_update db _ hpk) p
        refine List.mem_map.2 ⟨p, hp, ?_⟩
        have hb : (p.ID == target.ID) = false := by simpa using hsame
        simp only [hb]
        rfl
    · rw [updatePaper_refused db target req id userID hget howner]
      exact hkeep

/-- The owner retitles the submitted paper 2 of `sampleDB`: it is still submitted and
still owned by user 10. -/
theorem updatePaper_keeps_status_owner_witness :
    sampleDB.PrimaryKeys ∧ samplePaper 2 10 "submitted" ∈ sampleDB.papers ∧
    ∃ q, PaperRepository.GetByID (PaperService.UpdatePaper sampleDB 2 titleUpdate 10).2 2 =
        .ok q ∧
      q.Status = "submitted" ∧ q.OwnerID = 10 :=
  ⟨by decide, by decide,
    updatePaper_keeps_status_owner sampleDB (by decide) (samplePaper 2 10 "submitted")
      (by decide) 2 titleUpdate 10⟩

/-! ## Deleting and creating a paper -/

theorem paper_getByID_delete (db : DB) (id : Nat) (h : ∀ r ∈ db.reviews, r.PaperID ≠ id) :
    PaperRepository.GetByID (PaperRepository.Delete db id).2 id = .error .ErrRecordNotFound := by
  rcases paper_delete_cases db id with ⟨⟨r, hr, hid⟩, _⟩ | ⟨_, hd⟩
  · exact absurd hid (h r hr)
  · rw [hd]
    apply paper_getByID_absent
    intro q hq
    have := (List.mem_filter.1 hq).2
    simpa using this

/-- `DeletePaper` by the owner of a stored paper is what the repository makes of the
deletion. -/
theorem deletePaper_by_owner (db : DB) (hpk : db.PrimaryKeys) (p : Paper)
    (hp : p ∈ db.papers) :
    PaperService.DeletePaper db p.ID p.OwnerID = PaperRepository.Delete db p.ID := by
  unfold PaperService.DeletePaper
  rw [paper_getByID_of_mem db hpk p hp]
  simp

/-- C15, as stated, fails for a reviewed paper: the owner, user 10, deletes paper 3 of
`sampleDB`, which review 1 refers to. The foreign key of table `reviews` refuses the
deletion, `DeletePaper` returns the error of the database, and `GetPaper` still finds
paper 3. -/
theorem deletePaper_reviewed_refused :
    sampleDB.PrimaryKeys ∧ samplePaper 3 10 "under_review" ∈ sampleDB.papers ∧
    sampleReview 1 3 20 7 ∈ sampleDB.reviews ∧
    PaperService.DeletePaper sampleDB 3 10 = (.error .ForeignKeyViolation, sampleDB) ∧
    PaperService.GetPaper (PaperService.DeletePaper sampleDB 3 10).2 3 =
      .ok (samplePaper 3 10 "under_review") := by
  refine ⟨by decide, by decide, by decide, by decide, by decide⟩

/-- C15, amended: for a stored paper, `DeletePaper` by anyone but the owner returns the
unauthorized error and leaves the database as it was. By the owner, when no stored review
refers to the paper, it returns no error, after which `GetPaper` finds no paper under that
id, finds every other stored paper as it was, and no paper has been added; when a stored
review refers to the paper, the foreign key refuses the deletion, `DeletePaper` returns
that error, and the database, the paper included, is as it was. -/
theorem deletePaper_owner_unreviewed (db : DB) (hpk : db.PrimaryKeys) (p : Paper)
    (hp : p ∈ db.papers) :
    (∀ userID, userID ≠ p.OwnerID →
      PaperService.DeletePaper db p.ID userID =
        (.error (.New "unauthorized to delete this paper"), db)) ∧
    ((∀ r ∈ db.reviews, r.PaperID ≠ p.ID) →
      (PaperService.DeletePaper db p.ID p.OwnerID).1 = .ok () ∧
      PaperService.GetPaper (PaperService.DeletePaper db p.ID p.OwnerID).2 p.ID =
        .error .ErrRecordNotFound ∧
      (∀ q ∈ db.papers, q.ID ≠ p.ID →
        PaperService.GetPaper (PaperService.DeletePaper db p.ID p.OwnerID).2 q.ID = .ok q) ∧
      (∀ q ∈ (PaperService.DeletePaper db p.ID p.OwnerID).2.papers, q ∈ db.papers)) ∧
    ((∃ r ∈ db.reviews, r.PaperID = p.ID) →
      PaperService.DeletePaper db p.ID p.OwnerID = (.error .ForeignKeyViolation, db) ∧
      PaperService.GetPaper (PaperService.DeletePaper db p.ID p.OwnerID).2 p.ID = .ok p) := by
  have hget := paper_getByID_of_mem db hpk p hp
  have hrun := deletePaper_by_owner db hpk p hp
  refine ⟨fun userID hne => ?_, fun hfree => ?_, fun hreviewed => ?_⟩
  · unfold PaperService.DeletePaper
    rw [hget]
    simp [Ne.symm hne]
  · have hpk2 := pk_paper_delete db p.ID hpk
    have hgone := paper_getByID_delete db p.ID hfree
    rcases paper_delete_cases db p.ID with ⟨⟨r, hr, hid⟩, _⟩ | ⟨_, hd⟩
    · exact absurd hid (hfree r hr)
    · rw [hrun]
      rw [hd] at hpk2 hgone ⊢
      refine ⟨rfl, hgone, fun q hq hne => ?_, fun q hq => ?_⟩
      · apply paper_getByID_of_mem _ hpk2 q
        exact List.mem_filter.2 ⟨hq, by simpa using hne⟩
      · exact List.mem_of_mem_filter hq
  · rcases paper_delete_cases db p.ID with ⟨_, hd⟩ | ⟨hfree, _⟩
    · rw [hrun, hd]
      exact ⟨rfl, hget⟩
    · obtain ⟨r, hr, hid⟩ := hreviewed
      exact absurd hid (hfree r hr)

/-- In `sampleDB`, user 11 may not delete paper 1; its owner, user 10, deletes it, no
review referring to it, and paper 2 is found as before. The owner may not delete paper 3,
which review 1 refers to. -/
theorem deletePaper_owner_unreviewed_witness :
    sampleDB.PrimaryKeys ∧ samplePaper 1 10 "draft" ∈ sampleDB.papers ∧
    PaperService.DeletePaper sampleDB 1 11 =
      (.error (.New "unauthorized to delete this paper"), sampleDB) ∧
    PaperService.GetPaper (PaperService.DeletePaper sampleDB 1 10).2 1 =
      .error .ErrRecordNotFound ∧
    PaperService.GetPaper (PaperService.DeletePaper sampleDB 1 10).2 2 =
      .ok (samplePaper 2 10 "submitted") ∧
    PaperService.DeletePaper sampleDB 3 10 = (.error .ForeignKeyViolation, sampleDB) :=
  ⟨by decide, by decide,
    (deletePaper_owner_unreviewed sampleDB (by decide) (samplePaper 1 10 "draft")
      (by decide)).1 11 (by decide),
    ((deletePaper_owner_unreviewed sampleDB (by decide) (samplePaper 1 10 "draft")
      (by decide)).2.1 (by decide)).2.1,
    ((deletePaper_owner_unreviewed sampleDB (by decide) (samplePaper 1 10 "draft")
      (by decide)).2.1 (by decide)).2.2.1 (samplePaper 2 10 "submitted") (by decide)
      (by decide),
    ((deletePaper_owner_unreviewed sampleDB (by decide) (samplePaper 3 10 "under_review")
      (by decide)).2.2 (by decide)).1⟩

/-- C16: `CreatePaper` returns a paper with status `draft`, the given owner and the
title, abstract, authors, keywords and category of the request, under a fresh key, and
that paper is what the database then holds under the key. -/
theorem createPaper_draft (db : DB) (hpk : db.PrimaryKeys) (req : CreatePaperRequest)
    (ownerID : Nat) :
    (PaperService.CreatePaper db req ownerID).1 =
      .ok { ID := db.paperSeq + 1
            Title := req.Title
            Abstract := req.Abstract
            Authors := req.Authors
            Keywords := req.Keywords
            Category := req.Category
            IPFSHash := ""
            NFTTokenID := none
            OwnerID := ownerID
            Status := "draft" } ∧
    PaperService.GetPaper (PaperService.CreatePaper db req ownerID).2 (db.paperSeq + 1) =
      .ok { ID := db.paperSeq + 1
            Title := req.Title
            Abstract := req.Abstract
            Authors := req.Authors
            Keywords := req.Keywords
            Category := req.Category
            IPFSHash := ""
            NFTTokenID := none
            OwnerID := ownerID
            Status := "draft" } := by
  refine ⟨rfl, ?_⟩
  have hpk1 := pk_paper_create db
    { ID := 0
      Title := req.Title
      Abstract := req.Abstract
      Authors := req.Authors
      Keywords := req.Keywords
      Category := req.Category
      IPFSHash := ""
      NFTTokenID := none
      OwnerID := ownerID
      Status := "draft" } hpk
  exact paper_getByID_of_mem _ hpk1
    { ID := db.paperSeq + 1
      Title := req.Title
      Abstract := req.Abstract
      Authors := req.Authors
      Keywords := req.Keywords
      Category := req.Category
      IPFSHash := ""
      NFTTokenID := none
      OwnerID := ownerID
      Status := "draft" }
    (List.mem_append.2 (Or.inr (List.mem_singleton.2 rfl)))

/-- User 12 creates a paper in `sampleDB`: it is stored under key 5 as a draft of
user 12 with the fields of the request. -/
theorem createPaper_draft_witness :
    sampleDB.PrimaryKeys ∧
    ∃ paper, PaperService.GetPaper (PaperService.CreatePaper sampleDB newPaperRequest 12).2 5 =
        .ok paper ∧
      paper.Status = "draft" ∧ paper.OwnerID = 12 ∧ paper.Title = newPaperRequest.Title ∧
      paper.Authors = newPaperRequest.Authors :=
  ⟨by decide, _,
    (createPaper_draft sampleDB (by decide) newPaperRequest 12).2, rfl, rfl, rfl, rfl⟩

/-! ## Deleting a review -/

/-- C18: `DeleteReview`, whether it returns an error or not, leaves the table of papers
as it was: every paper is found afterwards exactly as before, with the status it had, also
when the review deleted was the last one of a paper under review. -/
theorem deleteReview_keeps_papers (db : DB) (id reviewerID : Nat) :
    (ReviewService.DeleteReview db id reviewerID).2.papers = db.papers ∧
    (∀ paperID, PaperRepository.GetByID (ReviewService.DeleteReview db id reviewerID).2 paperID =
      PaperRepository.GetByID db paperID) := by
  have h : (ReviewService.DeleteReview db id reviewerID).2.papers = db.papers := by
    unfold ReviewService.DeleteReview
    split
    · rfl
    · split <;> rfl
  refine ⟨h, fun paperID => ?_⟩
  unfold PaperRepository.GetByID
  rw [h]

/-- User 20 deletes review 1, the only review of paper 3 of `sampleDB`: the review is
gone and the paper is still under review. -/
theorem deleteReview_keeps_papers_witness :
    (ReviewService.DeleteReview sampleDB 1 20).1 = .ok () ∧
    ReviewRepository.GetByPaperID (ReviewService.DeleteReview sampleDB 1 20).2 3 = [] ∧
    PaperRepository.GetByID (ReviewService.DeleteReview sampleDB 1 20).2 3 =
      .ok (samplePaper 3 10 "under_review") :=
  ⟨by decide, by decide,
    ((deleteReview_keeps_papers sampleDB 1 20).2 3).trans (by decide)⟩

/-! ## Papers waiting for a reviewer -/

theorem mem_of_mem_limitOffset {α : Type} (limit offset : Int) (rows : List α) (x : α)
    (hx : x ∈ limitOffset limit offset rows) : x ∈ rows := by
  unfold limitOffset at hx
  have hdrop : ∀ y, y ∈ (if offset > 0 then rows.drop offset.toNat else rows) → y ∈ rows := by
    intro y hy
    split at hy
    · exact List.mem_of_mem_drop hy
    · exact hy
  simp only [] at hx
  split at hx
  · exact hdrop x (List.mem_of_mem_take hx)
  · exact hdrop x hx

theorem limitOffset_all {α : Type} (limit : Int) (rows : List α)
    (h : limit < 0 ∨ (rows.length : Int) ≤ limit) : limitOffset limit 0 rows = rows := by
  unfold limitOffset
  simp only [gt_iff_lt, lt_self_iff_false, if_false]
  split
  · apply List.take_of_length_le
    omega
  · rfl

theorem mem_pending_iff (db : DB) (reviewerID : Nat) (p : Paper) :
    p ∈ db.papers.filter (fun p =>
        (p.Status == "submitted" || p.Status == "under_review") &&
          !((db.reviews.filter (fun r => r.ReviewerID == reviewerID)).map
            (fun r => r.PaperID)).contains p.ID) ↔
      p ∈ db.papers ∧ (p.Status = "submitted" ∨ p.Status = "under_review") ∧
        ∀ r ∈ db.reviews, r.PaperID = p.ID → r.ReviewerID ≠ reviewerID := by
  have hsub : ((db.reviews.filter (fun r => r.ReviewerID == reviewerID)).map
      (fun r => r.PaperID)).contains p.ID = true ↔
      ∃ r ∈ db.reviews, r.PaperID = p.ID ∧ r.ReviewerID = reviewerID := by
    rw [List.contains, List.elem_iff, List.mem_map]
    constructor
    · rintro ⟨r, hr, hid⟩
      have := List.mem_filter.1 hr
      exact ⟨r, this.1, hid, by simpa using this.2⟩
    · rintro ⟨r, hr, hid, hrev⟩
      exact ⟨r, List.mem_filter.2 ⟨hr, by simpa using hrev⟩, hid⟩
  rw [List.mem_filter]
  constructor
  · rintro ⟨hp, hcond⟩
    simp only [Bool.and_eq_true, Bool.or_eq_true, beq_iff_eq, Bool.not_eq_true',
      ← Bool.not_eq_true] at hcond
    refine ⟨hp, hcond.1, fun r hr hid hrev => ?_⟩
    exact hcond.2 (hsub.2 ⟨r, hr, hid, hrev⟩)
  · rintro ⟨hp, hs, hr⟩
    refine ⟨hp, ?_⟩
    have hnot : ¬ ((db.reviews.filter (fun r => r.ReviewerID == reviewerID)).map
        (fun r => r.PaperID)).contains p.ID = true := by
      intro hc
      obtain ⟨r, hrm, hid, hrev⟩ := hsub.1 hc
      exact hr r hrm hid hrev
    simp only [Bool.and_eq_true, Bool.or_eq_true, beq_iff_eq, Bool.not_eq_true',
      ← Bool.not_eq_true]
    exact ⟨hs, hnot⟩

/-- C17: every paper that `GetPendingReviews` returns for a reviewer, on any page and
with any page size, is a stored paper with status `submitted` or `under_review` of which
the reviewer has no review; and on page 1 with the limit switched off (negative) or not
below the number of papers, the papers returned are exactly the stored papers of this
kind. -/
theorem getPendingReviews_spec (db : DB) (reviewerID : Nat) :
    (∀ (page limit : Int), ∀ p ∈ ReviewService.GetPendingReviews db reviewerID page limit,
      p ∈ db.papers ∧ (p.Status = "submitted" ∨ p.Status = "under_review") ∧
        ∀ r ∈ db.reviews, r.PaperID = p.ID → r.ReviewerID ≠ reviewerID) ∧
    (∀ limit : Int, limit < 0 ∨ (db.papers.length : Int) ≤ limit →
      ∀ p, p ∈ ReviewService.GetPendingReviews db reviewerID 1 limit ↔
        p ∈ db.papers ∧ (p.Status = "submitted" ∨ p.Status = "under_review") ∧
          ∀ r ∈ db.reviews, r.PaperID = p.ID → r.ReviewerID ≠ reviewerID) := by
  constructor
  · intro page limit p hp
    unfold ReviewService.GetPendingReviews PaperRepository.GetPendingReviews at hp
    exact (mem_pending_iff db reviewerID p).1 (mem_of_mem_limitOffset _ _ _ p hp)
  · intro limit hlimit p
    have hoff : wrapInt64 (wrapInt64 (1 - 1) * limit) = 0 := by
      have h0 : wrapInt64 (1 - 1) = 0 := by decide
      rw [h0, zero_mul]
      decide
    unfold ReviewService.GetPendingReviews PaperRepository.GetPendingReviews
    simp only [hoff]
    rw [limitOffset_all, mem_pending_iff]
    rcases hlimit with h | h
    · exact Or.inl h
    · right
      have := List.length_filter_le (fun p : Paper =>
        (p.Status == "submitted" || p.Status == "under_review") &&
          !((db.reviews.filter (fun r => r.ReviewerID == reviewerID)).map
            (fun r => r.PaperID)).contains p.ID) db.papers
      omega

/-- In `sampleDB`, papers 2 and 3 are open to review; user 20 has reviewed paper 3, so
only paper 2 waits for user 20, and both wait for user 21. -/
theorem getPendingReviews_spec_witness :
    ReviewService.GetPendingReviews sampleDB 20 1 10 = [samplePaper 2 10 "submitted"] ∧
    ReviewService.GetPendingReviews sampleDB 21 1 10 =
      [samplePaper 2 10 "submitted", samplePaper 3 10 "under_review"] ∧
    (samplePaper 3 10 "under_review" ∈ ReviewService.GetPendingReviews sampleDB 21 1 10 ↔
      samplePaper 3 10 "under_review" ∈ sampleDB.papers ∧
        ((samplePaper 3 10 "under_review").Status = "submitted" ∨
          (samplePaper 3 10 "under_review").Status = "under_review") ∧
        ∀ r ∈ sampleDB.reviews, r.PaperID = (samplePaper 3 10 "under_review").ID →
          r.ReviewerID ≠ 21) :=
  ⟨by decide, by decide,
    (getPendingReviews_spec sampleDB 21).2 10 (Or.inr (by decide))
      (samplePaper 3 10 "under_review")⟩

/-! ## Codes and statuses of application errors -/

/-- C19: `New` and `Wrap` keep the code they are given and set the status to
`getStatusCode` of that code, which is 400, 401, 403, 404 and 409 on the codes listed and
500 on `INTERNAL_ERROR` and on any code not listed; the constructors `Validation`,
`Unauthorized`, `Forbidden`, `NotFound`, `Conflict` and `Internal` give the statuses 400,
401, 403, 404, 409 and 500. -/
theorem appError_code_and_status (code : ErrorCode) (message : String) (err : GoError)
    (details : Option String) :
    ((errors.New code message).Code = code ∧
      (errors.New code message).StatusCode = errors.getStatusCode code ∧
      (errors.Wrap err code message).Code = code ∧
      (errors.Wrap err code message).StatusCode = errors.getStatusCode code) ∧
    (errors.getStatusCode "BAD_REQUEST" = 400 ∧ errors.getStatusCode "VALIDATION_ERROR" = 400 ∧
      errors.getStatusCode "MISSING_FIELD" = 400 ∧ errors.getStatusCode "INVALID_FORMAT" = 400 ∧
      errors.getStatusCode "UNAUTHORIZED" = 401 ∧ errors.getStatusCode "INVALID_TOKEN" = 401 ∧
      errors.getStatusCode "TOKEN_EXPIRED" = 401 ∧
      errors.getStatusCode "FORBIDDEN" = 403 ∧ errors.getStatusCode "INVALID_OWNER" = 403 ∧
      errors.getStatusCode "NOT_FOUND" = 404 ∧ errors.getStatusCode "USER_NOT_FOUND" = 404 ∧
      errors.getStatusCode "PAPER_NOT_FOUND" = 404 ∧
      errors.getStatusCode "REVIEW_NOT_FOUND" = 404 ∧
      errors.getStatusCode "CONFLICT" = 409 ∧ errors.getStatusCode "USER_EXISTS" = 409 ∧
      errors.getStatusCode "ALREADY_REVIEWED" = 409 ∧
      errors.getStatusCode "INTERNAL_ERROR" = 500) ∧
    (code ∉ ["BAD_REQUEST", "VALIDATION_ERROR", "MISSING_FIELD", "INVALID_FORMAT",
        "UNAUTHORIZED", "INVALID_TOKEN", "TOKEN_EXPIRED", "FORBIDDEN", "INVALID_OWNER",
        "NOT_FOUND", "USER_NOT_FOUND", "PAPER_NOT_FOUND", "REVIEW_NOT_FOUND", "CONFLICT",
        "USER_EXISTS", "ALREADY_REVIEWED"] →
      errors.getStatusCode code = 500) ∧
    ((errors.Validation message details).StatusCode = 400 ∧
      (errors.Unauthorized message).StatusCode = 401 ∧
      (errors.Forbidden message).StatusCode = 403 ∧
      (errors.NotFound message).StatusCode = 404 ∧
      (errors.Conflict message).StatusCode = 409 ∧
      (errors.Internal message err).StatusCode = 500) ∧
    ((errors.Validation message details).Code = "VALIDATION_ERROR" ∧
      (errors.Unauthorized message).Code = "UNAUTHORIZED" ∧
      (errors.Forbidden message).Code = "FORBIDDEN" ∧
      (errors.NotFound message).Code = "NOT_FOUND" ∧
      (errors.Conflict message).Code = "CONFLICT" ∧
      (errors.Internal message err).Code = "INTERNAL_ERROR") := by
  refine ⟨⟨rfl, rfl, rfl, rfl⟩, by decide, ?_, ?_, ⟨rfl, rfl, rfl, rfl, rfl, rfl⟩⟩
  · intro h
    simp only [List.mem_cons, List.mem_singleton, List.not_mem_nil, or_false, not_or] at h
    obtain ⟨h1, h2, h3, h4, h5, h6, h7, h8, h9, h10, h11, h12, h13, h14, h15, h16⟩ := h
    unfold errors.getStatusCode
    simp [errors.ErrBadRequest, errors.ErrValidation, errors.ErrMissingField,
      errors.ErrInvalidFormat, errors.ErrUnauthorized, errors.ErrInvalidToken,
      errors.ErrTokenExpired, errors.ErrForbidden, errors.ErrInvalidOwner, errors.ErrNotFound,
      errors.ErrUserNotFound, errors.ErrPaperNotFound, errors.ErrReviewNotFound,
      errors.ErrConflict, errors.ErrUserExists, errors.ErrAlreadyReviewed,
      h1, h2, h3, h4, h5, h6, h7, h8, h9, h10, h11, h12, h13, h14, h15, h16]
  · refine ⟨?_, ?_, ?_, ?_, ?_, ?_⟩
    · show errors.getStatusCode errors.ErrValidation = 400
      decide
    · show errors.getStatusCode errors.ErrUnauthorized = 401
      decide
    · show errors.getStatusCode errors.ErrForbidden = 403
      decide
    · show errors.getStatusCode errors.ErrNotFound = 404
      decide
    · show errors.getStatusCode errors.ErrConflict = 409
      decide
    · show errors.getStatusCode errors.ErrInternal = 500
      decide

/-- A code that the package does not declare gets status 500, from `New` and from
`Wrap`. -/
theorem appError_code_and_status_witness :
    (errors.New "RATE_LIMITED" "slow down").StatusCode = 500 ∧
    (errors.Wrap (.other "timeout") "RATE_LIMITED" "slow down").StatusCode = 500 ∧
    (errors.New "RATE_LIMITED" "slow down").Code = "RATE_LIMITED" :=
  ⟨(appError_code_and_status "RATE_LIMITED" "slow down" .nil none).1.2.1.trans
      ((appError_code_and_status "RATE_LIMITED" "slow down" .nil none).2.2.1 (by decide)),
    (appError_code_and_status "RATE_LIMITED" "slow down" (.other "timeout") none).1.2.2.2.trans
      ((appError_code_and_status "RATE_LIMITED" "slow down" .nil none).2.2.1 (by decide)),
    (appError_code_and_status "RATE_LIMITED" "slow down" .nil none).1.1⟩

/-! ## What an error reply shows -/

/-- C20: for an error that is not an application error, `SendError` writes status 500 and
the envelope with `success` false, code `INTERNAL_ERROR`, message "Internal server error"
and no details, so any two such errors get the same reply; `AsAppError` turns such an
error into an internal error with that message; and the reply to an error built by `Wrap`
has the message given to `Wrap` and no details, and is the same for any two causes. -/
theorem sendError_hides_cause :
    (∀ err : GoError, errors.IsAppError err = false →
      BaseHandler.SendError err =
        (500, { Success := false
                Data := none
                Error := some { Code := "INTERNAL_ERROR"
                                Message := "Internal server error"
                                Details := none } }) ∧
      errors.AsAppError err = errors.Internal "Internal server error" err) ∧
    (∀ e1 e2 : GoError, errors.IsAppError e1 = false → errors.IsAppError e2 = false →
      BaseHandler.SendError e1 = BaseHandler.SendError e2) ∧
    (∀ (cause : GoError) (code : ErrorCode) (message : String),
      BaseHandler.SendError (errors.Wrap cause code message).toError =
        (errors.getStatusCode code,
          { Success := false
            Data := none
            Error := some { Code := code, Message := message, Details := none } })) ∧
    (∀ (c1 c2 : GoError) (code : ErrorCode) (message : String),
      BaseHandler.SendError (errors.Wrap c1 code message).toError =
        BaseHandler.SendError (errors.Wrap c2 code message).toError) := by
  have hplain : ∀ err : GoError, errors.IsAppError err = false →
      BaseHandler.SendError err =
        (500, { Success := false
                Data := none
                Error := some { Code := "INTERNAL_ERROR"
                                Message := "Internal server error"
                                Details := none } }) := by
    intro err h
    cases err with
    | nil => rfl
    | other text => rfl
    | app code message details cause statusCode => cases h
  refine ⟨fun err h => ⟨hplain err h, ?_⟩, fun e1 e2 h1 h2 => ?_, fun _ _ _ => rfl,
    fun _ _ _ _ => rfl⟩
  · cases err with
    | nil => rfl
    | other text => rfl
    | app code message details cause statusCode => cases h
  · rw [hplain e1 h1, hplain e2 h2]

/-- Two storage failures with different texts get the same reply. -/
theorem sendError_hides_cause_witness :
    errors.IsAppError (.other "pq: connection refused at 10.0.0.5:5432") = false ∧
    BaseHandler.SendError (.other "pq: connection refused at 10.0.0.5:5432") =
      BaseHandler.SendError (.other "record not found") ∧
    (BaseHandler.SendError (.other "pq: connection refused at 10.0.0.5:5432")).1 = 500 :=
  ⟨rfl,
    sendError_hides_cause.2.1 (.other "pq: connection refused at 10.0.0.5:5432")
      (.other "record not found") rfl rfl,
    congrArg Prod.fst
      (sendError_hides_cause.1 (.other "pq: connection refused at 10.0.0.5:5432") rfl).1⟩

/-! ## Checks of the validator -/

theorem addError_errors (v : Validator) (field message : String) :
    (v.AddError field message).errors =
      v.errors ++ (NewValidator.AddError field message).errors := by
  simp [Validator.AddError, NewValidator]

theorem check_apply_errors (lib : StdLib) (v : Validator) (c : Check) :
    (c.apply lib v).errors = v.errors ++ c.failure lib := by
  have hnil : v.errors = v.errors ++ NewValidator.errors := by simp [NewValidator]
  cases c with
  | Required field value =>
    simp only [Check.failure, Check.apply, Validator.Required]
    split
    · exact addError_errors v _ _
    · exact hnil
  | Email field value =>
    simp only [Check.failure, Check.apply, Validator.Email]
    split
    · split
      · exact addError_errors v _ _
      · exact hnil
    · exact hnil
  | MinLength field value min =>
    simp only [Check.failure, Check.apply, Validator.MinLength]
    split
    · exact addError_errors v _ _
    · exact hnil
  | MaxLength field value max =>
    simp only [Check.failure, Check.apply, Validator.MaxLength]
    split
    · exact addError_errors v _ _
    · exact hnil
  | Range field value min max =>
    simp only [Check.failure, Check.apply, Validator.Range]
    split
    · exact addError_errors v _ _
    · exact hnil
  | OneOf field value allowed =>
    simp only [Check.failure, Check.apply, Validator.OneOf]
    split
    · exact hnil
    · exact addError_errors v _ _
  | Pattern field value pattern =>
    simp only [Check.failure, Check.apply, Validator.Pattern]
    split
    · split
      · exact addError_errors v _ _
      · split
        · exact addError_errors v _ _
        · exact hnil
    · exact hnil
  | ArrayNotEmpty field value =>
    simp only [Check.failure, Check.apply, Validator.ArrayNotEmpty]
    split
    · exact addError_errors v _ _
    · exact hnil

theorem check_failure_length (lib : StdLib) (c : Check) : (c.failure lib).length ≤ 1 := by
  cases c <;> simp only [Check.failure, Check.apply, Validator.Required, Validator.Email,
    Validator.MinLength, Validator.MaxLength, Validator.Range, Validator.OneOf,
    Validator.Pattern, Validator.ArrayNotEmpty] <;>
    repeat (first | split | simp [Validator.AddError, NewValidator])

theorem chain_errors (lib : StdLib) (cs : List Check) :
    ∀ v : Validator, (cs.foldl (Check.apply lib) v).errors =
      v.errors ++ (cs.map (Check.failure lib)).flatten := by
  induction cs with
  | nil => intro v; simp
  | cons c cs ih =>
    intro v
    rw [List.foldl_cons, ih, check_apply_errors]
    simp

theorem utf8ByteSize_replicate (n : Nat) (c : Char) :
    (String.mk (List.replicate n c)).utf8ByteSize = n * c.utf8Size := by
  show String.utf8ByteSize.go (List.replicate n c) = n * c.utf8Size
  induction n with
  | zero => simp [String.utf8ByteSize.go]
  | succ n ih =>
    rw [List.replicate_succ, String.utf8ByteSize.go, ih]
    ring

/-- C23 fails on the code, which compares the number of bytes: a title of three
characters passes `MinLength` 5, and a title of two hundred characters is refused by
`MaxLength` 200 with the message that speaks of characters. -/
theorem length_checks_count_bytes :
    (shortTitle.length = 3 ∧ shortTitle.utf8ByteSize = 9 ∧
      (NewValidator.MinLength "title" shortTitle 5).errors = []) ∧
    (longTitle.length = 200 ∧ longTitle.utf8ByteSize = 400 ∧
      (NewValidator.MaxLength "title" longTitle 200).errors =
        [{ Field := "title", Message := "must be no more than 200 characters long" }]) := by
  have h1 : shortTitle.utf8ByteSize = 9 := by decide
  have h2 : longTitle.utf8ByteSize = 400 := by
    have hc : (Char.ofNat 233).utf8Size = 2 := by decide
    rw [longTitle, utf8ByteSize_replicate, hc]
  have h3 : longTitle.length = 200 := by
    show (List.replicate 200 (Char.ofNat 233)).length = 200
    exact List.length_replicate _ _
  refine ⟨⟨by decide, h1, ?_⟩, ⟨h3, h2, ?_⟩⟩
  · simp [Validator.MinLength, h1, NewValidator]
  · simp [Validator.MaxLength, h2, NewValidator, Validator.AddError]
    decide

/-- C24: `Range` records nothing exactly when the value lies between `min` and `max`, both
included, and otherwise appends one error, for the field given; with the bounds 1 and 10
it accepts 1 and 10 and refuses 0 and 11. -/
theorem range_check (v : Validator) (field : String) (value min max : Int) :
    ((v.Range field value min max).errors = v.errors ↔ min ≤ value ∧ value ≤ max) ∧
    (¬ (min ≤ value ∧ value ≤ max) →
      (v.Range field value min max).errors =
        v.errors ++ [{ Field := field
                       Message := "must be between " ++ toString min ++ " and " ++
                         toString max }]) ∧
    ((v.Range field 1 1 10).errors = v.errors ∧ (v.Range field 10 1 10).errors = v.errors ∧
      (v.Range field 0 1 10).errors ≠ v.errors ∧ (v.Range field 11 1 10).errors ≠ v.errors) := by
  have hin : ∀ value min max : Int, min ≤ value ∧ value ≤ max →
      (v.Range field value min max).errors = v.errors := by
    intro value min max h
    have h1 : ¬ value < min := by omega
    have h2 : ¬ value > max := by omega
    simp [Validator.Range, h1, h2]
  have hout : ∀ value min max : Int, ¬ (min ≤ value ∧ value ≤ max) →
      (v.Range field value min max).errors =
        v.errors ++ [{ Field := field
                       Message := "must be between " ++ toString min ++ " and " ++
                         toString max }] := by
    intro value min max h
    have h1 : value < min ∨ value > max := by omega
    simp [Validator.Range, h1, Validator.AddError]
  have hne : ∀ value min max : Int, ¬ (min ≤ value ∧ value ≤ max) →
      (v.Range field value min max).errors ≠ v.errors := by
    intro value min max h heq
    have hlen := congrArg List.length heq
    rw [hout value min max h] at hlen
    simp at hlen
  refine ⟨⟨fun heq => ?_, hin value min max⟩, hout value min max,
    hin 1 1 10 (by omega), hin 10 1 10 (by omega), hne 0 1 10 (by omega),
    hne 11 1 10 (by omega)⟩
  by_contra h
  exact hne value min max h heq

/-- On a fresh validator, a score of 11 with bounds 1 and 10 leaves one error on the
field `score`. -/
theorem range_check_witness :
    (NewValidator.Range "score" 11 1 10).errors =
      [{ Field := "score", Message := "must be between 1 and 10" }] :=
  ((range_check NewValidator "score" 11 1 10).2.1 (by decide)).trans (by decide)

/-- C25: for a chain of checks applied in turn to a fresh validator, each check adds to
the errors recorded before it the at most one error of its own and changes none of them;
so the errors recorded in the end are those of the failed checks, one each, in the order
of the calls, and `Validate` returns `nil` exactly when no check failed and these errors
otherwise. -/
theorem validate_chain (lib : StdLib) (cs : List Check) :
    (∀ (v : Validator) (c : Check),
      (c.apply lib v).errors = v.errors ++ c.failure lib ∧ (c.failure lib).length ≤ 1) ∧
    (cs.foldl (Check.apply lib) NewValidator).errors = (cs.map (Check.failure lib)).flatten ∧
    ((cs.foldl (Check.apply lib) NewValidator).Validate = none ↔
      ∀ c ∈ cs, c.failure lib = []) ∧
    ((∃ c ∈ cs, c.failure lib ≠ []) →
      (cs.foldl (Check.apply lib) NewValidator).Validate =
        some (cs.map (Check.failure lib)).flatten) := by
  have herr : (cs.foldl (Check.apply lib) NewValidator).errors =
      (cs.map (Check.failure lib)).flatten := by
    rw [chain_errors lib cs NewValidator]
    simp [NewValidator]
  have hnil : (cs.map (Check.failure lib)).flatten = [] ↔ ∀ c ∈ cs, c.failure lib = [] := by
    simp [List.flatten_eq_nil_iff]
  have hval : ∀ v : Validator, v.Validate = if v.errors = [] then none else some v.errors := by
    intro v
    unfold Validator.Validate Validator.HasErrors
    cases h : v.errors <;> simp
  refine ⟨fun v c => ⟨check_apply_errors lib v c, check_failure_length lib c⟩, herr, ?_, ?_⟩
  · rw [hval, herr]
    constructor
    · intro h
      by_cases hn : (cs.map (Check.failure lib)).flatten = []
      · exact hnil.1 hn
      · rw [if_neg hn] at h
        cases h
    · intro h
      rw [if_pos (hnil.2 h)]
  · rintro ⟨c, hc, hne⟩
    rw [hval, herr]
    rw [if_neg]
    intro hn
    exact hne (hnil.1 hn c hc)

/-- Of the four checks of `sampleChain` the first, second and fourth fail: `Validate`
returns their three errors in that order. -/
theorem validate_chain_witness :
    (sampleChain.foldl (Check.apply sampleLib) NewValidator).Validate =
      some [{ Field := "name", Message := "is required" },
            { Field := "email", Message := "must be a valid email address" },
            { Field := "role", Message := "must be one of: researcher, reviewer, admin" }] :=
  ((validate_chain sampleLib sampleChain).2.2.2
    ⟨.Required "name" "  ", by decide, by decide⟩).trans (by decide)

/-! ## Query parameters -/

/-- C26: after `SetDefaults` the page is at least 1, the page size lies in 1..100 and the
sort direction is not empty; a page that was at least 1, a page size that was in 1..100
and a sort direction that was not empty are kept, and so are the other fields; applying
`SetDefaults` again changes nothing. -/
theorem setDefaults_spec (q : QueryParams) :
    (1 ≤ q.SetDefaults.Page ∧ 1 ≤ q.SetDefaults.PageSize ∧ q.SetDefaults.PageSize ≤ 100 ∧
      q.SetDefaults.SortDir ≠ "") ∧
    ((1 ≤ q.Page → q.SetDefaults.Page = q.Page) ∧
      (1 ≤ q.PageSize ∧ q.PageSize ≤ 100 → q.SetDefaults.PageSize = q.PageSize) ∧
      (q.SortDir ≠ "" → q.SetDefaults.SortDir = q.SortDir)) ∧
    (q.SetDefaults.Search = q.Search ∧ q.SetDefaults.Category = q.Category ∧
      q.SetDefaults.Status = q.Status ∧ q.SetDefaults.SortBy = q.SortBy) ∧
    q.SetDefaults.SetDefaults = q.SetDefaults := by
  have hform : q.SetDefaults =
      { q with
        Page := if q.Page ≤ 0 then 1 else q.Page
        PageSize := if q.PageSize ≤ 0 ∨ q.PageSize > 100 then 10 else q.PageSize
        SortDir := if q.SortDir = "" then "desc" else q.SortDir } := by
    unfold QueryParams.SetDefaults
    by_cases h1 : q.Page ≤ 0 <;> by_cases h2 : q.PageSize ≤ 0 <;>
      by_cases h3 : q.PageSize > 100 <;> by_cases h4 : q.SortDir = "" <;>
      simp [h1, h2, h3, h4]
  have hidem : ∀ r : QueryParams, 1 ≤ r.Page → 1 ≤ r.PageSize → r.PageSize ≤ 100 →
      r.SortDir ≠ "" → r.SetDefaults = r := by
    intro r h1 h2 h3 h4
    have a1 : ¬ r.Page ≤ 0 := by omega
    have a2 : ¬ r.PageSize ≤ 0 := by omega
    have a3 : ¬ r.PageSize > 100 := by omega
    unfold QueryParams.SetDefaults
    simp [a1, a2, a3, h4]
  have hbounds : 1 ≤ q.SetDefaults.Page ∧ 1 ≤ q.SetDefaults.PageSize ∧
      q.SetDefaults.PageSize ≤ 100 ∧ q.SetDefaults.SortDir ≠ "" := by
    rw [hform]
    refine ⟨?_, ?_, ?_, ?_⟩
    · show (1 : Int) ≤ if q.Page ≤ 0 then 1 else q.Page
      split <;> omega
    · show (1 : Int) ≤ if q.PageSize ≤ 0 ∨ q.PageSize > 100 then 10 else q.PageSize
      split <;> omega
    · show (if q.PageSize ≤ 0 ∨ q.PageSize > 100 then 10 else q.PageSize) ≤ (100 : Int)
      split <;> omega
    · show (if q.SortDir = "" then "desc" else q.SortDir) ≠ ""
      split
      · decide
      · assumption
  refine ⟨hbounds, ⟨fun h => ?_, fun h => ?_, fun h => ?_⟩, ?_,
    hidem _ hbounds.1 hbounds.2.1 hbounds.2.2.1 hbounds.2.2.2⟩
  · rw [hform]
    show (if q.Page ≤ 0 then 1 else q.Page) = q.Page
    rw [if_neg (by omega)]
  · rw [hform]
    show (if q.PageSize ≤ 0 ∨ q.PageSize > 100 then 10 else q.PageSize) = q.PageSize
    rw [if_neg (by omega)]
  · rw [hform]
    show (if q.SortDir = "" then "desc" else q.SortDir) = q.SortDir
    rw [if_neg h]
  · rw [hform]
    exact ⟨rfl, rfl, rfl, rfl⟩

/-- Page 0, page size 500 and an empty sort direction become 1, 10 and `desc`; the four
other fields stay. -/
theorem setDefaults_spec_witness :
    rawParams.SetDefaults = { rawParams with Page := 1, PageSize := 10, SortDir := "desc" } ∧
    rawParams.SetDefaults.SetDefaults = rawParams.SetDefaults :=
  ⟨by decide, (setDefaults_spec rawParams).2.2.2⟩

/-- C27 fails on the code: `parseInt` of `handlers/base.go` returns its default whatever
the string is, so the query `page=3&page_size=50` is parsed to page 1 and page size 10. -/
theorem parseQueryParams_ignores_values :
    (∀ (s : String) (defaultVal : Int), handlers.parseInt s defaultVal = defaultVal) ∧
    sampleQuery "page" = "3" ∧ sampleQuery "page_size" = "50" ∧
    (BaseHandler.ParseQueryParams sampleQuery).Page = 1 ∧
    (BaseHandler.ParseQueryParams sampleQuery).PageSize = 10 := by
  refine ⟨fun s d => ?_, by decide, by decide, by decide, by decide⟩
  unfold handlers.parseInt
  split <;> rfl

/-! ## Recommendation and score in `CreateReview` -/

theorem createReview_same_paper (db : DB) (req1 req2 : CreateReviewRequest) (reviewerID : Nat)
    (hid : req1.PaperID = req2.PaperID)
    (hscore : (1 ≤ req1.Score ∧ req1.Score ≤ 10) ↔ (1 ≤ req2.Score ∧ req2.Score ≤ 10)) :
    (∀ err, (ReviewService.CreateReview db req1 reviewerID).1 = .error err ↔
      (ReviewService.CreateReview db req2 reviewerID).1 = .error err) ∧
    ((∃ review, (ReviewService.CreateReview db req1 reviewerID).1 = .ok review) ↔
      (∃ review, (ReviewService.CreateReview db req2 reviewerID).1 = .ok review)) ∧
    (ReviewService.CreateReview db req1 reviewerID).2.papers =
      (ReviewService.CreateReview db req2 reviewerID).2.papers := by
  rcases createReview_cases db req1 reviewerID with
      ⟨e1, h1, hc1⟩ | ⟨p1, hg1, hs1, hp1, ho1, _, hpap1, hsc1⟩ <;>
    rcases createReview_cases db req2 reviewerID with
      ⟨e2, h2, hc2⟩ | ⟨p2, hg2, hs2, hp2, ho2, _, hpap2, hsc2⟩
  · have hee : e1 = e2 := by
      rw [hid] at hc1
      rcases hc1 with a | ⟨p, a, b, he⟩ | ⟨p, r, a, b, c, he⟩ | ⟨p, a, b, c, d, he⟩ <;>
        rcases hc2 with
          a2 | ⟨p2, a2, b2, he2⟩ | ⟨p2, r2, a2, b2, c2, he2⟩ | ⟨p2, a2, b2, c2, d2, he2⟩
      all_goals rw [a] at a2
      all_goals first
        | exact Except.error.inj a2
        | exact Except.noConfusion a2
        | (have hp := Except.ok.inj a2; subst hp; first
            | exact absurd b2 b
            | exact absurd b b2
            | (rw [c] at c2; exact Option.noConfusion c2)
            | rw [he, he2])
    subst hee
    rw [h1, h2]
    exact ⟨fun _ => Iff.rfl, Iff.rfl, rfl⟩
  · exfalso
    rw [hid] at hc1
    rcases hc1 with a | ⟨p, a, b, c⟩ | ⟨p, r, a, b, c, d⟩ | ⟨p, a, b, c, d, he⟩
    · rw [a] at hg2; cases hg2
    · rw [a] at hg2; injection hg2 with hg2; subst hg2; exact b hs2
    · rw [c] at hp2; cases hp2
    · exact d (hscore.2 hsc2)
  · exfalso
    rw [hid] at hg1 hp1
    rcases hc2 with a | ⟨p, a, b, c⟩ | ⟨p, r, a, b, c, d⟩ | ⟨p, a, b, c, d, he⟩
    · rw [a] at hg1; cases hg1
    · rw [a] at hg1; injection hg1 with hg1; subst hg1; exact b hs1
    · rw [c] at hp1; cases hp1
    · exact d (hscore.1 hsc1)
  · rw [hid] at hg1
    rw [hg1] at hg2
    injection hg2 with hg2
    subst hg2
    rw [ho1, ho2, hpap1, hpap2]
    refine ⟨fun err => ?_, ?_, rfl⟩
    · constructor <;> intro h <;> cases h
    · constructor <;> intro _ <;> exact ⟨_, rfl⟩

theorem createReview_status_rule (db : DB) (req : CreateReviewRequest) (reviewerID : Nat) :
    ∀ q ∈ (ReviewService.CreateReview db req reviewerID).2.papers,
      ∃ p ∈ db.papers, q.ID = p.ID ∧
        (q.Status = p.Status ∨
          (p.ID = req.PaperID ∧ p.Status = "submitted" ∧ q.Status = "under_review")) := by
  intro q hq
  rcases createReview_cases db req reviewerID with ⟨e, h, _⟩ | ⟨p, hg, _, _, _, _, hpap, _⟩
  · rw [h] at hq
    exact ⟨q, hq, rfl, Or.inl rfl⟩
  · rw [hpap] at hq
    obtain ⟨hpm, hpid⟩ := paper_getByID_ok db req.PaperID p hg
    split at hq
    · next hsub =>
      obtain ⟨x, hx, rfl⟩ := List.mem_map.1 hq
      by_cases hxp : x.ID = p.ID
      · rw [if_pos (by simp [hxp])]
        exact ⟨p, hpm, rfl, Or.inr ⟨hpid, hsub, rfl⟩⟩
      · rw [if_neg (by simp [hxp])]
        exact ⟨x, hx, rfl, Or.inl rfl⟩
    · exact ⟨q, hq, rfl, Or.inl rfl⟩

/-- C21, as stated, fails for the score: in `sampleDB`, user 21 reviews the submitted
paper 2 with two requests that differ in the score only, 0 and 8. With score 0 the column
check refuses the row, `CreateReview` returns the error of the database and paper 2 stays
`submitted`; with score 8 it returns the review and paper 2 is `under_review`. -/
theorem createReview_score_decides :
    (scoredRequest 2 0).PaperID = (sampleRequest 2).PaperID ∧
    (scoredRequest 2 0).Comment = (sampleRequest 2).Comment ∧
    (scoredRequest 2 0).Recommendation = (sampleRequest 2).Recommendation ∧
    ReviewService.CreateReview sampleDB (scoredRequest 2 0) 21 =
      (.error .CheckViolation, sampleDB) ∧
    (∃ review, (ReviewService.CreateReview sampleDB (sampleRequest 2) 21).1 = .ok review) ∧
    PaperRepository.GetByID (ReviewService.CreateReview sampleDB (scoredRequest 2 0) 21).2 2 =
      .ok (samplePaper 2 10 "submitted") ∧
    PaperRepository.GetByID (ReviewService.CreateReview sampleDB (sampleRequest 2) 21).2 2 =
      .ok (samplePaper 2 10 "under_review") := by
  refine ⟨rfl, rfl, rfl, by decide, ⟨_, rfl⟩, by decide, by decide⟩

/-- C21, amended: two `CreateReview` calls by the same reviewer on the same database, with
requests for the same paper that differ in recommendation or score (or comment), the two
scores being both inside or both outside 1..10, return the same error or both return a
review, and leave the same table of papers; and whatever the recommendation and the score,
a paper row afterwards has the status of the row with its key before, or is the reviewed
paper moved from `submitted` to `under_review`. -/
theorem createReview_verdict_checked (db : DB) (req1 req2 : CreateReviewRequest)
    (reviewerID : Nat) (hid : req1.PaperID = req2.PaperID) :
    (((1 ≤ req1.Score ∧ req1.Score ≤ 10) ↔ (1 ≤ req2.Score ∧ req2.Score ≤ 10)) →
      (∀ err, (ReviewService.CreateReview db req1 reviewerID).1 = .error err ↔
        (ReviewService.CreateReview db req2 reviewerID).1 = .error err) ∧
      ((∃ review, (ReviewService.CreateReview db req1 reviewerID).1 = .ok review) ↔
        (∃ review, (ReviewService.CreateReview db req2 reviewerID).1 = .ok review)) ∧
      (ReviewService.CreateReview db req1 reviewerID).2.papers =
        (ReviewService.CreateReview db req2 reviewerID).2.papers) ∧
    (∀ q ∈ (ReviewService.CreateReview db req1 reviewerID).2.papers,
      ∃ p ∈ db.papers, q.ID = p.ID ∧
        (q.Status = p.Status ∨
          (p.ID = req1.PaperID ∧ p.Status = "submitted" ∧ q.Status = "under_review"))) :=
  ⟨fun hscore => createReview_same_paper db req1 req2 reviewerID hid hscore,
    createReview_status_rule db req1 reviewerID⟩

/-- In `sampleDB`, user 21 reviews the submitted paper 2 once with `reject` and score 1
and once with `accept` and score 8: both calls return a review, and the papers are the
same afterwards. -/
theorem createReview_verdict_checked_witness :
    (rejectRequest 2).PaperID = (sampleRequest 2).PaperID ∧
    ((∃ review, (ReviewService.CreateReview sampleDB (rejectRequest 2) 21).1 = .ok review) ↔
      (∃ review, (ReviewService.CreateReview sampleDB (sampleRequest 2) 21).1 = .ok review)) ∧
    (ReviewService.CreateReview sampleDB (rejectRequest 2) 21).2.papers =
      (ReviewService.CreateReview sampleDB (sampleRequest 2) 21).2.papers ∧
    PaperRepository.GetByID (ReviewService.CreateReview sampleDB (rejectRequest 2) 21).2 2 =
      .ok (samplePaper 2 10 "under_review") :=
  ⟨rfl,
    ((createReview_verdict_checked sampleDB (rejectRequest 2) (sampleRequest 2) 21 rfl).1
      (by decide)).2.1,
    ((createReview_verdict_checked sampleDB (rejectRequest 2) (sampleRequest 2) 21 rfl).1
      (by decide)).2.2,
    by decide⟩

/-! ## The review that is created -/

/-- C22: a review returned by `CreateReview` has the paper, comment, score and
recommendation of the request and the reviewer of the call, and metadata with the four
criteria originality, methodology, clarity and significance, each 0, type `peer_review`
and version 1, whatever the score; and it is the row added to the table of reviews. -/
theorem createReview_returns_inputs (db : DB) (req : CreateReviewRequest) (reviewerID : Nat)
    (review : Review)
    (hok : (ReviewService.CreateReview db req reviewerID).1 = .ok review) :
    (review.PaperID = req.PaperID ∧ review.ReviewerID = reviewerID ∧
      review.Comment = req.Comment ∧ review.Score = req.Score ∧
      review.Recommendation = req.Recommendation) ∧
    review.Metadata =
      { ReviewCriteria :=
          [("originality", 0), ("methodology", 0), ("clarity", 0), ("significance", 0)]
        ReviewType := "peer_review"
        Version := 1 } ∧
    (ReviewService.CreateReview db req reviewerID).2.reviews = db.reviews ++ [review] := by
  rcases createReview_cases db req reviewerID with ⟨e, h, _⟩ | ⟨p, _, _, _, ho, hrev, _⟩
  · rw [h] at hok
    cases hok
  · rw [ho] at hok
    injection hok with hok
    subst hok
    exact ⟨⟨rfl, rfl, rfl, rfl, rfl⟩, rfl, hrev⟩

/-- User 21 reviews paper 2 of `sampleDB` with `reject` and score 1: the review returned
carries these values and the four criteria at 0. -/
theorem createReview_returns_inputs_witness :
    ∃ review, (ReviewService.CreateReview sampleDB (rejectRequest 2) 21).1 = .ok review ∧
      review.Score = 1 ∧ review.Recommendation = "reject" ∧ review.ReviewerID = 21 ∧
      review.Metadata.ReviewCriteria =
        [("originality", 0), ("methodology", 0), ("clarity", 0), ("significance", 0)] :=
  ⟨_, rfl,
    (createReview_returns_inputs sampleDB (rejectRequest 2) 21 _ rfl).1.2.2.2.1,
    (createReview_returns_inputs sampleDB (rejectRequest 2) 21 _ rfl).1.2.2.2.2,
    (createReview_returns_inputs sampleDB (rejectRequest 2) 21 _ rfl).1.2.1,
    congrArg ReviewMetadata.ReviewCriteria
      (createReview_returns_inputs sampleDB (rejectRequest 2) 21 _ rfl).2.1⟩

/-! ## Rejection leaves no trace -/

/-- C28: when `CreateReview` returns an error the database is the one before; it does so
with record not found when no paper has the id, with the not-available error when the
paper's status is neither `submitted` nor `under_review`, and with the already-reviewed
error when the paper is reviewable and the reviewer has a review of it. -/
theorem createReview_rejection_atomic (db : DB) (hpk : db.PrimaryKeys)
    (req : CreateReviewRequest) (reviewerID : Nat) :
    (∀ err, (ReviewService.CreateReview db req reviewerID).1 = .error err →
      (ReviewService.CreateReview db req reviewerID).2 = db) ∧
    ((∀ p ∈ db.papers, p.ID ≠ req.PaperID) →
      ReviewService.CreateReview db req reviewerID = (.error .ErrRecordNotFound, db)) ∧
    (∀ p ∈ db.papers, p.ID = req.PaperID →
      (p.Status ≠ "submitted" ∧ p.Status ≠ "under_review" →
        ReviewService.CreateReview db req reviewerID =
          (.error (.New "paper is not available for review"), db)) ∧
      (p.Status = "submitted" ∨ p.Status = "under_review" →
        (∃ r ∈ db.reviews, r.PaperID = req.PaperID ∧ r.ReviewerID = reviewerID) →
        ReviewService.CreateReview db req reviewerID =
          (.error (.New "you have already reviewed this paper"), db))) := by
  refine ⟨fun err herr => ?_, fun habs => ?_, fun p hp hid => ⟨fun hs => ?_, fun hs hex => ?_⟩⟩
  · rcases createReview_cases db req reviewerID with ⟨e, h, _⟩ | ⟨p, _, _, _, ho, _, _⟩
    · rw [h]
    · rw [ho] at herr
      cases herr
  · unfold ReviewService.CreateReview
    rw [paper_getByID_absent db req.PaperID habs]
  · have hget := paper_getByID_of_mem db hpk p hp
    rw [hid] at hget
    unfold ReviewService.CreateReview
    rw [hget]
    simp [hs.1, hs.2]
  · have hget := paper_getByID_of_mem db hpk p hp
    rw [hid] at hget
    obtain ⟨r, hprobe⟩ := review_probe_some db req.PaperID reviewerID hex
    unfold ReviewService.CreateReview
    rw [hget]
    rcases hs with hs | hs <;> simp [hs, hprobe]

/-- In `sampleDB`, a review of the draft paper 1 is refused and nothing is written. -/
theorem createReview_rejection_atomic_witness :
    sampleDB.PrimaryKeys ∧
    ReviewService.CreateReview sampleDB (sampleRequest 1) 21 =
      (.error (.New "paper is not available for review"), sampleDB) ∧
    (ReviewService.CreateReview sampleDB (sampleRequest 9) 21).2 = sampleDB :=
  ⟨by decide,
    ((createReview_rejection_atomic sampleDB (by decide) (sampleRequest 1) 21).2.2
      (samplePaper 1 10 "draft") (by decide) rfl).1 (by decide),
    (createReview_rejection_atomic sampleDB (by decide) (sampleRequest 9) 21).1
      .ErrRecordNotFound (by decide)⟩

/-! ## The gate and the creation checks -/

theorem eligibility_cases (db : DB) (paperID userID : Nat) :
    (ReviewService.CheckReviewEligibility db paperID userID = .ok () ↔
      ∃ p, PaperRepository.GetByID db paperID = .ok p ∧ p.OwnerID ≠ userID ∧
        (p.Status = "submitted" ∨ p.Status = "under_review") ∧
        ReviewRepository.GetByPaperAndReviewer db paperID userID = none) ∧
    (∀ p r, PaperRepository.GetByID db paperID = .ok p → p.OwnerID ≠ userID →
      (p.Status = "submitted" ∨ p.Status = "under_review") →
      ReviewRepository.GetByPaperAndReviewer db paperID userID = some r →
      ReviewService.CheckReviewEligibility db paperID userID =
        .error (.New "you have already reviewed this paper")) := by
  unfold ReviewService.CheckReviewEligibility
  constructor
  · cases hget : PaperRepository.GetByID db paperID with
    | error err => simp
    | ok p =>
      by_cases ho : p.OwnerID = userID
      · simp [ho]
      · by_cases h1 : p.Status = "submitted"
        · cases hprobe : ReviewRepository.GetByPaperAndReviewer db paperID userID <;>
            simp [ho, h1, hprobe]
        · by_cases h2 : p.Status = "under_review"
          · cases hprobe : ReviewRepository.GetByPaperAndReviewer db paperID userID <;>
              simp [ho, h2, hprobe]
          · simp [ho, h1, h2]
  · intro p r hget ho hs hprobe
    rw [hget]
    rcases hs with hs | hs <;> simp [ho, hs, hprobe]

/-- C29: when `CheckReviewEligibility` returns no error for a paper and a user,
`CreateReview` by that user with a request for that paper returns a review if the storage
accepts the row, that is if the score is from 1 to 10, and otherwise returns the error of
the column check and leaves the database as it was; and when `CreateReview` returns an
error of its own checks, any error but that of the column check,
`CheckReviewEligibility` for the paper and the user returns an error too. -/
theorem eligibility_agrees_with_create (db : DB) (paperID userID : Nat) :
    (ReviewService.CheckReviewEligibility db paperID userID = .ok () →
      ∀ req : CreateReviewRequest, req.PaperID = paperID →
        (1 ≤ req.Score ∧ req.Score ≤ 10 →
          ∃ review, (ReviewService.CreateReview db req userID).1 = .ok review) ∧
        (¬ (1 ≤ req.Score ∧ req.Score ≤ 10) →
          ReviewService.CreateReview db req userID = (.error .CheckViolation, db))) ∧
    (∀ (req : CreateReviewRequest) (err : Err), req.PaperID = paperID →
      (ReviewService.CreateReview db req userID).1 = .error err → err ≠ .CheckViolation →
      ∃ err2, ReviewService.CheckReviewEligibility db paperID userID = .error err2) := by
  have hfwd : ReviewService.CheckReviewEligibility db paperID userID = .ok () →
      ∀ req : CreateReviewRequest, req.PaperID = paperID →
        (1 ≤ req.Score ∧ req.Score ≤ 10 →
          ∃ review, (ReviewService.CreateReview db req userID).1 = .ok review) ∧
        (¬ (1 ≤ req.Score ∧ req.Score ≤ 10) →
          ReviewService.CreateReview db req userID = (.error .CheckViolation, db)) := by
    intro helig req hid
    obtain ⟨p, hget, _, hs, hprobe⟩ := (eligibility_cases db paperID userID).1.1 helig
    subst hid
    rcases createReview_cases db req userID with ⟨e, hrun, hc⟩ | ⟨_, _, _, _, ho, _, _, hsc⟩
    · have he : e = .CheckViolation ∧ ¬ (1 ≤ req.Score ∧ req.Score ≤ 10) := by
        rcases hc with a | ⟨q, a, b, _⟩ | ⟨q, r, _, _, c, _⟩ | ⟨q, _, _, _, d, he⟩
        · rw [a] at hget; cases hget
        · rw [a] at hget; injection hget with hget; subst hget; exact absurd hs b
        · rw [c] at hprobe; cases hprobe
        · exact ⟨he, d⟩
      rw [he.1] at hrun
      exact ⟨fun h => absurd h he.2, fun _ => hrun⟩
    · exact ⟨fun _ => ⟨_, ho⟩, fun hn => absurd hsc hn⟩
  refine ⟨hfwd, fun req err hid herr hown => ?_⟩
  cases helig : ReviewService.CheckReviewEligibility db paperID userID with
  | error err2 => exact ⟨err2, rfl⟩
  | ok u =>
    exfalso
    by_cases hsc : 1 ≤ req.Score ∧ req.Score ≤ 10
    · obtain ⟨review, hok⟩ := (hfwd helig req hid).1 hsc
      rw [hok] at herr
      cases herr
    · rw [(hfwd helig req hid).2 hsc] at herr
      injection herr with herr
      exact hown herr.symm

/-- In `sampleDB`, user 21 is eligible for paper 2 and the creation succeeds with score 8,
and fails on the column check with score 0; the creation on the draft paper 1 is refused
and so is the gate. -/
theorem eligibility_agrees_with_create_witness :
    ReviewService.CheckReviewEligibility sampleDB 2 21 = .ok () ∧
    (∃ review, (ReviewService.CreateReview sampleDB (sampleRequest 2) 21).1 = .ok review) ∧
    ReviewService.CreateReview sampleDB (scoredRequest 2 0) 21 =
      (.error .CheckViolation, sampleDB) ∧
    (∃ err2, ReviewService.CheckReviewEligibility sampleDB 1 21 = .error err2) :=
  ⟨by decide,
    ((eligibility_agrees_with_create sampleDB 2 21).1 (by decide) (sampleRequest 2) rfl).1
      (by decide),
    ((eligibility_agrees_with_create sampleDB 2 21).1 (by decide) (scoredRequest 2 0) rfl).2
      (by decide),
    (eligibility_agrees_with_create sampleDB 1 21).2 (sampleRequest 1)
      (.New "paper is not available for review") rfl (by decide) (by decide)⟩

/-! ## After a review -/

theorem pending_unpaged (db : DB) (reviewerID : Nat) (limit : Int)
    (hlimit : limit < 0 ∨ (db.papers.length : Int) ≤ limit) (p : Paper) :
    p ∈ ReviewService.GetPendingReviews db reviewerID 1 limit ↔
      p ∈ db.papers ∧ (p.Status = "submitted" ∨ p.Status = "under_review") ∧
        ∀ r ∈ db.reviews, r.PaperID = p.ID → r.ReviewerID ≠ reviewerID := by
  have hoff : wrapInt64 (wrapInt64 (1 - 1) * limit) = 0 := by
    have h0 : wrapInt64 (1 - 1) = 0 := by decide
    rw [h0, zero_mul]
    decide
  unfold ReviewService.GetPendingReviews PaperRepository.GetPendingReviews
  simp only [hoff]
  rw [limitOffset_all, mem_pending_iff]
  rcases hlimit with h | h
  · exact Or.inl h
  · right
    have := List.length_filter_le (fun p : Paper =>
      (p.Status == "submitted" || p.Status == "under_review") &&
        !((db.reviews.filter (fun r => r.ReviewerID == reviewerID)).map
          (fun r => r.PaperID)).contains p.ID) db.papers
    omega

theorem createReview_ok_target (db : DB) (hpk : db.PrimaryKeys) (p : Paper) (hp : p ∈ db.papers)
    (req : CreateReviewRequest) (reviewerID : Nat) (review : Review) (hid : req.PaperID = p.ID)
    (hok : (ReviewService.CreateReview db req reviewerID).1 = .ok review) :
    ∃ q ∈ (ReviewService.CreateReview db req reviewerID).2.papers,
      q.ID = p.ID ∧ q.Status = "under_review" ∧ q.OwnerID = p.OwnerID := by
  rcases createReview_ok_paper db hpk p hp req reviewerID review hid hok with
    ⟨_, hmem⟩ | ⟨hur, hmem⟩
  · exact ⟨_, hmem, rfl, rfl, rfl⟩
  · exact ⟨p, hmem, rfl, hur, rfl⟩

/-- C30: after a `CreateReview` by reviewer R that returned a review of the stored paper
P, no page of `GetPendingReviews` for R holds a paper with the key of P, and
`CheckReviewEligibility` of P for R returns the already-reviewed error (R not being the
owner); for any other user who is not the owner and has no review of P, the check returns
no error and P is among the pending papers of that user. -/
theorem after_createReview (db : DB) (hpk : db.PrimaryKeys) (p : Paper) (hp : p ∈ db.papers)
    (req : CreateReviewRequest) (reviewerID : Nat) (review : Review) (hid : req.PaperID = p.ID)
    (hok : (ReviewService.CreateReview db req reviewerID).1 = .ok review) :
    (∀ (page limit : Int),
      ∀ q ∈ ReviewService.GetPendingReviews (ReviewService.CreateReview db req reviewerID).2
        reviewerID page limit, q.ID ≠ p.ID) ∧
    (reviewerID ≠ p.OwnerID →
      ReviewService.CheckReviewEligibility (ReviewService.CreateReview db req reviewerID).2
        p.ID reviewerID = .error (.New "you have already reviewed this paper")) ∧
    (∀ other : Nat, other ≠ reviewerID → other ≠ p.OwnerID →
      (∀ r ∈ db.reviews, r.PaperID = p.ID → r.ReviewerID ≠ other) →
      ReviewService.CheckReviewEligibility (ReviewService.CreateReview db req reviewerID).2
        p.ID other = .ok () ∧
      ∀ limit : Int,
        limit < 0 ∨
          (((ReviewService.CreateReview db req reviewerID).2.papers.length : Nat) : Int) ≤ limit →
        ∃ q ∈ ReviewService.GetPendingReviews (ReviewService.CreateReview db req reviewerID).2
          other 1 limit, q.ID = p.ID) := by
  have hpk1 : (ReviewService.CreateReview db req reviewerID).2.PrimaryKeys :=
    pk_run db (.CreateReview req reviewerID) hpk
  obtain ⟨hfields, _, hreviews⟩ : (review.PaperID = req.PaperID ∧ review.ReviewerID = reviewerID ∧
      review.Comment = req.Comment ∧ review.Score = req.Score ∧
      review.Recommendation = req.Recommendation) ∧ True ∧
      (ReviewService.CreateReview db req reviewerID).2.reviews = db.reviews ++ [review] := by
    rcases createReview_cases db req reviewerID with ⟨e, h, _⟩ | ⟨_, _, _, _, ho, hrev, _⟩
    · rw [h] at hok
      cases hok
    · rw [ho] at hok
      injection hok with hok
      subst hok
      exact ⟨⟨rfl, rfl, rfl, rfl, rfl⟩, trivial, hrev⟩
  have hrevmem : review ∈ (ReviewService.CreateReview db req reviewerID).2.reviews := by
    rw [hreviews]
    exact List.mem_append.2 (Or.inr (List.mem_singleton.2 rfl))
  obtain ⟨q0, hq0, hq0id, hq0s, hq0o⟩ :=
    createReview_ok_target db hpk p hp req reviewerID review hid hok
  have hget : PaperRepository.GetByID (ReviewService.CreateReview db req reviewerID).2 p.ID =
      .ok q0 := by
    rw [← hq0id]
    exact paper_getByID_of_mem _ hpk1 q0 hq0
  refine ⟨fun page limit q hq hqid => ?_, fun howner => ?_, fun other hne hno hnone => ?_⟩
  · unfold ReviewService.GetPendingReviews PaperRepository.GetPendingReviews at hq
    have hq2 := (mem_pending_iff _ reviewerID q).1 (mem_of_mem_limitOffset _ _ _ q hq)
    exact hq2.2.2 review hrevmem (by rw [hfields.1, hid, hqid]) hfields.2.1
  · obtain ⟨r, hprobe⟩ := review_probe_some (ReviewService.CreateReview db req reviewerID).2
      p.ID reviewerID ⟨review, hrevmem, by rw [hfields.1, hid], hfields.2.1⟩
    exact (eligibility_cases _ p.ID reviewerID).2 q0 r hget
      (by rw [hq0o]; exact Ne.symm howner) (Or.inr hq0s) hprobe
  · have hnone2 : ∀ r ∈ (ReviewService.CreateReview db req reviewerID).2.reviews,
        r.PaperID = p.ID → r.ReviewerID ≠ other := by
      intro r hr hrp
      rw [hreviews] at hr
      rcases List.mem_append.1 hr with hr | hr
      · exact hnone r hr hrp
      · rw [List.mem_singleton.1 hr, hfields.2.1]
        exact Ne.symm hne
    constructor
    · apply (eligibility_cases _ p.ID other).1.2
      refine ⟨q0, hget, by rw [hq0o]; exact Ne.symm hno, Or.inr hq0s, ?_⟩
      apply review_probe_none
      intro r hr hboth
      exact hnone2 r hr hboth.1 hboth.2
    · intro limit hlimit
      refine ⟨q0, ?_, hq0id⟩
      rw [pending_unpaged _ other limit hlimit q0]
      exact ⟨hq0, Or.inr hq0s, fun r hr hrp => hnone2 r hr (hrp.trans hq0id)⟩

/-- In `sampleDB`, user 21 reviews the submitted paper 2: the paper no longer waits for
user 21, who is told the review is made, and it still waits for user 22, who is
eligible. -/
theorem after_createReview_witness :
    sampleDB.PrimaryKeys ∧ samplePaper 2 10 "submitted" ∈ sampleDB.papers ∧
    (∀ q ∈ ReviewService.GetPendingReviews
        (ReviewService.CreateReview sampleDB (sampleRequest 2) 21).2 21 1 10, q.ID ≠ 2) ∧
    ReviewService.CheckReviewEligibility
        (ReviewService.CreateReview sampleDB (sampleRequest 2) 21).2 2 21 =
      .error (.New "you have already reviewed this paper") ∧
    ReviewService.CheckReviewEligibility
        (ReviewService.CreateReview sampleDB (sampleRequest 2) 21).2 2 22 = .ok () ∧
    (∃ q ∈ ReviewService.GetPendingReviews
        (ReviewService.CreateReview sampleDB (sampleRequest 2) 21).2 22 1 10, q.ID = 2) :=
  ⟨by decide, by decide,
    (after_createReview sampleDB (by decide) (samplePaper 2 10 "submitted") (by decide)
      (sampleRequest 2) 21 _ rfl rfl).1 1 10,
    (after_createReview sampleDB (by decide) (samplePaper 2 10 "submitted") (by decide)
      (sampleRequest 2) 21 _ rfl rfl).2.1 (by decide),
    ((after_createReview sampleDB (by decide) (samplePaper 2 10 "submitted") (by decide)
      (sampleRequest 2) 21 _ rfl rfl).2.2 22 (by decide) (by decide) (by decide)).1,
    ((after_createReview sampleDB (by decide) (samplePaper 2 10 "submitted") (by decide)
      (sampleRequest 2) 21 _ rfl rfl).2.2 22 (by decide) (by decide) (by decide)).2 10
      (Or.inr (by decide))⟩

end NftPlatform
